import Mathlib

/-!
# ChibiOS: ARMv7-M port (`os/common/ports/ARMCMx/chcore_v7m.c`) and the tick
handler (`src/chinit.c`)

Shallow embedding of the exception-exit protocol of the ARMv7-M port and of
the system tick handler, followed by the properties proved about them.

Conventions.
* `uint32_t` values are naturals reduced modulo `2^32`; pointer arithmetic is
  arithmetic modulo `2^32` on a flat byte-addressed memory.
* Memory is a map from byte addresses to bytes; 32-bit accesses are
  little-endian (ARMv7-M data accesses).
* Constants, structure layouts and symbols that are declared in headers which
  are not part of the available sources are fields of `PortConfig`.
-/

namespace ChibiOS

/-! ## Machine words and memory -/

/-- Truncation of a natural number to a `uint32_t`. -/
def wrap32 (x : Nat) : Nat := x % 4294967296

/-- Addition on `uint32_t`. -/
def add32 (a b : Nat) : Nat := (a + b) % 4294967296

/-- Subtraction on `uint32_t`. -/
def sub32 (a b : Nat) : Nat := (a + 4294967296 - b % 4294967296) % 4294967296

/-- Byte-addressed memory: the byte stored at each address. -/
abbrev Memory := Nat → Nat

/-- Byte load; the address is taken modulo the 32-bit address space. -/
def loadByte (m : Memory) (a : Nat) : Nat := m (a % 4294967296) % 256

/-- Byte store; the address is taken modulo the 32-bit address space. -/
def storeByte (m : Memory) (a v : Nat) : Memory :=
  fun x => if x = a % 4294967296 then v % 256 else m x

/-- Little-endian 16-bit load (`*(const uint16_t *)a`). -/
def read16 (m : Memory) (a : Nat) : Nat :=
  loadByte m a + 256 * loadByte m (a + 1)

/-- Little-endian 32-bit load. -/
def read32 (m : Memory) (a : Nat) : Nat :=
  loadByte m a + 256 * loadByte m (a + 1) + 65536 * loadByte m (a + 2)
    + 16777216 * loadByte m (a + 3)

/-- Little-endian 32-bit store of the low 32 bits of `v`. -/
def write32 (m : Memory) (a v : Nat) : Memory :=
  storeByte (storeByte (storeByte (storeByte m a v) (a + 1) (v / 256))
    (a + 2) (v / 65536)) (a + 3) (v / 16777216)

/-- The 32-bit words at `a` and `b` share no byte (addresses modulo `2^32`). -/
def wordsDisjoint (a b : Nat) : Prop :=
  4 ≤ sub32 a b ∧ sub32 a b ≤ 4294967292

instance (a b : Nat) : Decidable (wordsDisjoint a b) := by
  unfold wordsDisjoint; infer_instance

/-! ## Configuration of the port

Everything below is declared in headers outside the available sources
(`chcore_v7m.h`, CMSIS, the linker script); the port code is parametric in it.
-/

/-- Build-time switches, structure layouts, CMSIS masks and code symbols used
by `chcore_v7m.c`. Offsets and sizes are in bytes. -/
structure PortConfig where
  /-- Switch `PORT_USE_SYSCALL`. -/
  PORT_USE_SYSCALL : Bool
  /-- Switch `CORTEX_USE_FPU`. -/
  CORTEX_USE_FPU : Bool
  /-- Switch `CORTEX_SIMPLIFIED_PRIORITY`. -/
  CORTEX_SIMPLIFIED_PRIORITY : Bool
  /-- Switch `CH_DBG_ENABLE_ASSERTS`: whether `chDbgAssert` is compiled in. -/
  CH_DBG_ENABLE_ASSERTS : Bool
  /-- Value of `sizeof (struct port_extctx)`. -/
  sizeof_extctx : Nat
  /-- Offset of `r0` in `struct port_extctx`. -/
  off_r0 : Nat
  /-- Offset of `r1` in `struct port_extctx`. -/
  off_r1 : Nat
  /-- Offset of `pc` in `struct port_extctx`. -/
  off_pc : Nat
  /-- Offset of `xpsr` in `struct port_extctx`. -/
  off_xpsr : Nat
  /-- Offset of `fpscr` in `struct port_extctx` (present with the FPU only). -/
  off_fpscr : Nat
  /-- Value of `sizeof (struct port_midctx)`. -/
  sizeof_midctx : Nat
  /-- Offset of `control` in `struct port_midctx`. -/
  off_control : Nat
  /-- Offset of `ectxp` in `struct port_midctx`. -/
  off_ectxp : Nat
  /-- Mask `SCB_ICSR_RETTOBASE_Msk`. -/
  SCB_ICSR_RETTOBASE_Msk : Nat
  /-- Mask `FPU_FPCCR_LSPACT_Msk`. -/
  FPU_FPCCR_LSPACT_Msk : Nat
  /-- Address of the routine `_port_switch_from_isr`. -/
  _port_switch_from_isr : Nat
  /-- Address of the routine `_port_exit_from_isr`. -/
  _port_exit_from_isr : Nat
  /-- Address of the dispatcher `port_syscall`. -/
  port_syscall : Nat

/-- Two fields at offsets `o1` and `o2` of one structure occupy different words. -/
def fieldsApart (o1 o2 : Nat) : Prop := o1 + 4 ≤ o2 ∨ o2 + 4 ≤ o1

instance (o1 o2 : Nat) : Decidable (fieldsApart o1 o2) := by
  unfold fieldsApart; infer_instance

/-- Sanity of a configuration: every field used lies inside its structure,
distinct fields do not overlap, the two structures fit in the address space,
code addresses are 32-bit values and the two exit routines are distinct. -/
def PortConfig.WF (c : PortConfig) : Prop :=
  c.sizeof_extctx + c.sizeof_midctx ≤ 4294967296 ∧
  c.off_r0 + 4 ≤ c.sizeof_extctx ∧ c.off_r1 + 4 ≤ c.sizeof_extctx ∧
  c.off_pc + 4 ≤ c.sizeof_extctx ∧ c.off_xpsr + 4 ≤ c.sizeof_extctx ∧
  fieldsApart c.off_r0 c.off_r1 ∧ fieldsApart c.off_r0 c.off_pc ∧
  fieldsApart c.off_r0 c.off_xpsr ∧ fieldsApart c.off_r1 c.off_pc ∧
  fieldsApart c.off_r1 c.off_xpsr ∧ fieldsApart c.off_pc c.off_xpsr ∧
  (c.CORTEX_USE_FPU = true →
    c.off_fpscr + 4 ≤ c.sizeof_extctx ∧ fieldsApart c.off_fpscr c.off_r0 ∧
    fieldsApart c.off_fpscr c.off_r1 ∧ fieldsApart c.off_fpscr c.off_pc ∧
    fieldsApart c.off_fpscr c.off_xpsr) ∧
  c.off_control + 4 ≤ c.sizeof_midctx ∧ c.off_ectxp + 4 ≤ c.sizeof_midctx ∧
  fieldsApart c.off_control c.off_ectxp ∧
  c._port_switch_from_isr < 4294967296 ∧ c._port_exit_from_isr < 4294967296 ∧
  c.port_syscall < 4294967296 ∧
  c._port_switch_from_isr ≠ c._port_exit_from_isr

instance (c : PortConfig) : Decidable c.WF := by
  unfold PortConfig.WF; infer_instance

/-! ## Machine state -/

/-- The part of the processor, kernel and memory state that the port code
reads or writes. -/
structure MachineState where
  /-- Process stack pointer register `PSP`. -/
  psp : Nat
  /-- Register `CONTROL`; bit 0 set means unprivileged thread mode. -/
  control : Nat
  /-- Register `SCB->ICSR`. -/
  icsr : Nat
  /-- Register `FPU->FPCCR`. -/
  fpccr : Nat
  /-- Register `FPU->FPDSCR`. -/
  fpdscr : Nat
  /-- Return address of the running handler (`__builtin_return_address(0)`),
  which in a handler is the exception-return value. -/
  return_address : Nat
  /-- Field `currthread->ctx.s_psp`: supervisor stack pointer of the thread. -/
  s_psp : Nat
  /-- Kernel lock: interrupts masked at kernel level. -/
  locked : Bool
  /-- Byte-addressed memory. -/
  mem : Memory

/-- The registers hold 32-bit values. -/
def MachineState.WF (s : MachineState) : Prop :=
  s.psp < 4294967296 ∧ s.control < 4294967296 ∧ s.s_psp < 4294967296

instance (s : MachineState) : Decidable s.WF := by
  unfold MachineState.WF; infer_instance

/-- Intrinsic `__get_PSP()`. -/
def __get_PSP (s : MachineState) : Nat := wrap32 s.psp

/-- Intrinsic `__set_PSP(v)`. -/
def __set_PSP (s : MachineState) (v : Nat) : MachineState := { s with psp := wrap32 v }

/-- Intrinsic `__get_CONTROL()`. -/
def __get_CONTROL (s : MachineState) : Nat := wrap32 s.control

/-- Intrinsic `__set_CONTROL(v)`. -/
def __set_CONTROL (s : MachineState) (v : Nat) : MachineState := { s with control := wrap32 v }

/-- A 32-bit store `*(regarm_t *)a = v` performed by the running code. -/
def store32 (s : MachineState) (a v : Nat) : MachineState :=
  { s with mem := write32 s.mem a v }

/-- Modelled from the spec: `port_lock_from_isr` is a macro of `chcore_v7m.h`,
which is not part of the available sources. Per the spec (section 5) the
kernel critical section is entered by masking interrupts at kernel level; the
model records that the mask is raised. -/
def port_lock_from_isr (s : MachineState) : MachineState := { s with locked := true }

/-- Modelled from the spec: `port_unlock_from_isr` is a macro of
`chcore_v7m.h`, which is not part of the available sources. It leaves the
kernel critical section by lowering the interrupt mask. -/
def port_unlock_from_isr (s : MachineState) : MachineState := { s with locked := false }

/-! ## `chcore_v7m.c`: interrupt handlers -/

/-- The statement `FPU->FPCCR &= ~FPU_FPCCR_LSPACT_Msk`, compiled in with the
FPU only. -/
def clear_LSPACT (c : PortConfig) (s : MachineState) : MachineState :=
  if c.CORTEX_USE_FPU then
    { s with fpccr := wrap32 s.fpccr &&& (0xFFFFFFFF ^^^ wrap32 c.FPU_FPCCR_LSPACT_Msk) }
  else s

/-- The condition of the `chDbgAssert` at the start of `SVC_Handler`:
`((uint32_t)__builtin_return_address(0) & 4U) == 0U`. -/
def SVC_Handler_assertion (s : MachineState) : Bool :=
  (wrap32 s.return_address &&& 4) == 0

/-- The expression `(uint32_t)*(((const uint16_t *)ectxp->pc) - 1U) & 255U`:
number of the SVC instruction that trapped, read through the stacked `pc` of
the caller context `ectxp`. -/
def svc_number (c : PortConfig) (m : Memory) (ectxp : Nat) : Nat :=
  read16 m (sub32 (read32 m (ectxp + c.off_pc)) 2) &&& 255

/-- Branch of `SVC_Handler` taken from non-privileged mode (syscall entry),
`chcore_v7m.c` lines 91-122. `psp` is the value read at handler entry. -/
def SVC_Handler_syscall (c : PortConfig) (s : MachineState) (psp : Nat) : MachineState :=
  let ectxp := psp
  let s_psp := wrap32 s.s_psp
  let s_psp := sub32 s_psp c.sizeof_midctx
  let mctxp := s_psp
  let control := __get_CONTROL s
  let s := store32 s (mctxp + c.off_control) control
  let s := store32 s (mctxp + c.off_ectxp) ectxp
  let s := __set_CONTROL s (control &&& 0xFFFFFFFE)
  let n := svc_number c s.mem ectxp
  let s_psp := sub32 s_psp c.sizeof_extctx
  let s := __set_PSP s s_psp
  let newctxp := s_psp
  let s := store32 s (newctxp + c.off_r0) ectxp
  let s := store32 s (newctxp + c.off_r1) n
  let s := store32 s (newctxp + c.off_pc) c.port_syscall
  let s := store32 s (newctxp + c.off_xpsr) 0x01000000
  if c.CORTEX_USE_FPU then store32 s (newctxp + c.off_fpscr) (wrap32 s.fpdscr) else s

/-- Branch of `SVC_Handler` taken from privileged mode (context discarding),
`chcore_v7m.c` lines 126-154. `psp` is the value read at handler entry. -/
def SVC_Handler_privileged (c : PortConfig) (s : MachineState) (psp : Nat) : MachineState :=
  let psp := add32 psp c.sizeof_extctx
  let s := clear_LSPACT c s
  let s :=
    if c.PORT_USE_SYSCALL then
      let mctxp := psp
      let s := __set_CONTROL s (read32 s.mem (mctxp + c.off_control))
      __set_PSP s (read32 s.mem (mctxp + c.off_ectxp))
    else
      __set_PSP s psp
  port_unlock_from_isr s

/-- Handler `SVC_Handler` (compiled when `CORTEX_SIMPLIFIED_PRIORITY` is
false). The result is `none` when the debug assertion fails: `chDbgAssert`
then halts the system and the handler never returns. -/
def SVC_Handler (c : PortConfig) (s : MachineState) : Option MachineState :=
  let psp := __get_PSP s
  if c.CH_DBG_ENABLE_ASSERTS && !SVC_Handler_assertion s then none
  else if c.PORT_USE_SYSCALL then
    let control := __get_CONTROL s
    if (control &&& 1) ≠ 0 then some (SVC_Handler_syscall c s psp)
    else some (SVC_Handler_privileged c s psp)
  else some (SVC_Handler_privileged c s psp)

/-- Handler `PendSV_Handler` (compiled when `CORTEX_SIMPLIFIED_PRIORITY` is
true). -/
def PendSV_Handler (c : PortConfig) (s : MachineState) : MachineState :=
  let psp := __get_PSP s
  let s := clear_LSPACT c s
  let psp := add32 psp c.sizeof_extctx
  if c.PORT_USE_SYSCALL then
    let mctxp := psp
    let s := __set_CONTROL s (read32 s.mem (mctxp + c.off_control))
    let psp := add32 psp c.sizeof_midctx
    __set_PSP s psp
  else
    __set_PSP s psp

/-! ## `chcore_v7m.c`: exception exit redirection -/

/-- Second half of the base-level branch of `_port_irq_epilogue`
(`chcore_v7m.c` lines 309-339): the artificial exception return context is
added below `s_psp`. `preemption` is the value returned by
`chSchIsPreemptionRequired()`. The function returns without unlocking. -/
def epilogue_frame (c : PortConfig) (preemption : Bool) (s : MachineState) (s_psp : Nat) :
    MachineState :=
  let s_psp := sub32 s_psp c.sizeof_extctx
  let ctxp := s_psp
  let s := store32 s (ctxp + c.off_xpsr) 0x01000000
  let s := if c.CORTEX_USE_FPU then store32 s (ctxp + c.off_fpscr) (wrap32 s.fpdscr) else s
  let s := __set_PSP s s_psp
  if preemption then store32 s (ctxp + c.off_pc) c._port_switch_from_isr
  else store32 s (ctxp + c.off_pc) c._port_exit_from_isr

/-- Function `_port_irq_epilogue`. The scheduler query
`chSchIsPreemptionRequired()` is defined outside the available sources; its
result is the argument `preemption`, which the function uses only where the
source calls the query. The read `(void) __get_FPSCR()` has no effect on the
state modelled here. -/
def _port_irq_epilogue (c : PortConfig) (preemption : Bool) (s : MachineState) :
    MachineState :=
  let s := port_lock_from_isr s
  if (wrap32 s.icsr &&& c.SCB_ICSR_RETTOBASE_Msk) ≠ 0 then
    if c.PORT_USE_SYSCALL then
      let control := __get_CONTROL s
      if (control &&& 1) ≠ 0 then
        let s := __set_CONTROL s (control &&& 0xFFFFFFFE)
        let s_psp := wrap32 s.s_psp
        let s_psp := sub32 s_psp c.sizeof_midctx
        let mctxp := s_psp
        let s := store32 s (mctxp + c.off_control) control
        let s := store32 s (mctxp + c.off_ectxp) (__get_PSP s)
        epilogue_frame c preemption s s_psp
      else
        let psp := __get_PSP s
        let s_psp := sub32 psp c.sizeof_midctx
        let mctxp := s_psp
        let s := store32 s (mctxp + c.off_control) control
        let s := store32 s (mctxp + c.off_ectxp) psp
        epilogue_frame c preemption s s_psp
    else
      epilogue_frame c preemption s (__get_PSP s)
  else
    port_unlock_from_isr s

/-! ## `chinit.c`: the tick handler -/

/-- Build-time switches and integer widths used by `chSysTimerHandlerI`; the
type `systime_t` is declared outside the available sources. -/
structure KernelConfig where
  /-- Whether `CH_USE_SYSTEMTIME` is defined. -/
  CH_USE_SYSTEMTIME : Bool
  /-- Whether `CH_USE_VIRTUAL_TIMERS` is defined. -/
  CH_USE_VIRTUAL_TIMERS : Bool
  /-- Width in bits of the unsigned type `systime_t`. -/
  systime_bits : Nat

/-- The fields of the ready list header `rlist` that the tick handler uses.
`r_preempt` has the counter type `cnt_t` (declared outside the available
sources); an integer covers both a signed and an unsigned counter because its
only update is a guarded decrement. -/
structure ReadyList where
  /-- Remaining quantum of the running thread. -/
  r_preempt : Int
  /-- System tick counter. -/
  r_stime : Nat

/-- Kernel state seen by the tick handler: the ready list header and the rest
of the kernel state (timer list, threads), of an arbitrary type `K`. -/
structure Kernel (K : Type) where
  /-- Global `rlist`. -/
  rlist : ReadyList
  /-- Everything else. -/
  rest : K

/-- Function `chSysTimerHandlerI`. The virtual-timer pass `chVTDoTickI` is
defined outside the available sources and is a parameter. -/
def chSysTimerHandlerI {K : Type} (c : KernelConfig) (chVTDoTickI : Kernel K → Kernel K)
    (k : Kernel K) : Kernel K :=
  let k :=
    if k.rlist.r_preempt > 0 then
      { k with rlist := { k.rlist with r_preempt := k.rlist.r_preempt - 1 } }
    else k
  let k :=
    if c.CH_USE_SYSTEMTIME then
      { k with rlist := { k.rlist with r_stime := (k.rlist.r_stime + 1) % 2 ^ c.systime_bits } }
    else k
  if c.CH_USE_VIRTUAL_TIMERS then chVTDoTickI k else k

/-- The state after `n` consecutive ticks. -/
def ticks {K : Type} (c : KernelConfig) (chVTDoTickI : Kernel K → Kernel K) :
    Nat → Kernel K → Kernel K
  | 0, k => k
  | n + 1, k => ticks c chVTDoTickI n (chSysTimerHandlerI c chVTDoTickI k)

/-! ## Concrete configurations and states -/

/-- The ARMv7-M layout without FPU: the exception frame is
`r0 r1 r2 r3 r12 lr pc xpsr`, the middle context is `control ectxp`; full
priority mode, no syscall support, assertions compiled out. -/
def cfgV7M : PortConfig where
  PORT_USE_SYSCALL := false
  CORTEX_USE_FPU := false
  CORTEX_SIMPLIFIED_PRIORITY := false
  CH_DBG_ENABLE_ASSERTS := false
  sizeof_extctx := 32
  off_r0 := 0
  off_r1 := 4
  off_pc := 24
  off_xpsr := 28
  off_fpscr := 96
  sizeof_midctx := 8
  off_control := 0
  off_ectxp := 4
  SCB_ICSR_RETTOBASE_Msk := 0x800
  FPU_FPCCR_LSPACT_Msk := 1
  _port_switch_from_isr := 0x08000101
  _port_exit_from_isr := 0x08000141
  port_syscall := 0x08000181

/-- The same layout with syscall support. -/
def cfgSyscall : PortConfig := { cfgV7M with PORT_USE_SYSCALL := true }

/-- Memory holding zero everywhere. -/
def zeroMem : Memory := fun _ => 0

/-- An outermost interrupt taken from unprivileged thread code: `RETTOBASE`
set, `CONTROL = 3`, user stack at `0x20001000`, supervisor stack at
`0x20002000`. -/
def stBaseUnpriv : MachineState where
  psp := 0x20001000
  control := 3
  icsr := 0x800
  fpccr := 0
  fpdscr := 0
  return_address := 0xFFFFFFFD
  s_psp := 0x20002000
  locked := false
  mem := zeroMem

/-- An outermost interrupt taken from privileged thread code. -/
def stBasePriv : MachineState := { stBaseUnpriv with control := 2 }

/-- A nested interrupt: `RETTOBASE` clear. -/
def stNested : MachineState := { stBaseUnpriv with icsr := 0 }

/-- A kernel configuration with the system time enabled, a 32-bit `systime_t`
and no virtual timers. -/
def kcfg32 : KernelConfig where
  CH_USE_SYSTEMTIME := true
  CH_USE_VIRTUAL_TIMERS := false
  systime_bits := 32

/-- The same configuration with the virtual timers enabled. -/
def kcfgVT : KernelConfig := { kcfg32 with CH_USE_VIRTUAL_TIMERS := true }

/-- A kernel state whose tick counter holds the largest 32-bit value; the
running thread has 5 ticks of quantum left. -/
def kMaxTime : Kernel Unit where
  rlist := { r_preempt := 5, r_stime := 4294967295 }
  rest := ()

/-- A kernel state at tick 100 with 3 ticks of quantum left. -/
def kSample : Kernel Unit where
  rlist := { r_preempt := 3, r_stime := 100 }
  rest := ()

/-- The middle context (`struct port_midctx`) at address `a` reads the same
in the memories `m1` and `m2`. -/
def sameMidctx (c : PortConfig) (m1 m2 : Memory) (a : Nat) : Prop :=
  read32 m1 (a + c.off_control) = read32 m2 (a + c.off_control) ∧
  read32 m1 (a + c.off_ectxp) = read32 m2 (a + c.off_ectxp)

instance (c : PortConfig) (m1 m2 : Memory) (a : Nat) : Decidable (sameMidctx c m1 m2 a) := by
  unfold sameMidctx; infer_instance

/-! ## The steps of a tick, in the words of the specification -/

/-- Step "advance the tick counter" of the specification (section 4.4). -/
def step_advance_tick {K : Type} (c : KernelConfig) (k : Kernel K) : Kernel K :=
  { k with rlist := { k.rlist with r_stime := (k.rlist.r_stime + 1) % 2 ^ c.systime_bits } }

/-- Step "decrement the running thread's quantum" of the specification
(sections 4.1 and 4.4); a quantum already at zero stays at zero. -/
def step_decrement_quantum {K : Type} (k : Kernel K) : Kernel K :=
  if k.rlist.r_preempt > 0 then
    { k with rlist := { k.rlist with r_preempt := k.rlist.r_preempt - 1 } }
  else k

/-- The part of the scheduler state that a round-robin rotation would have to
write: the queue of ready threads (thread identifiers, most urgent first,
FIFO among equal priorities), the running thread, and whether a context
switch has been requested. It stands for the `rest` of the kernel state when
exhibiting what the tick handler leaves untouched. -/
structure SchedView where
  /-- Ready threads. -/
  r_queue : List Nat
  /-- The running thread. -/
  currp : Nat
  /-- Whether a context switch has been requested. -/
  resched : Bool
deriving DecidableEq

/-- Thread 1 runs its last tick of quantum; threads 2 and 3, of the same
priority, are ready; no switch is requested. -/
def kLastTick : Kernel SchedView where
  rlist := { r_preempt := 1, r_stime := 7 }
  rest := { r_queue := [2, 3], currp := 1, resched := false }

/-- A timer pass that only counts how many times it has run. -/
def countingPass (k : Kernel Nat) : Kernel Nat := { k with rest := k.rest + 1 }

/-- A kernel state at tick 41 with 2 ticks of quantum left, whose `rest` is
the number of timer passes run so far (none). -/
def kCount : Kernel Nat where
  rlist := { r_preempt := 2, r_stime := 41 }
  rest := 0

/-! ## `chinit.c`: system initialization

`chSysInit` is in the available sources; the kernel functions it calls
(`chSchInit`, `chDbgInit`, `chVTInit`, `init_thread`, `chSysUnlock`,
`chThdCreateFast`) are not, and are modelled from the specification.
-/

/-- Thread states (`tstate_t`). The source names `PRCURR`, the running state;
the other states are the ones of the thread lifecycle of the specification
(section 3): ready, blocked, terminated. -/
inductive tstate_t where
  | PRREADY
  | PRCURR
  | PRBLOCKED
  | PREXIT
deriving DecidableEq, Repr

/-- The thread objects that a `Thread *` can designate here: the static
object `mainthread` of `chSysInit`, or the thread object placed in the
working area at a given address. -/
inductive ThreadRef where
  | mainthread
  | inArea (workspace : Nat)
deriving DecidableEq, Repr

/-- The fields of a `Thread` object that initialization writes. -/
structure Thread where
  /-- Priority. -/
  p_prio : Nat
  /-- Mode flags. -/
  p_flags : Nat
  /-- Lifecycle state. -/
  p_state : tstate_t
deriving DecidableEq, Repr

/-- The arguments of one thread creation. -/
structure ThreadCreation where
  /-- Priority of the new thread. -/
  prio : Nat
  /-- Address of the working area (stack region). -/
  workspace : Nat
  /-- Size of the working area. -/
  wsize : Nat
  /-- Entry point. -/
  pf : Nat
deriving DecidableEq, Repr

/-- The kernel functions called by `chSysInit`. -/
inductive KCall where
  | chSchInit
  | chDbgInit
  | chVTInit
  | init_thread
  | chSysUnlock
  | chThdCreateFast
deriving DecidableEq, Repr

/-- Constants and static objects used by `chSysInit` that are declared
outside the available sources. -/
structure InitConfig where
  /-- Priority `NORMALPRIO`. -/
  NORMALPRIO : Nat
  /-- Priority `IDLEPRIO`. -/
  IDLEPRIO : Nat
  /-- Constant `IDLE_THREAD_STACK_SIZE`. -/
  IDLE_THREAD_STACK_SIZE : Nat
  /-- Size in bytes of an object declared with `WorkingArea(s, n)`. -/
  sizeof_WorkingArea : Nat → Nat
  /-- Address of the static working area `waIdleThread`. -/
  waIdleThread : Nat
  /-- Address of the function `_IdleThread`. -/
  _IdleThread : Nat

/-- Kernel state during initialization. -/
structure SysState where
  /-- The thread objects. -/
  threads : ThreadRef → Thread
  /-- Pointer `currp` to the running thread. -/
  currp : Option ThreadRef
  /-- The Ready Set: ready threads by priority descending, FIFO among equal
  priorities. -/
  r_queue : List ThreadRef
  /-- Whether a context switch has been requested. -/
  resched : Bool
  /-- Whether the kernel critical section is held (interrupts masked). -/
  locked : Bool
  /-- The threads created so far, oldest first. -/
  created : List ThreadCreation
  /-- The kernel functions called so far, oldest first. -/
  calls : List KCall

/-- Replacement of one thread object. -/
def SysState.setThread (s : SysState) (tp : ThreadRef) (t : Thread) : SysState :=
  { s with threads := fun r => if r = tp then t else s.threads r }

/-- Insertion in a queue ordered by priority descending, behind the threads
of equal priority. -/
def prio_insert (prioOf : ThreadRef → Nat) (tp : ThreadRef) : List ThreadRef → List ThreadRef
  | [] => [tp]
  | x :: xs => if prioOf x < prioOf tp then tp :: x :: xs else x :: prio_insert prioOf tp xs

/-- Modelled from the spec: `chSchInit` is not in the available sources. The
scheduler operation "initialize" creates an empty Ready Set (section 4.1); no
switch is pending. -/
def chSchInit (s : SysState) : SysState :=
  { s with r_queue := [], resched := false, calls := s.calls ++ [KCall.chSchInit] }

/-- Modelled from the spec: `chDbgInit` is not in the available sources and
the specification gives the debug subsystem no effect on the kernel state;
only the call is recorded. -/
def chDbgInit (s : SysState) : SysState :=
  { s with calls := s.calls ++ [KCall.chDbgInit] }

/-- Modelled from the spec: `chVTInit` is not in the available sources. It
initializes the timer list (section 4.4), which is no part of the state
modelled here; only the call is recorded. -/
def chVTInit (s : SysState) : SysState :=
  { s with calls := s.calls ++ [KCall.chVTInit] }

/-- Modelled from the spec: `init_thread` is not in the available sources. It
gives the thread object `tp` its priority and mode (section 3: a thread has a
priority); the lifecycle state is left to the caller. -/
def init_thread (prio mode : Nat) (tp : ThreadRef) (s : SysState) : SysState :=
  { s.setThread tp { s.threads tp with p_prio := prio, p_flags := mode } with
    calls := s.calls ++ [KCall.init_thread] }

/-- Modelled from the spec: `chSysUnlock` is not in the available sources. It
leaves the kernel critical section (section 5), enabling interrupts. -/
def chSysUnlock (s : SysState) : SysState :=
  { s with locked := false, calls := s.calls ++ [KCall.chSysUnlock] }

/-- Modelled from the spec: `chThdCreateFast` is not in the available
sources. A thread is created with a dedicated stack region, an entry point
and a priority (sections 3 and 6); it becomes READY and enters the Ready Set
in priority order, FIFO among equal priorities (section 3); a thread becoming
READY with a higher priority than the running thread requests a switch
(section 4.1). -/
def chThdCreateFast (prio workspace wsize pf : Nat) (s : SysState) : SysState :=
  let tp := ThreadRef.inArea workspace
  let s1 := s.setThread tp { p_prio := prio, p_flags := 0, p_state := tstate_t.PRREADY }
  let higher : Bool :=
    match s.currp with
    | some cur => decide ((s1.threads cur).p_prio < prio)
    | none => false
  { s1 with
    r_queue := prio_insert (fun r => (s1.threads r).p_prio) tp s1.r_queue
    resched := s1.resched || higher
    created := s1.created ++ [{ prio := prio, workspace := workspace, wsize := wsize, pf := pf }]
    calls := s1.calls ++ [KCall.chThdCreateFast] }

/-- Function `chSysInit`. `mainthread` and `waIdleThread` are its static
objects. -/
def chSysInit (k : KernelConfig) (c : InitConfig) (s : SysState) : SysState :=
  let s := chSchInit s
  let s := chDbgInit s
  let s := if k.CH_USE_VIRTUAL_TIMERS then chVTInit s else s
  let s := init_thread c.NORMALPRIO 0 ThreadRef.mainthread s
  let s := s.setThread ThreadRef.mainthread
    { s.threads ThreadRef.mainthread with p_state := tstate_t.PRCURR }
  let s := { s with currp := some ThreadRef.mainthread }
  let s := chSysUnlock s
  chThdCreateFast c.IDLEPRIO c.waIdleThread (c.sizeof_WorkingArea c.IDLE_THREAD_STACK_SIZE)
    c._IdleThread s

/-- A configuration with `NORMALPRIO = 64`, `IDLEPRIO = 0`, an idle stack of
64 bytes in a working area with 128 bytes of overhead. -/
def initCfg : InitConfig where
  NORMALPRIO := 64
  IDLEPRIO := 0
  IDLE_THREAD_STACK_SIZE := 64
  sizeof_WorkingArea := fun n => n + 128
  waIdleThread := 0x20000400
  _IdleThread := 0x08000201

/-- The state at reset as far as modelled: zeroed thread objects, no running
thread, interrupts masked, and stale contents in the ready list. -/
def sysReset : SysState where
  threads := fun _ => { p_prio := 0, p_flags := 0, p_state := tstate_t.PRREADY }
  currp := none
  r_queue := [ThreadRef.mainthread]
  resched := true
  locked := true
  created := []
  calls := []

/-! ## `vectors.c` (MB96F340): interrupt levels and vector table -/

/-- The interrupt handlers declared in `vectors.c`. -/
inductive IrqHandler where
  | DefaultIRQHandler
  | InterruptRLT0
  | InterruptRLT1
  | InterruptRLT2
  | InterruptRLT3
deriving DecidableEq, Repr

/-- The `#pragma intvect` lines of `vectors.c`, in source order: handler and
vector number. -/
def intvect : List (IrqHandler × Nat) := [
  (IrqHandler.DefaultIRQHandler, 11), (IrqHandler.DefaultIRQHandler, 12),
  (IrqHandler.DefaultIRQHandler, 13), (IrqHandler.DefaultIRQHandler, 14),
  (IrqHandler.DefaultIRQHandler, 15), (IrqHandler.DefaultIRQHandler, 16),
  (IrqHandler.DefaultIRQHandler, 17), (IrqHandler.DefaultIRQHandler, 18),
  (IrqHandler.DefaultIRQHandler, 19), (IrqHandler.DefaultIRQHandler, 20),
  (IrqHandler.DefaultIRQHandler, 21), (IrqHandler.DefaultIRQHandler, 22),
  (IrqHandler.DefaultIRQHandler, 23), (IrqHandler.DefaultIRQHandler, 24),
  (IrqHandler.DefaultIRQHandler, 25), (IrqHandler.DefaultIRQHandler, 26),
  (IrqHandler.DefaultIRQHandler, 27), (IrqHandler.DefaultIRQHandler, 28),
  (IrqHandler.DefaultIRQHandler, 29), (IrqHandler.DefaultIRQHandler, 30),
  (IrqHandler.DefaultIRQHandler, 31), (IrqHandler.DefaultIRQHandler, 32),
  (IrqHandler.DefaultIRQHandler, 33), (IrqHandler.DefaultIRQHandler, 34),
  (IrqHandler.DefaultIRQHandler, 35), (IrqHandler.DefaultIRQHandler, 36),
  (IrqHandler.DefaultIRQHandler, 37), (IrqHandler.DefaultIRQHandler, 38),
  (IrqHandler.DefaultIRQHandler, 39), (IrqHandler.DefaultIRQHandler, 40),
  (IrqHandler.DefaultIRQHandler, 41), (IrqHandler.DefaultIRQHandler, 42),
  (IrqHandler.DefaultIRQHandler, 43), (IrqHandler.DefaultIRQHandler, 44),
  (IrqHandler.DefaultIRQHandler, 45), (IrqHandler.DefaultIRQHandler, 46),
  (IrqHandler.DefaultIRQHandler, 47), (IrqHandler.DefaultIRQHandler, 48),
  (IrqHandler.DefaultIRQHandler, 49), (IrqHandler.DefaultIRQHandler, 50),
  (IrqHandler.InterruptRLT0, 51), (IrqHandler.InterruptRLT1, 52),
  (IrqHandler.InterruptRLT2, 53), (IrqHandler.InterruptRLT3, 54),
  (IrqHandler.DefaultIRQHandler, 55), (IrqHandler.DefaultIRQHandler, 56),
  (IrqHandler.DefaultIRQHandler, 57), (IrqHandler.DefaultIRQHandler, 58),
  (IrqHandler.DefaultIRQHandler, 59), (IrqHandler.DefaultIRQHandler, 60),
  (IrqHandler.DefaultIRQHandler, 61), (IrqHandler.DefaultIRQHandler, 62),
  (IrqHandler.DefaultIRQHandler, 63), (IrqHandler.DefaultIRQHandler, 64),
  (IrqHandler.DefaultIRQHandler, 65), (IrqHandler.DefaultIRQHandler, 66),
  (IrqHandler.DefaultIRQHandler, 67), (IrqHandler.DefaultIRQHandler, 68),
  (IrqHandler.DefaultIRQHandler, 69), (IrqHandler.DefaultIRQHandler, 70),
  (IrqHandler.DefaultIRQHandler, 71), (IrqHandler.DefaultIRQHandler, 72),
  (IrqHandler.DefaultIRQHandler, 73), (IrqHandler.DefaultIRQHandler, 74),
  (IrqHandler.DefaultIRQHandler, 75), (IrqHandler.DefaultIRQHandler, 76),
  (IrqHandler.DefaultIRQHandler, 77), (IrqHandler.DefaultIRQHandler, 78),
  (IrqHandler.DefaultIRQHandler, 79), (IrqHandler.DefaultIRQHandler, 80),
  (IrqHandler.DefaultIRQHandler, 81), (IrqHandler.DefaultIRQHandler, 82),
  (IrqHandler.DefaultIRQHandler, 83), (IrqHandler.DefaultIRQHandler, 84),
  (IrqHandler.DefaultIRQHandler, 85), (IrqHandler.DefaultIRQHandler, 86),
  (IrqHandler.DefaultIRQHandler, 87), (IrqHandler.DefaultIRQHandler, 88)
]

/-- The handlers bound to vector `v` by the table. -/
def handlersOf (v : Nat) : List IrqHandler :=
  (intvect.filter (fun e => e.2 == v)).map (fun e => e.1)

/-- Constant `MIN_ICR`. -/
def MIN_ICR : Nat := 12

/-- Constant `MAX_ICR`. -/
def MAX_ICR : Nat := 88

/-- Constant `DEFAULT_ILM_MASK`. -/
def DEFAULT_ILM_MASK : Nat := 7

/-- The `for` loop of `InitIrqLevels`, entered with the loop variable at
`irq`; `icr` is the sequence of values written to the register `ICR` so far,
oldest first. The values stay far below the range of `int`, so the shift and
the increment are the ones of the naturals. -/
def InitIrqLevels_loop (irq : Nat) (icr : List Nat) : List Nat :=
  if irq ≤ MAX_ICR then
    InitIrqLevels_loop (irq + 1) (icr ++ [(irq <<< 8) ||| DEFAULT_ILM_MASK])
  else icr
termination_by MAX_ICR + 1 - irq
decreasing_by
  simp_wf
  omega

/-- Function `InitIrqLevels`: the values it writes to `ICR`, appended to the
writes `icr` made before. -/
def InitIrqLevels (icr : List Nat) : List Nat :=
  let icr := InitIrqLevels_loop MIN_ICR icr
  let icr := icr ++ [(51 <<< 8) ||| 2]
  let icr := icr ++ [(52 <<< 8) ||| 2]
  let icr := icr ++ [(53 <<< 8) ||| 2]
  icr ++ [(54 <<< 8) ||| 2]

/-- The IRQ number addressed by a value written to `ICR` (its high byte). -/
def icr_irq (v : Nat) : Nat := v >>> 8

/-- The interrupt level carried by a value written to `ICR` (its low byte). -/
def icr_level (v : Nat) : Nat := v &&& 0xFF

/-- The level last written for the IRQ number `irq` in a sequence of writes
to `ICR`, if any write addresses it. -/
def lastLevel (icr : List Nat) (irq : Nat) : Option Nat :=
  ((icr.filter (fun v => icr_irq v == irq)).getLast?).map icr_level

/-- Program points of `DefaultIRQHandler`: before `__DI()`, at the test of
`while(1)`, at `__wait_nop()` inside the loop, and after the function has
returned. -/
inductive DefaultPC where
  | entry
  | loop_test
  | loop_body
  | returned
deriving DecidableEq, Repr

/-- State of the processor while `DefaultIRQHandler` runs: the program point
and the interrupt enable flag. -/
structure HandlerState where
  /-- Program point. -/
  pc : DefaultPC
  /-- Whether interrupts are enabled. -/
  irq_enabled : Bool
deriving DecidableEq, Repr

/-- One step of `DefaultIRQHandler`: `__DI()` disables interrupts, the test
of `while(1)` always enters the body, and the body `__wait_nop()` goes back
to the test. No statement follows the loop. -/
def DefaultIRQHandler_step (s : HandlerState) : HandlerState :=
  match s.pc with
  | DefaultPC.entry => { pc := DefaultPC.loop_test, irq_enabled := false }
  | DefaultPC.loop_test => { s with pc := DefaultPC.loop_body }
  | DefaultPC.loop_body => { s with pc := DefaultPC.loop_test }
  | DefaultPC.returned => s

/-- The state `n` steps after `DefaultIRQHandler` is entered with the
interrupt enable flag `ie`. -/
def DefaultIRQHandler_run (ie : Bool) : Nat → HandlerState
  | 0 => { pc := DefaultPC.entry, irq_enabled := ie }
  | n + 1 => DefaultIRQHandler_step (DefaultIRQHandler_run ie n)

/-! ## `spi.h`: interrupt-context SPI macros -/

/-- Driver state machine possible states (`spistate_t`). -/
inductive spistate_t where
  | SPI_UNINIT
  | SPI_STOP
  | SPI_READY
  | SPI_SYNC
  | SPI_SELECTED
  | SPI_ACTIVE
deriving DecidableEq, Repr

/-- The numeric value of each enumerator of `spistate_t`. -/
def spistate_t.val : spistate_t → Nat
  | SPI_UNINIT => 0
  | SPI_STOP => 1
  | SPI_READY => 2
  | SPI_SYNC => 3
  | SPI_SELECTED => 4
  | SPI_ACTIVE => 5

/-- The driver object `SPIDriver`. Its declaration is in `spi_lld.h`, outside
the available sources; besides the field `spd_state` used by the macros it
has other fields, gathered in `spd_other` of an arbitrary type `P`. -/
structure SPIDriver (P : Type) where
  /-- Driver state. -/
  spd_state : spistate_t
  /-- All the other fields. -/
  spd_other : P

/-- The low-level driver functions called by the macros; they are defined in
the platform code, outside the available sources, and are parameters. Buffer
arguments are addresses. -/
structure SPILowLevel (P : Type) where
  /-- Function `spi_lld_select(spip)`. -/
  spi_lld_select : SPIDriver P → SPIDriver P
  /-- Function `spi_lld_unselect(spip)`. -/
  spi_lld_unselect : SPIDriver P → SPIDriver P
  /-- Function `spi_lld_ignore(spip, n)`. -/
  spi_lld_ignore : SPIDriver P → Nat → SPIDriver P
  /-- Function `spi_lld_exchange(spip, n, txbuf, rxbuf)`. -/
  spi_lld_exchange : SPIDriver P → Nat → Nat → Nat → SPIDriver P
  /-- Function `spi_lld_send(spip, n, txbuf)`. -/
  spi_lld_send : SPIDriver P → Nat → Nat → SPIDriver P
  /-- Function `spi_lld_receive(spip, n, rxbuf)`. -/
  spi_lld_receive : SPIDriver P → Nat → Nat → SPIDriver P

/-- The low-level driver does not write the field `spd_state`. -/
def SPILowLevel.keepsState {P : Type} (l : SPILowLevel P) : Prop :=
  (∀ d, (l.spi_lld_select d).spd_state = d.spd_state) ∧
  (∀ d, (l.spi_lld_unselect d).spd_state = d.spd_state) ∧
  (∀ d n, (l.spi_lld_ignore d n).spd_state = d.spd_state) ∧
  (∀ d n t r, (l.spi_lld_exchange d n t r).spd_state = d.spd_state) ∧
  (∀ d n t, (l.spi_lld_send d n t).spd_state = d.spd_state) ∧
  (∀ d n r, (l.spi_lld_receive d n r).spd_state = d.spd_state)

/-- Macro `spiSelectI(spip)`. -/
def spiSelectI {P : Type} (l : SPILowLevel P) (spip : SPIDriver P) : SPIDriver P :=
  let spip := { spip with spd_state := spistate_t.SPI_SELECTED }
  l.spi_lld_select spip

/-- Macro `spiUnselectI(spip)`. -/
def spiUnselectI {P : Type} (l : SPILowLevel P) (spip : SPIDriver P) : SPIDriver P :=
  let spip := { spip with spd_state := spistate_t.SPI_READY }
  l.spi_lld_unselect spip

/-- Macro `spiSynchronizeI(spip, n)`. -/
def spiSynchronizeI {P : Type} (l : SPILowLevel P) (spip : SPIDriver P) (n : Nat) :
    SPIDriver P :=
  let spip := { spip with spd_state := spistate_t.SPI_SYNC }
  l.spi_lld_ignore spip n

/-- Macro `spiIgnoreI(spip, n)`. -/
def spiIgnoreI {P : Type} (l : SPILowLevel P) (spip : SPIDriver P) (n : Nat) : SPIDriver P :=
  let spip := { spip with spd_state := spistate_t.SPI_ACTIVE }
  l.spi_lld_ignore spip n

/-- Macro `spiExchangeI(spip, n, txbuf, rxbuf)`. -/
def spiExchangeI {P : Type} (l : SPILowLevel P) (spip : SPIDriver P) (n txbuf rxbuf : Nat) :
    SPIDriver P :=
  let spip := { spip with spd_state := spistate_t.SPI_ACTIVE }
  l.spi_lld_exchange spip n txbuf rxbuf

/-- Macro `spiSendI(spip, n, txbuf)`. -/
def spiSendI {P : Type} (l : SPILowLevel P) (spip : SPIDriver P) (n txbuf : Nat) :
    SPIDriver P :=
  let spip := { spip with spd_state := spistate_t.SPI_ACTIVE }
  l.spi_lld_send spip n txbuf

/-- Macro `spiReceiveI(spip, n, rxbuf)`. -/
def spiReceiveI {P : Type} (l : SPILowLevel P) (spip : SPIDriver P) (n rxbuf : Nat) :
    SPIDriver P :=
  let spip := { spip with spd_state := spistate_t.SPI_ACTIVE }
  l.spi_lld_receive spip n rxbuf

/-- A low-level operation with its arguments. -/
inductive LldOp where
  | select
  | unselect
  | ignore (n : Nat)
  | exchange (n txbuf rxbuf : Nat)
  | send (n txbuf : Nat)
  | receive (n rxbuf : Nat)
deriving DecidableEq, Repr

/-- A low-level driver that only records the operations issued, oldest
first. -/
def recordingLld : SPILowLevel (List LldOp) where
  spi_lld_select := fun d => { d with spd_other := d.spd_other ++ [LldOp.select] }
  spi_lld_unselect := fun d => { d with spd_other := d.spd_other ++ [LldOp.unselect] }
  spi_lld_ignore := fun d n => { d with spd_other := d.spd_other ++ [LldOp.ignore n] }
  spi_lld_exchange := fun d n t r =>
    { d with spd_other := d.spd_other ++ [LldOp.exchange n t r] }
  spi_lld_send := fun d n t => { d with spd_other := d.spd_other ++ [LldOp.send n t] }
  spi_lld_receive := fun d n r => { d with spd_other := d.spd_other ++ [LldOp.receive n r] }

/-- A stopped driver on which no low-level operation has been issued. -/
def spiStopped : SPIDriver (List LldOp) where
  spd_state := spistate_t.SPI_STOP
  spd_other := []

/-! ## `chcore_v7m.c`: port initialization and the stack guard region -/

/-- Constants, switches and symbols used by `port_init` and
`_port_set_region` that are declared outside the available sources (port
headers, CMSIS, linker script). -/
structure CoreConfig where
  /-- Switch `PORT_ENABLE_GUARD_PAGES`. -/
  PORT_ENABLE_GUARD_PAGES : Bool
  /-- Switch `CH_DBG_ENABLE_STACK_CHECK`. -/
  CH_DBG_ENABLE_STACK_CHECK : Bool
  /-- Constant `CORTEX_MODEL`. -/
  CORTEX_MODEL : Nat
  /-- Constant `CORTEX_BASEPRI_DISABLED`. -/
  CORTEX_BASEPRI_DISABLED : Nat
  /-- Constant `CORTEX_PRIGROUP_INIT`. -/
  CORTEX_PRIGROUP_INIT : Nat
  /-- Mask `CoreDebug_DEMCR_TRCENA_Msk`. -/
  CoreDebug_DEMCR_TRCENA_Msk : Nat
  /-- Mask `DWT_CTRL_CYCCNTENA_Msk`. -/
  DWT_CTRL_CYCCNTENA_Msk : Nat
  /-- Exception number `SVCall_IRQn`. -/
  SVCall_IRQn : Int
  /-- Exception number `PendSV_IRQn`. -/
  PendSV_IRQn : Int
  /-- Constant `CORTEX_PRIORITY_SVCALL`. -/
  CORTEX_PRIORITY_SVCALL : Nat
  /-- Constant `CORTEX_PRIORITY_PENDSV`. -/
  CORTEX_PRIORITY_PENDSV : Nat
  /-- Constant `PORT_USE_MPU_REGION`. -/
  PORT_USE_MPU_REGION : Nat
  /-- Address of the linker symbol `__main_thread_stack_base__`. -/
  __main_thread_stack_base__ : Nat
  /-- Constant `MPU_RASR_ATTR_AP_NA_NA`: no access. -/
  MPU_RASR_ATTR_AP_NA_NA : Nat
  /-- Constant `MPU_RASR_ATTR_NON_CACHEABLE`. -/
  MPU_RASR_ATTR_NON_CACHEABLE : Nat
  /-- Constant `MPU_RASR_SIZE_32`: region of 32 bytes. -/
  MPU_RASR_SIZE_32 : Nat
  /-- Constant `MPU_RASR_ENABLE`: region enabled. -/
  MPU_RASR_ENABLE : Nat
  /-- Constant `MPU_CTRL_PRIVDEFENA`. -/
  MPU_CTRL_PRIVDEFENA : Nat

/-- One region of the memory protection unit: its base address and its
attribute word (access permissions, size, enable). -/
structure MpuRegion where
  /-- Base address. -/
  address : Nat
  /-- Attributes. -/
  attribs : Nat
deriving DecidableEq, Repr

/-- The system registers written by `port_init` and `_port_set_region`, and
the working-area base of the current thread. -/
structure CoreState where
  /-- Register `BASEPRI`. -/
  basepri : Nat
  /-- Whether interrupts are globally enabled (`PRIMASK` clear). -/
  irq_enabled : Bool
  /-- Priority grouping field of `SCB->AIRCR`. -/
  prigroup : Nat
  /-- Register `CoreDebug->DEMCR`. -/
  demcr : Nat
  /-- Register `DWT->LAR`. -/
  dwt_lar : Nat
  /-- Register `DWT->CTRL`. -/
  dwt_ctrl : Nat
  /-- Priority of each exception, by exception number. -/
  priority : Int → Nat
  /-- The regions of the memory protection unit, by region number. -/
  mpu_region : Nat → MpuRegion
  /-- Control word of the memory protection unit. -/
  mpu_ctrl : Nat
  /-- Whether the memory protection unit is enabled. -/
  mpu_enabled : Bool
  /-- Field `wabase` of the current thread (`chThdGetSelfX()->wabase`). -/
  wabase : Nat

/-- Modelled from the spec: `mpuConfigureRegion(region, addr, attribs)` is a
macro declared outside the available sources. It programs the
memory-protection region `region` (section 4.2) with a base address and an
attribute word. -/
def mpuConfigureRegion (region addr attribs : Nat) (s : CoreState) : CoreState :=
  { s with mpu_region := fun r =>
      if r = region then { address := wrap32 addr, attribs := wrap32 attribs }
      else s.mpu_region r }

/-- Modelled from the spec: `mpuSetRegionAddress(region, addr)` is a macro
declared outside the available sources. It reprograms the memory-protection
region `region` to cover a new address (section 4.2: the region is
reprogrammed to cover the stack base of the new thread). -/
def mpuSetRegionAddress (region addr : Nat) (s : CoreState) : CoreState :=
  { s with mpu_region := fun r =>
      if r = region then { s.mpu_region r with address := wrap32 addr }
      else s.mpu_region r }

/-- Modelled from the spec: `mpuEnable(ctrl)` is a macro declared outside the
available sources. It turns the memory protection unit on with the given
control options. -/
def mpuEnable (ctrl : Nat) (s : CoreState) : CoreState :=
  { s with mpu_ctrl := wrap32 ctrl, mpu_enabled := true }

/-- Function `port_init`. The parameter `oip` is unused by the function. The
CMSIS calls `__set_BASEPRI`, `__enable_irq`, `NVIC_SetPriorityGrouping` and
`NVIC_SetPriority` are modelled by the register each of them writes. -/
def port_init (p : PortConfig) (c : CoreConfig) (s : CoreState) : CoreState :=
  let s := { s with basepri := wrap32 c.CORTEX_BASEPRI_DISABLED }
  let s := { s with irq_enabled := true }
  let s := { s with prigroup := c.CORTEX_PRIGROUP_INIT }
  let s := { s with demcr := wrap32 s.demcr ||| c.CoreDebug_DEMCR_TRCENA_Msk }
  let s := if c.CORTEX_MODEL = 7 then { s with dwt_lar := 0xC5ACCE55 } else s
  let s := { s with dwt_ctrl := wrap32 s.dwt_ctrl ||| c.DWT_CTRL_CYCCNTENA_Msk }
  let s :=
    if p.CORTEX_SIMPLIFIED_PRIORITY = false then
      { s with priority := fun e =>
          if e = c.SVCall_IRQn then c.CORTEX_PRIORITY_SVCALL else s.priority e }
    else s
  let s := { s with priority := fun e =>
      if e = c.PendSV_IRQn then c.CORTEX_PRIORITY_PENDSV else s.priority e }
  if c.PORT_ENABLE_GUARD_PAGES then
    let s := mpuConfigureRegion c.PORT_USE_MPU_REGION c.__main_thread_stack_base__
      (c.MPU_RASR_ATTR_AP_NA_NA ||| c.MPU_RASR_ATTR_NON_CACHEABLE ||| c.MPU_RASR_SIZE_32 |||
        c.MPU_RASR_ENABLE) s
    mpuEnable c.MPU_CTRL_PRIVDEFENA s
  else s

/-- Function `_port_set_region` (compiled when `CH_DBG_ENABLE_STACK_CHECK`
and `PORT_ENABLE_GUARD_PAGES` are both true). -/
def _port_set_region (c : CoreConfig) (s : CoreState) : CoreState :=
  mpuSetRegionAddress c.PORT_USE_MPU_REGION s.wabase s

/-- Whether an attribute word of the ARMv7-M memory protection unit enables
its region (bit 0). -/
def rasr_enabled (attribs : Nat) : Bool := attribs &&& 1 == 1

/-- The size in bytes of the region described by an ARMv7-M attribute word:
two to the power of the size field (bits 5..1) plus one. -/
def rasr_size_bytes (attribs : Nat) : Nat := 2 ^ (((attribs >>> 1) &&& 0x1F) + 1)

/-- The access-permission field (bits 26..24) of an ARMv7-M attribute word;
0 means no access. -/
def rasr_ap (attribs : Nat) : Nat := (attribs >>> 24) &&& 7

/-- A configuration with the guard pages enabled on region 7 and the
ARMv7-M encodings of the attribute constants. -/
def coreCfg : CoreConfig where
  PORT_ENABLE_GUARD_PAGES := true
  CH_DBG_ENABLE_STACK_CHECK := true
  CORTEX_MODEL := 4
  CORTEX_BASEPRI_DISABLED := 0
  CORTEX_PRIGROUP_INIT := 3
  CoreDebug_DEMCR_TRCENA_Msk := 0x01000000
  DWT_CTRL_CYCCNTENA_Msk := 1
  SVCall_IRQn := -5
  PendSV_IRQn := -2
  CORTEX_PRIORITY_SVCALL := 1
  CORTEX_PRIORITY_PENDSV := 2
  PORT_USE_MPU_REGION := 7
  __main_thread_stack_base__ := 0x20000000
  MPU_RASR_ATTR_AP_NA_NA := 0
  MPU_RASR_ATTR_NON_CACHEABLE := 0x00080000
  MPU_RASR_SIZE_32 := 8
  MPU_RASR_ENABLE := 1
  MPU_CTRL_PRIVDEFENA := 4

/-- The system registers at reset, with the current thread's working area at
`0x20003000`. -/
def coreReset : CoreState where
  basepri := 0
  irq_enabled := false
  prigroup := 0
  demcr := 0
  dwt_lar := 0
  dwt_ctrl := 0
  priority := fun _ => 0
  mpu_region := fun _ => { address := 0, attribs := 0 }
  mpu_ctrl := 0
  mpu_enabled := false
  wabase := 0x20003000

/-! ## `mutexes.h`: mutexes with priority inheritance

The header declares the structure `Mutex` and the prototypes; the functions
themselves are outside the available sources and are modelled from the
specification (section 4.3). Threads and mutexes are designated by numbers;
a higher priority value is more urgent.
-/

/-- Structure `Mutex`. -/
structure Mutex where
  /-- Queue of the threads sleeping on this mutex, most urgent first. -/
  m_queue : List Nat
  /-- Owner thread, or `none` for `NULL`. -/
  m_owner : Option Nat
  /-- Next mutex into an owner-list, or `none` for `NULL`. -/
  m_next : Option Nat
deriving DecidableEq, Repr

/-- The fields of a thread used by the mutexes (specification, section 3):
effective and base priority, the mutexes currently owned, most recently
acquired first (the owner-list that the source chains through `m_next`), and
the mutex the thread is blocked on, if any. -/
structure MtxThread where
  /-- Effective priority. -/
  p_prio : Nat
  /-- Base priority. -/
  p_realprio : Nat
  /-- Owned mutexes, most recently acquired first. -/
  p_mtxlist : List Nat
  /-- Mutex the thread is blocked on. -/
  p_wtmtxp : Option Nat
deriving DecidableEq, Repr

/-- The threads and the mutexes of the system. -/
structure MtxSys where
  /-- The threads, by number. -/
  threads : Nat → MtxThread
  /-- The mutexes, by number. -/
  mutexes : Nat → Mutex

/-- Effective priority of a thread. -/
def MtxSys.prio (s : MtxSys) (t : Nat) : Nat := (s.threads t).p_prio

/-- Replacement of one thread. -/
def MtxSys.setThread (s : MtxSys) (t : Nat) (v : MtxThread) : MtxSys :=
  { s with threads := fun x => if x = t then v else s.threads x }

/-- Replacement of one mutex. -/
def MtxSys.setMutex (s : MtxSys) (m : Nat) (v : Mutex) : MtxSys :=
  { s with mutexes := fun x => if x = m then v else s.mutexes x }

/-- Insertion of thread `t` in a wait queue ordered by priority descending,
behind the threads of equal priority. -/
def prio_enqueue (prioOf : Nat → Nat) (t : Nat) : List Nat → List Nat
  | [] => [t]
  | x :: xs => if prioOf x < prioOf t then t :: x :: xs else x :: prio_enqueue prioOf t xs

/-- Modelled from the spec: the priority boost of section 4.3. The effective
priority of thread `tp` is raised to `p` if it is lower; when `tp` is itself
blocked on a mutex it is queued again with its new priority and the boost
propagates to the owner of that mutex, transitively. The recursion is bounded
by `fuel`; the result is `none` when the bound is exhausted. -/
def mtx_boost : Nat → Nat → Nat → MtxSys → Option MtxSys
  | 0, _, _, _ => none
  | fuel + 1, tp, p, s =>
    if s.prio tp < p then
      let s := s.setThread tp { s.threads tp with p_prio := p }
      match (s.threads tp).p_wtmtxp with
      | some m2 =>
        let s := s.setMutex m2 { s.mutexes m2 with
          m_queue := prio_enqueue s.prio tp ((s.mutexes m2).m_queue.erase tp) }
        match (s.mutexes m2).m_owner with
        | some o => mtx_boost fuel o p s
        | none => some s
      | none => some s
    else some s

/-- Modelled from the spec: `chMtxLockS`, called by the running thread
`currp` on the mutex `mp` (section 4.3, lock). A free mutex is acquired and
pushed on the caller's owner-list. On a mutex that is held, the owner's
effective priority is raised to the caller's (with transitive propagation)
and the caller blocks in the priority-ordered wait queue. The result is
`none` when the caller is blocked, hence not running, or when the bound of
the propagation is exhausted. -/
def chMtxLockS (fuel currp mp : Nat) (s : MtxSys) : Option MtxSys :=
  if (s.threads currp).p_wtmtxp ≠ none then none
  else
    match (s.mutexes mp).m_owner with
    | some owner =>
      match mtx_boost fuel owner (s.prio currp) s with
      | none => none
      | some s =>
        let s := s.setMutex mp { s.mutexes mp with
          m_queue := prio_enqueue s.prio currp (s.mutexes mp).m_queue }
        some (s.setThread currp { s.threads currp with p_wtmtxp := some mp })
    | none =>
      let s := s.setMutex mp { s.mutexes mp with
        m_owner := some currp, m_next := (s.threads currp).p_mtxlist.head? }
      some (s.setThread currp { s.threads currp with
        p_mtxlist := mp :: (s.threads currp).p_mtxlist })

/-- The highest of `base` and the priorities of the threads waiting on the
mutexes of the list `held`. -/
def inherited_prio (s : MtxSys) (base : Nat) (held : List Nat) : Nat :=
  held.foldl (fun acc m => ((s.mutexes m).m_queue).foldl (fun a h => max a (s.prio h)) acc)
    base

/-- Modelled from the spec: `chMtxUnlockS`, called by the running thread
`currp` (section 4.3, unlock). It releases the most recently acquired mutex
still held by the caller and returns it; the mutex is not handed off: its
most urgent waiter, if any, is woken and competes again; the caller's
effective priority is recomputed as the maximum of its base priority and the
priorities still inherited from the mutexes it continues to hold. Unlocking
without owning the mutex is a fatal error: the result is `none`, as it is
when the caller is blocked, hence not running. -/
def chMtxUnlockS (currp : Nat) (s : MtxSys) : Option (Nat × MtxSys) :=
  if (s.threads currp).p_wtmtxp ≠ none then none
  else
    match (s.threads currp).p_mtxlist with
    | [] => none
    | mp :: rest =>
      if (s.mutexes mp).m_owner ≠ some currp then none
      else
        let s := s.setThread currp { s.threads currp with
          p_mtxlist := rest,
          p_prio := inherited_prio s (s.threads currp).p_realprio rest }
        match (s.mutexes mp).m_queue with
        | [] => some (mp, s.setMutex mp { s.mutexes mp with m_owner := none, m_next := none })
        | w :: q =>
          let s := s.setMutex mp { m_queue := q, m_owner := none, m_next := none }
          some (mp, s.setThread w { s.threads w with p_wtmtxp := none })

/-- One mutex operation by one thread. -/
inductive MtxOp where
  | lock (fuel currp mp : Nat)
  | unlock (currp : Nat)
deriving DecidableEq, Repr

/-- The state after one operation, when it can be performed. -/
def mtx_step (s : MtxSys) : MtxOp → Option MtxSys
  | MtxOp.lock fuel currp mp => chMtxLockS fuel currp mp s
  | MtxOp.unlock currp => (chMtxUnlockS currp s).map (fun r => r.2)

/-- The state after a sequence of operations throughout which thread `l`
owns mutex `m`; `none` when an operation cannot be performed or leaves `m`
with another owner or free. -/
def mtx_run_owned (l m : Nat) : MtxSys → List MtxOp → Option MtxSys
  | s, [] => some s
  | s, op :: ops =>
    match mtx_step s op with
    | none => none
    | some s1 =>
      if (s1.mutexes m).m_owner = some l then mtx_run_owned l m s1 ops else none

/-- Consistency of the wait queues and of the ownership: a thread in the
queue of a mutex is blocked on that mutex, no thread is queued twice, a mutex
is in the owner-list of its owner and of no other thread, and no mutex is
twice in an owner-list. -/
def MtxSys.WF (s : MtxSys) : Prop :=
  (∀ m h, h ∈ (s.mutexes m).m_queue → (s.threads h).p_wtmtxp = some m) ∧
  (∀ m, (s.mutexes m).m_queue.Nodup) ∧
  (∀ m l, (s.mutexes m).m_owner = some l → m ∈ (s.threads l).p_mtxlist) ∧
  (∀ t m, m ∈ (s.threads t).p_mtxlist → (s.mutexes m).m_owner = some t) ∧
  (∀ t, (s.threads t).p_mtxlist.Nodup)

/-- The mutex system of the scenario of section 8: thread 1 (`A`) has
priority 5, thread 2 (`B`) priority 3, every other thread priority 0; no
mutex is held and nobody waits. -/
def mtxScenario : MtxSys where
  threads := fun t =>
    if t = 1 then { p_prio := 5, p_realprio := 5, p_mtxlist := [], p_wtmtxp := none }
    else if t = 2 then { p_prio := 3, p_realprio := 3, p_mtxlist := [], p_wtmtxp := none }
    else { p_prio := 0, p_realprio := 0, p_mtxlist := [], p_wtmtxp := none }
  mutexes := fun _ => { m_queue := [], m_owner := none, m_next := none }

/-- What a priority boost to `p` may change between two states: effective
priorities only grow, and not beyond `p`; queues keep their members, gaining
at most threads that are blocked on them, and stay duplicate-free; owners,
owner-lists, base priorities and blocking are untouched. -/
structure MtxFrame (p : Nat) (s s1 : MtxSys) : Prop where
  owner : ∀ m, (s1.mutexes m).m_owner = (s.mutexes m).m_owner
  wt : ∀ t, (s1.threads t).p_wtmtxp = (s.threads t).p_wtmtxp
  list : ∀ t, (s1.threads t).p_mtxlist = (s.threads t).p_mtxlist
  real : ∀ t, (s1.threads t).p_realprio = (s.threads t).p_realprio
  mono : ∀ t, s.prio t ≤ s1.prio t
  bound : ∀ t, s1.prio t ≤ max (s.prio t) p
  keep : ∀ m h, h ∈ (s.mutexes m).m_queue → h ∈ (s1.mutexes m).m_queue
  gain : ∀ m h, h ∈ (s1.mutexes m).m_queue →
    h ∈ (s.mutexes m).m_queue ∨ (s.threads h).p_wtmtxp = some m
  nodup : ∀ m, (s.mutexes m).m_queue.Nodup → (s1.mutexes m).m_queue.Nodup

/-- Inheritance holds for the waiter `h` of the mutex `m` owned by `l`: `l`
owns `m`, `h` is in the wait queue of `m`, and the effective priority of `l`
is at least that of `h`. -/
def InheritOK (s : MtxSys) (l m h : Nat) : Prop :=
  (s.mutexes m).m_owner = some l ∧ h ∈ (s.mutexes m).m_queue ∧ s.prio h ≤ s.prio l

/-- What an unlock by the running thread `c`, releasing `mp` and keeping the
mutexes `rest`, changes between the state `s` before and `s1` after. -/
structure UnlockFacts (c mp : Nat) (rest : List Nat) (s s1 : MtxSys) : Prop where
  running : (s.threads c).p_wtmtxp = none
  list_eq : (s.threads c).p_mtxlist = mp :: rest
  owned : (s.mutexes mp).m_owner = some c
  other_mutex : ∀ m, m ≠ mp → s1.mutexes m = s.mutexes m
  released : (s1.mutexes mp).m_owner = none
  queue_sub : ∀ h, h ∈ (s1.mutexes mp).m_queue → h ∈ (s.mutexes mp).m_queue
  queue_nodup : (s1.mutexes mp).m_queue.Nodup
  wt_queued : ∀ m h, h ∈ (s1.mutexes m).m_queue →
    (s1.threads h).p_wtmtxp = (s.threads h).p_wtmtxp
  prio_other : ∀ t, t ≠ c → s1.prio t = s.prio t
  prio_self : s1.prio c = inherited_prio s (s.threads c).p_realprio rest
  real : ∀ t, (s1.threads t).p_realprio = (s.threads t).p_realprio
  list_other : ∀ t, t ≠ c → (s1.threads t).p_mtxlist = (s.threads t).p_mtxlist
  list_self : (s1.threads c).p_mtxlist = rest

/-- The scenario of section 8 once thread 2 (`B`, priority 3) has locked the
mutex 0 (`M`): `B` owns `M`, nobody waits. -/
def mtxHeld : MtxSys where
  threads := fun t =>
    if t = 1 then { p_prio := 5, p_realprio := 5, p_mtxlist := [], p_wtmtxp := none }
    else if t = 2 then { p_prio := 3, p_realprio := 3, p_mtxlist := [0], p_wtmtxp := none }
    else { p_prio := 0, p_realprio := 0, p_mtxlist := [], p_wtmtxp := none }
  mutexes := fun m =>
    if m = 0 then { m_queue := [], m_owner := some 2, m_next := none }
    else { m_queue := [], m_owner := none, m_next := none }

/-! ## Syscall number: the instruction halfword -/

/-- The 16-bit halfword at `h` shares no byte with the 32-bit word at `w`
(addresses modulo `2^32`). -/
def halfwordApart (h w : Nat) : Prop :=
  4 ≤ sub32 h w ∧ sub32 h w ≤ 4294967294

instance (h w : Nat) : Decidable (halfwordApart h w) := by
  unfold halfwordApart; infer_instance

/-- A memory holding the instruction `svc 0x2A` (halfword `0xDF2A`) at
`0x08000400` and, in the `pc` slot of an exception frame at `0x20001000`, the
address `0x08000402` of the next instruction. -/
def memSvc42 : Memory := fun a =>
  if a = 0x08000400 then 0x2A
  else if a = 0x08000401 then 0xDF
  else if a = 0x20001018 then 0x02
  else if a = 0x20001019 then 0x04
  else if a = 0x2000101A then 0x00
  else if a = 0x2000101B then 0x08
  else 0

/-- Unprivileged thread code that has just executed `svc 0x2A`. -/
def stSvc42 : MachineState := { stBaseUnpriv with mem := memSvc42 }

/-! ## `chcore_v7m.c`: debug assertion and user mode entry -/

/-- Syscall support with the debug assertions compiled in. -/
def cfgSyscallAsserts : PortConfig := { cfgSyscall with CH_DBG_ENABLE_ASSERTS := true }

/-- An SVC exception taken from a context that uses the main stack: the
exception-return value is `0xFFFFFFF9`, whose bit 2 is clear. -/
def stMainStack : MachineState := { stBasePriv with return_address := 0xFFFFFFF9 }

/-- Value of `sizeof (struct port_extctx *)`: a data pointer of the ARMv7-M
is a 32-bit word. -/
def sizeof_pointer : Nat := 4

/-- Library function `memset(a, v, n)`: the `n` bytes starting at `a` are set
to `v`. -/
def memset (m : Memory) (a v : Nat) : Nat → Memory
  | 0 => m
  | n + 1 => storeByte (memset m a v n) (a + n) v

/-- Function `port_unprivileged_jump(pc, psp)` up to its instruction `svc 0`:
the result is the state in which that instruction is executed. `fpscr` is
the value returned by `__get_FPSCR()`. The function never assigns the
register PSP. -/
def port_unprivileged_jump (c : PortConfig) (fpscr pc psp : Nat) (s : MachineState) :
    MachineState :=
  let s_psp := __get_PSP s
  let control := __get_CONTROL s
  let s := { s with s_psp := s_psp }
  let psp := sub32 psp c.sizeof_extctx
  let ctxp := psp
  let s := { s with mem := memset s.mem ctxp 0 sizeof_pointer }
  let s := store32 s (ctxp + c.off_pc) pc
  let s := store32 s (ctxp + c.off_xpsr) 0x01000000
  let s := if c.CORTEX_USE_FPU then store32 s (ctxp + c.off_fpscr) fpscr else s
  let s_psp := sub32 s_psp c.sizeof_midctx
  let mctxp := s_psp
  let s := store32 s (mctxp + c.off_control) (control ||| 1)
  store32 s (mctxp + c.off_ectxp) ctxp

/-- Memory holding `0xFF` in every byte: a stack area with stale contents. -/
def staleMem : Memory := fun _ => 0xFF

/-- Privileged thread code on the process stack at `0x20001000`, over stale
memory. -/
def stStale : MachineState := { stBasePriv with mem := staleMem }

/-- The state in which `SVC_Handler` is entered by the `svc 0` of
`port_unprivileged_jump 0x08000401 0x20003000` called in `stBasePriv`: the
exception frame is stacked on the process stack, so PSP is `sizeof (struct
port_extctx)` below its value at the instruction, and the exception-return
value designates thread mode on the process stack. The words of the stacked
frame itself are left as they were; the handler does not read them. -/
def stJumpSvc : MachineState :=
  { port_unprivileged_jump cfgSyscall 0 0x08000401 0x20003000 stBasePriv with
    psp := sub32 (port_unprivileged_jump cfgSyscall 0 0x08000401 0x20003000 stBasePriv).psp
      cfgSyscall.sizeof_extctx
    return_address := 0xFFFFFFFD }

/-! ## `spc560bc_registry.h`: FlexCAN clock gating

The macros expand to calls of `halSPCSetPeripheralClockMode`, which is
defined outside the available sources, with mode constants
`SPC5_CAN_FLEXCANx_START_PCTL` and `SPC5_CAN_FLEXCANx_STOP_PCTL` that the
board configuration provides; the macros are parametric in them.
-/

/-- The clock controller service and the mode constants used by the FlexCAN
macros; `S` is the state of the clock controller. -/
structure SPC5Hal (S : Type) where
  /-- Function `halSPCSetPeripheralClockMode(n, pctl)`: it gives the
  peripheral of index `n` the clock mode `pctl`. -/
  halSPCSetPeripheralClockMode : Nat → Nat → S → S
  /-- Constant `SPC5_CAN_FLEXCAN0_START_PCTL`. -/
  SPC5_CAN_FLEXCAN0_START_PCTL : Nat
  /-- Constant `SPC5_CAN_FLEXCAN0_STOP_PCTL`. -/
  SPC5_CAN_FLEXCAN0_STOP_PCTL : Nat
  /-- Constant `SPC5_CAN_FLEXCAN1_START_PCTL`. -/
  SPC5_CAN_FLEXCAN1_START_PCTL : Nat
  /-- Constant `SPC5_CAN_FLEXCAN1_STOP_PCTL`. -/
  SPC5_CAN_FLEXCAN1_STOP_PCTL : Nat
  /-- Constant `SPC5_CAN_FLEXCAN2_START_PCTL`. -/
  SPC5_CAN_FLEXCAN2_START_PCTL : Nat
  /-- Constant `SPC5_CAN_FLEXCAN2_STOP_PCTL`. -/
  SPC5_CAN_FLEXCAN2_STOP_PCTL : Nat
  /-- Constant `SPC5_CAN_FLEXCAN3_START_PCTL`. -/
  SPC5_CAN_FLEXCAN3_START_PCTL : Nat
  /-- Constant `SPC5_CAN_FLEXCAN3_STOP_PCTL`. -/
  SPC5_CAN_FLEXCAN3_STOP_PCTL : Nat
  /-- Constant `SPC5_CAN_FLEXCAN4_START_PCTL`. -/
  SPC5_CAN_FLEXCAN4_START_PCTL : Nat
  /-- Constant `SPC5_CAN_FLEXCAN4_STOP_PCTL`. -/
  SPC5_CAN_FLEXCAN4_STOP_PCTL : Nat
  /-- Constant `SPC5_CAN_FLEXCAN5_START_PCTL`. -/
  SPC5_CAN_FLEXCAN5_START_PCTL : Nat
  /-- Constant `SPC5_CAN_FLEXCAN5_STOP_PCTL`. -/
  SPC5_CAN_FLEXCAN5_STOP_PCTL : Nat

/-- Constant `SPC5_FLEXCAN0_PCTL`. -/
def SPC5_FLEXCAN0_PCTL : Nat := 16

/-- Constant `SPC5_FLEXCAN1_PCTL`. -/
def SPC5_FLEXCAN1_PCTL : Nat := 17

/-- Constant `SPC5_FLEXCAN2_PCTL`. -/
def SPC5_FLEXCAN2_PCTL : Nat := 18

/-- Constant `SPC5_FLEXCAN3_PCTL`. -/
def SPC5_FLEXCAN3_PCTL : Nat := 19

/-- Constant `SPC5_FLEXCAN4_PCTL`. -/
def SPC5_FLEXCAN4_PCTL : Nat := 20

/-- Constant `SPC5_FLEXCAN5_PCTL`. -/
def SPC5_FLEXCAN5_PCTL : Nat := 21

/-- Macro `SPC5_FLEXCAN0_ENABLE_CLOCK()`. -/
def SPC5_FLEXCAN0_ENABLE_CLOCK {S : Type} (h : SPC5Hal S) (s : S) : S :=
  h.halSPCSetPeripheralClockMode SPC5_FLEXCAN0_PCTL h.SPC5_CAN_FLEXCAN0_START_PCTL s

/-- Macro `SPC5_FLEXCAN0_DISABLE_CLOCK()`. -/
def SPC5_FLEXCAN0_DISABLE_CLOCK {S : Type} (h : SPC5Hal S) (s : S) : S :=
  h.halSPCSetPeripheralClockMode SPC5_FLEXCAN0_PCTL h.SPC5_CAN_FLEXCAN0_STOP_PCTL s

/-- Macro `SPC5_FLEXCAN1_ENABLE_CLOCK()`. -/
def SPC5_FLEXCAN1_ENABLE_CLOCK {S : Type} (h : SPC5Hal S) (s : S) : S :=
  h.halSPCSetPeripheralClockMode SPC5_FLEXCAN1_PCTL h.SPC5_CAN_FLEXCAN1_START_PCTL s

/-- Macro `SPC5_FLEXCAN1_DISABLE_CLOCK()`. -/
def SPC5_FLEXCAN1_DISABLE_CLOCK {S : Type} (h : SPC5Hal S) (s : S) : S :=
  h.halSPCSetPeripheralClockMode SPC5_FLEXCAN1_PCTL h.SPC5_CAN_FLEXCAN1_STOP_PCTL s

/-- Macro `SPC5_FLEXCAN2_ENABLE_CLOCK()`. -/
def SPC5_FLEXCAN2_ENABLE_CLOCK {S : Type} (h : SPC5Hal S) (s : S) : S :=
  h.halSPCSetPeripheralClockMode SPC5_FLEXCAN2_PCTL h.SPC5_CAN_FLEXCAN2_START_PCTL s

/-- Macro `SPC5_FLEXCAN2_DISABLE_CLOCK()`. -/
def SPC5_FLEXCAN2_DISABLE_CLOCK {S : Type} (h : SPC5Hal S) (s : S) : S :=
  h.halSPCSetPeripheralClockMode SPC5_FLEXCAN2_PCTL h.SPC5_CAN_FLEXCAN2_START_PCTL s

/-- Macro `SPC5_FLEXCAN3_ENABLE_CLOCK()`. -/
def SPC5_FLEXCAN3_ENABLE_CLOCK {S : Type} (h : SPC5Hal S) (s : S) : S :=
  h.halSPCSetPeripheralClockMode SPC5_FLEXCAN3_PCTL h.SPC5_CAN_FLEXCAN3_START_PCTL s

/-- Macro `SPC5_FLEXCAN3_DISABLE_CLOCK()`. -/
def SPC5_FLEXCAN3_DISABLE_CLOCK {S : Type} (h : SPC5Hal S) (s : S) : S :=
  h.halSPCSetPeripheralClockMode SPC5_FLEXCAN3_PCTL h.SPC5_CAN_FLEXCAN3_STOP_PCTL s

/-- Macro `SPC5_FLEXCAN4_ENABLE_CLOCK()`. -/
def SPC5_FLEXCAN4_ENABLE_CLOCK {S : Type} (h : SPC5Hal S) (s : S) : S :=
  h.halSPCSetPeripheralClockMode SPC5_FLEXCAN4_PCTL h.SPC5_CAN_FLEXCAN4_START_PCTL s

/-- Macro `SPC5_FLEXCAN4_DISABLE_CLOCK()`. -/
def SPC5_FLEXCAN4_DISABLE_CLOCK {S : Type} (h : SPC5Hal S) (s : S) : S :=
  h.halSPCSetPeripheralClockMode SPC5_FLEXCAN4_PCTL h.SPC5_CAN_FLEXCAN4_STOP_PCTL s

/-- Macro `SPC5_FLEXCAN5_ENABLE_CLOCK()`. -/
def SPC5_FLEXCAN5_ENABLE_CLOCK {S : Type} (h : SPC5Hal S) (s : S) : S :=
  h.halSPCSetPeripheralClockMode SPC5_FLEXCAN5_PCTL h.SPC5_CAN_FLEXCAN5_START_PCTL s

/-- Macro `SPC5_FLEXCAN5_DISABLE_CLOCK()`. -/
def SPC5_FLEXCAN5_DISABLE_CLOCK {S : Type} (h : SPC5Hal S) (s : S) : S :=
  h.halSPCSetPeripheralClockMode SPC5_FLEXCAN5_PCTL h.SPC5_CAN_FLEXCAN5_STOP_PCTL s

/-- The index `SPC5_FLEXCANk_PCTL` of unit `k`. -/
def flexcan_pctl : Nat → Nat
  | 0 => SPC5_FLEXCAN0_PCTL
  | 1 => SPC5_FLEXCAN1_PCTL
  | 2 => SPC5_FLEXCAN2_PCTL
  | 3 => SPC5_FLEXCAN3_PCTL
  | 4 => SPC5_FLEXCAN4_PCTL
  | _ => SPC5_FLEXCAN5_PCTL

/-- The constant `SPC5_CAN_FLEXCANk_START_PCTL` of unit `k`. -/
def flexcan_start {S : Type} (h : SPC5Hal S) : Nat → Nat
  | 0 => h.SPC5_CAN_FLEXCAN0_START_PCTL
  | 1 => h.SPC5_CAN_FLEXCAN1_START_PCTL
  | 2 => h.SPC5_CAN_FLEXCAN2_START_PCTL
  | 3 => h.SPC5_CAN_FLEXCAN3_START_PCTL
  | 4 => h.SPC5_CAN_FLEXCAN4_START_PCTL
  | _ => h.SPC5_CAN_FLEXCAN5_START_PCTL

/-- The constant `SPC5_CAN_FLEXCANk_STOP_PCTL` of unit `k`. -/
def flexcan_stop {S : Type} (h : SPC5Hal S) : Nat → Nat
  | 0 => h.SPC5_CAN_FLEXCAN0_STOP_PCTL
  | 1 => h.SPC5_CAN_FLEXCAN1_STOP_PCTL
  | 2 => h.SPC5_CAN_FLEXCAN2_STOP_PCTL
  | 3 => h.SPC5_CAN_FLEXCAN3_STOP_PCTL
  | 4 => h.SPC5_CAN_FLEXCAN4_STOP_PCTL
  | _ => h.SPC5_CAN_FLEXCAN5_STOP_PCTL

/-- The macro `SPC5_FLEXCANk_ENABLE_CLOCK()` of unit `k`. -/
def flexcan_enable_clock {S : Type} (h : SPC5Hal S) : Nat → S → S
  | 0 => SPC5_FLEXCAN0_ENABLE_CLOCK h
  | 1 => SPC5_FLEXCAN1_ENABLE_CLOCK h
  | 2 => SPC5_FLEXCAN2_ENABLE_CLOCK h
  | 3 => SPC5_FLEXCAN3_ENABLE_CLOCK h
  | 4 => SPC5_FLEXCAN4_ENABLE_CLOCK h
  | _ => SPC5_FLEXCAN5_ENABLE_CLOCK h

/-- The macro `SPC5_FLEXCANk_DISABLE_CLOCK()` of unit `k`. -/
def flexcan_disable_clock {S : Type} (h : SPC5Hal S) : Nat → S → S
  | 0 => SPC5_FLEXCAN0_DISABLE_CLOCK h
  | 1 => SPC5_FLEXCAN1_DISABLE_CLOCK h
  | 2 => SPC5_FLEXCAN2_DISABLE_CLOCK h
  | 3 => SPC5_FLEXCAN3_DISABLE_CLOCK h
  | 4 => SPC5_FLEXCAN4_DISABLE_CLOCK h
  | _ => SPC5_FLEXCAN5_DISABLE_CLOCK h

/-- A clock controller that keeps, for every peripheral index, the mode last
given to it, with start mode 1 and stop mode 0 for every FlexCAN unit. -/
def pctlHal : SPC5Hal (Nat → Nat) where
  halSPCSetPeripheralClockMode := fun n pctl s => fun x => if x = n then pctl else s x
  SPC5_CAN_FLEXCAN0_START_PCTL := 1
  SPC5_CAN_FLEXCAN0_STOP_PCTL := 0
  SPC5_CAN_FLEXCAN1_START_PCTL := 1
  SPC5_CAN_FLEXCAN1_STOP_PCTL := 0
  SPC5_CAN_FLEXCAN2_START_PCTL := 1
  SPC5_CAN_FLEXCAN2_STOP_PCTL := 0
  SPC5_CAN_FLEXCAN3_START_PCTL := 1
  SPC5_CAN_FLEXCAN3_STOP_PCTL := 0
  SPC5_CAN_FLEXCAN4_START_PCTL := 1
  SPC5_CAN_FLEXCAN4_STOP_PCTL := 0
  SPC5_CAN_FLEXCAN5_START_PCTL := 1
  SPC5_CAN_FLEXCAN5_STOP_PCTL := 0

/-- Every peripheral clock in mode 1 (running). -/
def pctlAllOn : Nat → Nat := fun _ => 1

/-! ## `mutexes.h`: unlock-all -/

/-- The loop of `chMtxUnlockAll`: while the caller's owner-list is not empty
its head is released by an unlock; at most `n` mutexes are released. -/
def chMtxUnlockAll_loop (currp : Nat) : Nat → MtxSys → Option MtxSys
  | 0, s => if (s.threads currp).p_mtxlist = [] then some s else none
  | n + 1, s =>
    if (s.threads currp).p_mtxlist = [] then some s
    else
      match chMtxUnlockS currp s with
      | none => none
      | some (_, s1) => chMtxUnlockAll_loop currp n s1

/-- Modelled from the spec: `chMtxUnlockAll`, called by the running thread
`currp` (section 4.3, unlock-all). It releases every mutex held by the
caller, by unlocking until the owner-list is empty. The result is `none`
when the caller is blocked, hence not running. -/
def chMtxUnlockAll (currp : Nat) (s : MtxSys) : Option MtxSys :=
  if (s.threads currp).p_wtmtxp ≠ none then none
  else chMtxUnlockAll_loop currp (s.threads currp).p_mtxlist.length s

/-- The scenario of section 8 with thread 2 holding the mutexes 0 and 1,
acquired in this order: its owner-list is `[1, 0]`. -/
def mtxNested : MtxSys where
  threads := fun t =>
    if t = 1 then { p_prio := 5, p_realprio := 5, p_mtxlist := [], p_wtmtxp := none }
    else if t = 2 then { p_prio := 3, p_realprio := 3, p_mtxlist := [1, 0], p_wtmtxp := none }
    else { p_prio := 0, p_realprio := 0, p_mtxlist := [], p_wtmtxp := none }
  mutexes := fun m =>
    if m = 0 then { m_queue := [], m_owner := some 2, m_next := none }
    else if m = 1 then { m_queue := [], m_owner := some 2, m_next := some 0 }
    else { m_queue := [], m_owner := none, m_next := none }

/-! ## Virtual timers

The timer pass `chVTDoTickI` called by `chSysTimerHandlerI`, and the
operations that arm and cancel a timer, are outside the available sources
and are modelled from the specification (section 4.4). `chSysTimerHandlerI`
calls the pass whether or not `CH_USE_SYSTEMTIME` is defined, so the timer
engine cannot read `r_stime`; it keeps its own current tick.
-/

/-- A virtual timer: its identity (the callback and its argument) and its
absolute deadline in ticks. -/
structure VirtualTimer where
  /-- Identity of the timer. -/
  vt_id : Nat
  /-- Absolute deadline. -/
  vt_time : Nat
deriving DecidableEq, Repr

/-- One invocation of a timer callback: the timer, and the tick of the pass
that invoked it. -/
structure VTFired where
  /-- The timer invoked. -/
  vt : VirtualTimer
  /-- Tick of the pass. -/
  tick : Nat
deriving DecidableEq, Repr

/-- State of the timer engine: its current tick, counted on the time line of
the absolute deadlines (the number of timer passes run since
initialization); the list of armed timers, ascending by deadline; and the
callbacks invoked so far, oldest first. -/
structure VTState where
  /-- Current tick of the engine. -/
  vt_now : Nat
  /-- Armed timers. -/
  vtlist : List VirtualTimer
  /-- Callbacks invoked so far. -/
  fired : List VTFired
deriving DecidableEq, Repr

/-- Modelled from the spec: `chVTDoTickI`, the timer pass of a tick (section
4.4): the engine advances to the next tick, and every timer whose deadline is
at most that tick is popped and invoked, in the order of the list, stopping
at the first future deadline. The callbacks are opaque; their invocation is
recorded. -/
def chVTDoTickI (k : Kernel VTState) : Kernel VTState :=
  let now := k.rest.vt_now + 1
  { k with rest :=
      { vt_now := now
        vtlist := k.rest.vtlist.dropWhile (fun vt => decide (vt.vt_time ≤ now))
        fired := k.rest.fired
          ++ (k.rest.vtlist.takeWhile (fun vt => decide (vt.vt_time ≤ now))).map
              (fun vt => { vt := vt, tick := now }) } }

theorem loadByte_storeByte_same (m : Memory) (a v : Nat) :
    loadByte (storeByte m a v) a = v % 256 := by
  simp [loadByte, storeByte]

theorem loadByte_storeByte_ne (m : Memory) (a b v : Nat)
    (h : a % 4294967296 ≠ b % 4294967296) :
    loadByte (storeByte m b v) a = loadByte m a := by
  simp [loadByte, storeByte, h]

theorem loadByte_write32_ne (m : Memory) (a b v : Nat)
    (h0 : a % 4294967296 ≠ b % 4294967296)
    (h1 : a % 4294967296 ≠ (b + 1) % 4294967296)
    (h2 : a % 4294967296 ≠ (b + 2) % 4294967296)
    (h3 : a % 4294967296 ≠ (b + 3) % 4294967296) :
    loadByte (write32 m b v) a = loadByte m a := by
  unfold write32
  rw [loadByte_storeByte_ne _ _ _ _ h3, loadByte_storeByte_ne _ _ _ _ h2,
    loadByte_storeByte_ne _ _ _ _ h1, loadByte_storeByte_ne _ _ _ _ h0]

theorem read32_lt (m : Memory) (a : Nat) : read32 m a < 4294967296 := by
  unfold read32 loadByte
  omega

theorem read32_write32_same (m : Memory) (a v : Nat) :
    read32 (write32 m a v) a = v % 4294967296 := by
  have e0 : loadByte (write32 m a v) a = v % 256 := by
    unfold write32
    rw [loadByte_storeByte_ne _ _ _ _ (by omega), loadByte_storeByte_ne _ _ _ _ (by omega),
      loadByte_storeByte_ne _ _ _ _ (by omega), loadByte_storeByte_same]
  have e1 : loadByte (write32 m a v) (a + 1) = v / 256 % 256 := by
    unfold write32
    rw [loadByte_storeByte_ne _ _ _ _ (by omega), loadByte_storeByte_ne _ _ _ _ (by omega),
      loadByte_storeByte_same]
  have e2 : loadByte (write32 m a v) (a + 2) = v / 65536 % 256 := by
    unfold write32
    rw [loadByte_storeByte_ne _ _ _ _ (by omega), loadByte_storeByte_same]
  have e3 : loadByte (write32 m a v) (a + 3) = v / 16777216 % 256 := by
    unfold write32
    rw [loadByte_storeByte_same]
  unfold read32
  rw [e0, e1, e2, e3]
  omega

theorem read32_write32_disjoint (m : Memory) (a b v : Nat) (h : wordsDisjoint a b) :
    read32 (write32 m b v) a = read32 m a := by
  unfold wordsDisjoint sub32 at h
  unfold read32
  rw [loadByte_write32_ne _ _ _ _ (by omega) (by omega) (by omega) (by omega),
    loadByte_write32_ne _ _ _ _ (by omega) (by omega) (by omega) (by omega),
    loadByte_write32_ne _ _ _ _ (by omega) (by omega) (by omega) (by omega),
    loadByte_write32_ne _ _ _ _ (by omega) (by omega) (by omega) (by omega)]

/-! ## Lemmas on machine words -/

theorem wrap32_idem (x : Nat) : wrap32 (wrap32 x) = wrap32 x := by
  unfold wrap32; omega

theorem wrap32_of_lt {x : Nat} (h : x < 4294967296) : wrap32 x = x := by
  unfold wrap32; omega

theorem sub32_lt (a b : Nat) : sub32 a b < 4294967296 := by
  unfold sub32; omega

theorem wrap32_sub32 (a b : Nat) : wrap32 (sub32 a b) = sub32 a b :=
  wrap32_of_lt (sub32_lt a b)

theorem add32_sub32_cancel {a : Nat} (b : Nat) (h : a < 4294967296) :
    add32 (sub32 a b) b = a := by
  unfold add32 sub32; omega

theorem and_mask_lt (x : Nat) : x &&& 0xFFFFFFFE < 4294967296 :=
  lt_of_le_of_lt Nat.and_le_right (by decide)

theorem and_mask_bit0 (x : Nat) : (x &&& 0xFFFFFFFE) &&& 1 = 0 := by
  rw [Nat.and_assoc]
  exact Nat.and_zero x

/-! ## Lemmas on `_port_irq_epilogue` -/

theorem epilogue_frame_psp (c : PortConfig) (p : Bool) (s : MachineState) (sp : Nat) :
    (epilogue_frame c p s sp).psp = sub32 sp c.sizeof_extctx := by
  unfold epilogue_frame
  cases p <;> simp [store32, __set_PSP, wrap32_sub32]

theorem epilogue_frame_locked (c : PortConfig) (p : Bool) (s : MachineState) (sp : Nat) :
    (epilogue_frame c p s sp).locked = s.locked := by
  unfold epilogue_frame
  cases p <;> cases c.CORTEX_USE_FPU <;> simp [store32, __set_PSP]

theorem epilogue_frame_pc (c : PortConfig) (p : Bool) (s : MachineState) (sp : Nat) :
    read32 (epilogue_frame c p s sp).mem ((epilogue_frame c p s sp).psp + c.off_pc)
      = wrap32 (if p then c._port_switch_from_isr else c._port_exit_from_isr) := by
  rw [epilogue_frame_psp]
  unfold epilogue_frame
  cases p <;> simp [store32, __set_PSP, read32_write32_same, wrap32]

/-- On the base-level branch the epilogue is `epilogue_frame` applied to some
intermediate state and stack pointer. -/
theorem epilogue_base_eq (c : PortConfig) (p : Bool) (s : MachineState)
    (hbase : (wrap32 s.icsr &&& c.SCB_ICSR_RETTOBASE_Msk) ≠ 0) :
    ∃ t sp, _port_irq_epilogue c p s = epilogue_frame c p t sp ∧ t.locked = true := by
  unfold _port_irq_epilogue
  simp only [port_lock_from_isr, hbase, ne_eq, not_false_eq_true, if_true]
  split
  · split
    · exact ⟨_, _, rfl, rfl⟩
    · exact ⟨_, _, rfl, rfl⟩
  · exact ⟨_, _, rfl, rfl⟩

theorem epilogue_nested_eq (c : PortConfig) (p : Bool) (s : MachineState)
    (hnest : (wrap32 s.icsr &&& c.SCB_ICSR_RETTOBASE_Msk) = 0) :
    _port_irq_epilogue c p s = { s with locked := false } := by
  unfold _port_irq_epilogue
  simp [port_lock_from_isr, port_unlock_from_isr, hnest]

/-! ## Claims C1 - C3: the two outcomes of the interrupt epilogue -/

/-- C1: when the interrupt is the outermost one (RETTOBASE set), the program
counter stored in the artificial exception-return frame (the `pc` slot of the
frame at the new PSP) is `_port_switch_from_isr` if and only if
`chSchIsPreemptionRequired()` is true, and `_port_exit_from_isr` otherwise. -/
theorem C1_epilogue_pc_two_outcomes (c : PortConfig) (preemption : Bool) (s : MachineState)
    (hsw : c._port_switch_from_isr < 4294967296)
    (hex : c._port_exit_from_isr < 4294967296)
    (hne : c._port_switch_from_isr ≠ c._port_exit_from_isr)
    (hbase : (wrap32 s.icsr &&& c.SCB_ICSR_RETTOBASE_Msk) ≠ 0) :
    (read32 (_port_irq_epilogue c preemption s).mem
        ((_port_irq_epilogue c preemption s).psp + c.off_pc) = c._port_switch_from_isr
      ↔ preemption = true) ∧
    (read32 (_port_irq_epilogue c preemption s).mem
        ((_port_irq_epilogue c preemption s).psp + c.off_pc) = c._port_exit_from_isr
      ↔ preemption = false) := by
  obtain ⟨t, sp, he, _⟩ := epilogue_base_eq c preemption s hbase
  rw [he, epilogue_frame_pc]
  cases preemption
  · simp [wrap32_of_lt hex, Ne.symm hne]
  · simp [wrap32_of_lt hsw, hne]

theorem C1_epilogue_pc_two_outcomes_witness :
    (cfgSyscall._port_switch_from_isr < 4294967296 ∧
      cfgSyscall._port_exit_from_isr < 4294967296 ∧
      cfgSyscall._port_switch_from_isr ≠ cfgSyscall._port_exit_from_isr ∧
      (wrap32 stBaseUnpriv.icsr &&& cfgSyscall.SCB_ICSR_RETTOBASE_Msk) ≠ 0) ∧
    read32 (_port_irq_epilogue cfgSyscall true stBaseUnpriv).mem
        ((_port_irq_epilogue cfgSyscall true stBaseUnpriv).psp + cfgSyscall.off_pc)
      = cfgSyscall._port_switch_from_isr :=
  ⟨⟨by decide, by decide, by decide, by decide⟩,
    (C1_epilogue_pc_two_outcomes cfgSyscall true stBaseUnpriv
      (by decide) (by decide) (by decide) (by decide)).1.mpr rfl⟩

/-- C2: when another exception is still active (RETTOBASE clear) the epilogue
does not depend on the preemption flag and leaves PSP, CONTROL and the whole
memory unchanged; the only component that it sets is the kernel lock, which
it releases. -/
theorem C2_epilogue_nested_no_frame (c : PortConfig) (preemption : Bool) (s : MachineState)
    (hnest : (wrap32 s.icsr &&& c.SCB_ICSR_RETTOBASE_Msk) = 0) :
    (∀ q : Bool, _port_irq_epilogue c q s = _port_irq_epilogue c preemption s) ∧
    (_port_irq_epilogue c preemption s).psp = s.psp ∧
    (_port_irq_epilogue c preemption s).control = s.control ∧
    (_port_irq_epilogue c preemption s).mem = s.mem ∧
    _port_irq_epilogue c preemption s = { s with locked := false } := by
  have h := epilogue_nested_eq c preemption s hnest
  refine ⟨fun q => ?_, ?_, ?_, ?_, h⟩
  · rw [h, epilogue_nested_eq c q s hnest]
  · rw [h]
  · rw [h]
  · rw [h]

theorem C2_epilogue_nested_no_frame_witness :
    (wrap32 stNested.icsr &&& cfgSyscall.SCB_ICSR_RETTOBASE_Msk) = 0 ∧
    (_port_irq_epilogue cfgSyscall true stNested).psp = 0x20001000 ∧
    (_port_irq_epilogue cfgSyscall true stNested).control = 3 ∧
    (_port_irq_epilogue cfgSyscall true stNested).mem = zeroMem :=
  ⟨by decide,
    (C2_epilogue_nested_no_frame cfgSyscall true stNested (by decide)).2.1,
    (C2_epilogue_nested_no_frame cfgSyscall true stNested (by decide)).2.2.1,
    (C2_epilogue_nested_no_frame cfgSyscall true stNested (by decide)).2.2.2.1⟩

/-- C3: `_port_irq_epilogue` returns with the kernel lock held exactly when
the interrupt is the outermost one (RETTOBASE set); in the nested case it
returns with the lock released, which is the lock state before the call for
an epilogue entered with the lock free (the lock it releases is the one it
took at its start). -/
theorem C3_epilogue_lock (c : PortConfig) (preemption : Bool) (s : MachineState) :
    ((_port_irq_epilogue c preemption s).locked = true
      ↔ (wrap32 s.icsr &&& c.SCB_ICSR_RETTOBASE_Msk) ≠ 0) ∧
    ((wrap32 s.icsr &&& c.SCB_ICSR_RETTOBASE_Msk) = 0 →
      (_port_irq_epilogue c preemption s).locked = false ∧
      (s.locked = false → (_port_irq_epilogue c preemption s).locked = s.locked)) := by
  by_cases hb : (wrap32 s.icsr &&& c.SCB_ICSR_RETTOBASE_Msk) = 0
  · have h := epilogue_nested_eq c preemption s hb
    refine ⟨?_, fun _ => ⟨by rw [h], fun hf => by rw [h, hf]⟩⟩
    rw [h]
    simp [hb]
  · obtain ⟨t, sp, he, ht⟩ := epilogue_base_eq c preemption s hb
    refine ⟨?_, fun h0 => absurd h0 hb⟩
    rw [he, epilogue_frame_locked, ht]
    simp [hb]

theorem C3_epilogue_lock_witness :
    ((wrap32 stNested.icsr &&& cfgSyscall.SCB_ICSR_RETTOBASE_Msk) = 0 ∧
      stNested.locked = false) ∧
    (_port_irq_epilogue cfgSyscall false stNested).locked = stNested.locked ∧
    (_port_irq_epilogue cfgSyscall false stBaseUnpriv).locked = true :=
  ⟨⟨by decide, rfl⟩,
    ((C3_epilogue_lock cfgSyscall false stNested).2 (by decide)).2 rfl,
    (C3_epilogue_lock cfgSyscall false stBaseUnpriv).1.mpr (by decide)⟩

/-! ## Lemmas on the layout of the frames -/

theorem wordsDisjoint_fields (a o1 o2 : Nat) (h : fieldsApart o1 o2)
    (h1 : o1 + 4 ≤ 4294967296) (h2 : o2 + 4 ≤ 4294967296) :
    wordsDisjoint (a + o1) (a + o2) := by
  unfold fieldsApart at h
  unfold wordsDisjoint sub32
  omega

/-- A word of the structure at `M` is disjoint from every word of a structure
of size `e` pushed directly below `M`. -/
theorem wordsDisjoint_above (M e o o2 : Nat) (h1 : o + 4 ≤ e)
    (h2 : o2 + 4 + e ≤ 4294967296) :
    wordsDisjoint (M + o2) (sub32 M e + o) := by
  unfold wordsDisjoint sub32
  omega

/-- Reads of the memory left by `epilogue_frame` at a word that is disjoint
from the slots the function writes. -/
theorem epilogue_frame_read (c : PortConfig) (p : Bool) (s : MachineState) (sp a : Nat)
    (hx : wordsDisjoint a (sub32 sp c.sizeof_extctx + c.off_xpsr))
    (hp : wordsDisjoint a (sub32 sp c.sizeof_extctx + c.off_pc))
    (hf : c.CORTEX_USE_FPU = true →
      wordsDisjoint a (sub32 sp c.sizeof_extctx + c.off_fpscr)) :
    read32 (epilogue_frame c p s sp).mem a = read32 s.mem a := by
  unfold epilogue_frame
  cases hfpu : c.CORTEX_USE_FPU
  · cases p <;>
      simp [store32, __set_PSP, read32_write32_disjoint _ _ _ _ hp,
        read32_write32_disjoint _ _ _ _ hx]
  · cases p <;>
      simp [store32, __set_PSP, read32_write32_disjoint _ _ _ _ hp,
        read32_write32_disjoint _ _ _ _ hx, read32_write32_disjoint _ _ _ _ (hf hfpu)]

theorem epilogue_frame_xpsr (c : PortConfig) (p : Bool) (s : MachineState) (sp : Nat)
    (hc : c.WF) :
    read32 (epilogue_frame c p s sp).mem ((epilogue_frame c p s sp).psp + c.off_xpsr)
      = 0x01000000 := by
  obtain ⟨_, _, _, hpc, hxp, _, _, _, _, _, hpx, hfpu, _⟩ := hc
  rw [epilogue_frame_psp]
  have d1 : wordsDisjoint (sub32 sp c.sizeof_extctx + c.off_xpsr)
      (sub32 sp c.sizeof_extctx + c.off_pc) := by
    unfold fieldsApart at hpx
    exact wordsDisjoint_fields _ _ _ (by unfold fieldsApart; omega) (by omega) (by omega)
  unfold epilogue_frame
  cases hf : c.CORTEX_USE_FPU
  · cases p <;>
      simp [store32, __set_PSP, read32_write32_disjoint _ _ _ _ d1, read32_write32_same]
  · obtain ⟨hfs, _, _, _, hfx⟩ := hfpu hf
    have d2 : wordsDisjoint (sub32 sp c.sizeof_extctx + c.off_xpsr)
        (sub32 sp c.sizeof_extctx + c.off_fpscr) := by
      unfold fieldsApart at hfx
      exact wordsDisjoint_fields _ _ _ (by unfold fieldsApart; omega) (by omega) (by omega)
    cases p <;>
      simp [store32, __set_PSP, read32_write32_disjoint _ _ _ _ d1,
        read32_write32_disjoint _ _ _ _ d2, read32_write32_same]

/-! ## Lemmas on the re-entry handlers -/

theorem SVC_Handler_eq_privileged (c : PortConfig) (s : MachineState)
    (hassert : c.CH_DBG_ENABLE_ASSERTS = false ∨ SVC_Handler_assertion s = true)
    (hpath : c.PORT_USE_SYSCALL = false ∨ (__get_CONTROL s &&& 1) = 0) :
    SVC_Handler c s = some (SVC_Handler_privileged c s (__get_PSP s)) := by
  unfold SVC_Handler
  have h1 : (c.CH_DBG_ENABLE_ASSERTS && !SVC_Handler_assertion s) = false := by
    rcases hassert with h | h <;> simp [h]
  rcases hpath with h | h <;> simp [h1, h]

theorem SVC_Handler_eq_syscall (c : PortConfig) (s : MachineState)
    (hassert : c.CH_DBG_ENABLE_ASSERTS = false ∨ SVC_Handler_assertion s = true)
    (hsys : c.PORT_USE_SYSCALL = true) (hunpriv : (__get_CONTROL s &&& 1) ≠ 0) :
    SVC_Handler c s = some (SVC_Handler_syscall c s (__get_PSP s)) := by
  unfold SVC_Handler
  have h1 : (c.CH_DBG_ENABLE_ASSERTS && !SVC_Handler_assertion s) = false := by
    rcases hassert with h | h <;> simp [h]
  rw [Nat.and_one_is_mod] at hunpriv
  simp [h1, hsys, hunpriv]

theorem clear_LSPACT_fields (c : PortConfig) (s : MachineState) :
    (clear_LSPACT c s).psp = s.psp ∧ (clear_LSPACT c s).control = s.control ∧
    (clear_LSPACT c s).mem = s.mem := by
  unfold clear_LSPACT
  split <;> simp

/-! ## Claim C4: epilogue and re-entry without syscall support -/

/-- C4: without syscall support, `_port_irq_epilogue` at base level sets PSP
to the old PSP minus `sizeof (struct port_extctx)` and writes `xpsr =
0x01000000` in the frame at the new PSP, and the re-entry handler
(`PendSV_Handler`, or `SVC_Handler` whose debug assertion is compiled out or
holds) entered with that PSP sets PSP back to exactly the value it had before
the epilogue, for every initial 32-bit PSP. -/
theorem C4_epilogue_reentry_inverse (c : PortConfig) (preemption : Bool)
    (s0 s2 : MachineState) (hc : c.WF) (hsys : c.PORT_USE_SYSCALL = false)
    (hpsp : s0.psp < 4294967296)
    (hbase : (wrap32 s0.icsr &&& c.SCB_ICSR_RETTOBASE_Msk) ≠ 0)
    (hentry : s2.psp = (_port_irq_epilogue c preemption s0).psp)
    (hassert : c.CH_DBG_ENABLE_ASSERTS = false ∨ SVC_Handler_assertion s2 = true) :
    (_port_irq_epilogue c preemption s0).psp = sub32 s0.psp c.sizeof_extctx ∧
    read32 (_port_irq_epilogue c preemption s0).mem
      ((_port_irq_epilogue c preemption s0).psp + c.off_xpsr) = 0x01000000 ∧
    (PendSV_Handler c s2).psp = s0.psp ∧
    ∃ s3, SVC_Handler c s2 = some s3 ∧ s3.psp = s0.psp := by
  have he : _port_irq_epilogue c preemption s0
      = epilogue_frame c preemption (port_lock_from_isr s0) s0.psp := by
    unfold _port_irq_epilogue
    simp [port_lock_from_isr, hbase, hsys, __get_PSP, wrap32_of_lt hpsp]
  have hp : (_port_irq_epilogue c preemption s0).psp = sub32 s0.psp c.sizeof_extctx := by
    rw [he, epilogue_frame_psp]
  have hback : add32 (wrap32 s2.psp) c.sizeof_extctx = s0.psp := by
    rw [hentry, hp, wrap32_sub32, add32_sub32_cancel _ hpsp]
  refine ⟨hp, ?_, ?_, ?_⟩
  · rw [he]
    exact epilogue_frame_xpsr c preemption _ _ hc
  · unfold PendSV_Handler
    simp [hsys, __set_PSP, __get_PSP, hback, wrap32_of_lt hpsp]
  · refine ⟨_, SVC_Handler_eq_privileged c s2 hassert (Or.inl hsys), ?_⟩
    unfold SVC_Handler_privileged
    simp [hsys, __set_PSP, __get_PSP, port_unlock_from_isr, hback, wrap32_of_lt hpsp]

theorem cfgV7M_WF : cfgV7M.WF := by
  simp [PortConfig.WF, fieldsApart, cfgV7M]

theorem cfgSyscall_WF : cfgSyscall.WF := by
  simp [PortConfig.WF, fieldsApart, cfgSyscall, cfgV7M]

theorem C4_epilogue_reentry_inverse_witness :
    (cfgV7M.WF ∧ cfgV7M.PORT_USE_SYSCALL = false ∧ stBasePriv.psp < 4294967296 ∧
      (wrap32 stBasePriv.icsr &&& cfgV7M.SCB_ICSR_RETTOBASE_Msk) ≠ 0) ∧
    (PendSV_Handler cfgV7M (_port_irq_epilogue cfgV7M false stBasePriv)).psp = 0x20001000 ∧
    ∃ s3, SVC_Handler cfgV7M (_port_irq_epilogue cfgV7M false stBasePriv) = some s3 ∧
      s3.psp = 0x20001000 :=
  ⟨⟨cfgV7M_WF, rfl, by decide, by decide⟩,
    (C4_epilogue_reentry_inverse cfgV7M false stBasePriv
      (_port_irq_epilogue cfgV7M false stBasePriv) cfgV7M_WF rfl (by decide) (by decide)
      rfl (Or.inl rfl)).2.2⟩

/-! ## Claims C5, C6: epilogue and re-entry with syscall support -/

theorem store32_psp (s : MachineState) (a v : Nat) : (store32 s a v).psp = s.psp := rfl

/-- Pushing a middle context at `M` and then the artificial frame below it:
the new PSP, and the middle context read back from the final memory. -/
theorem epilogue_push_spec (c : PortConfig) (p : Bool) (s : MachineState) (M v1 v2 : Nat)
    (hc : c.WF) :
    (epilogue_frame c p (store32 (store32 s (M + c.off_control) v1) (M + c.off_ectxp) v2)
        M).psp = sub32 M c.sizeof_extctx ∧
    read32 (epilogue_frame c p
        (store32 (store32 s (M + c.off_control) v1) (M + c.off_ectxp) v2) M).mem
      (M + c.off_control) = v1 % 4294967296 ∧
    read32 (epilogue_frame c p
        (store32 (store32 s (M + c.off_control) v1) (M + c.off_ectxp) v2) M).mem
      (M + c.off_ectxp) = v2 % 4294967296 := by
  obtain ⟨hsz, _, _, hpc, hxp, _, _, _, _, _, _, hfpu, hmc, hme, hce, _⟩ := hc
  refine ⟨epilogue_frame_psp _ _ _ _, ?_, ?_⟩
  · rw [epilogue_frame_read c p _ M _
      (wordsDisjoint_above _ _ _ _ hxp (by omega))
      (wordsDisjoint_above _ _ _ _ hpc (by omega))
      (fun hf => wordsDisjoint_above _ _ _ _ (hfpu hf).1 (by omega))]
    have d : wordsDisjoint (M + c.off_control) (M + c.off_ectxp) :=
      wordsDisjoint_fields _ _ _ hce (by omega) (by omega)
    simp [store32, read32_write32_disjoint _ _ _ _ d, read32_write32_same]
  · rw [epilogue_frame_read c p _ M _
      (wordsDisjoint_above _ _ _ _ hxp (by omega))
      (wordsDisjoint_above _ _ _ _ hpc (by omega))
      (fun hf => wordsDisjoint_above _ _ _ _ (hfpu hf).1 (by omega))]
    simp [store32, read32_write32_same]

/-- With syscall support, the base-level epilogue leaves PSP one exception
frame below a middle context that holds the CONTROL and PSP values found at
entry. -/
theorem epilogue_syscall_spec (c : PortConfig) (p : Bool) (s0 : MachineState)
    (hc : c.WF) (hsys : c.PORT_USE_SYSCALL = true) (hs0 : s0.WF)
    (hbase : (wrap32 s0.icsr &&& c.SCB_ICSR_RETTOBASE_Msk) ≠ 0) :
    ∃ M, M < 4294967296 ∧
      (M = sub32 (if s0.control &&& 1 = 0 then s0.psp else s0.s_psp) c.sizeof_midctx) ∧
      (_port_irq_epilogue c p s0).psp = sub32 M c.sizeof_extctx ∧
      read32 (_port_irq_epilogue c p s0).mem (M + c.off_control) = s0.control ∧
      read32 (_port_irq_epilogue c p s0).mem (M + c.off_ectxp) = s0.psp := by
  obtain ⟨h1, h2, h3⟩ := hs0
  unfold _port_irq_epilogue
  by_cases hb : s0.control &&& 1 = 0
  · refine ⟨sub32 s0.psp c.sizeof_midctx, sub32_lt _ _, by rw [if_pos hb], ?_⟩
    simp only [port_lock_from_isr, hbase, hsys, __get_CONTROL, __get_PSP, wrap32_of_lt h1,
      wrap32_of_lt h2, hb, ne_eq, not_true_eq_false, not_false_eq_true, if_true, if_false]
    have h := epilogue_push_spec c p { s0 with locked := true }
      (sub32 s0.psp c.sizeof_midctx) s0.control s0.psp hc
    rw [Nat.mod_eq_of_lt h1, Nat.mod_eq_of_lt h2] at h
    exact h
  · refine ⟨sub32 s0.s_psp c.sizeof_midctx, sub32_lt _ _, by rw [if_neg hb], ?_⟩
    simp only [port_lock_from_isr, hbase, hsys, __get_CONTROL, __get_PSP, __set_CONTROL,
      store32_psp, wrap32_of_lt h1, wrap32_of_lt h2, wrap32_of_lt h3, hb, ne_eq, not_true_eq_false,
      not_false_eq_true, if_true, if_false]
    have h := epilogue_push_spec c p
      { s0 with locked := true, control := wrap32 (s0.control &&& 0xFFFFFFFE) }
      (sub32 s0.s_psp c.sizeof_midctx) s0.control s0.psp hc
    rw [Nat.mod_eq_of_lt h1, Nat.mod_eq_of_lt h2] at h
    exact h

/-- The privileged path of `SVC_Handler` undoes the base-level epilogue. -/
theorem svc_after_epilogue (c : PortConfig) (preemption : Bool)
    (s0 s2 : MachineState) (hc : c.WF) (hsys : c.PORT_USE_SYSCALL = true) (hs0 : s0.WF)
    (hbase : (wrap32 s0.icsr &&& c.SCB_ICSR_RETTOBASE_Msk) ≠ 0)
    (hentry : s2.psp = (_port_irq_epilogue c preemption s0).psp)
    (hmid : sameMidctx c s2.mem (_port_irq_epilogue c preemption s0).mem
      (add32 (_port_irq_epilogue c preemption s0).psp c.sizeof_extctx))
    (hpriv : (__get_CONTROL s2 &&& 1) = 0)
    (hassert : c.CH_DBG_ENABLE_ASSERTS = false ∨ SVC_Handler_assertion s2 = true) :
    ∃ s3, SVC_Handler c s2 = some s3 ∧ s3.control = s0.control ∧ s3.psp = s0.psp := by
  obtain ⟨M, hM, _, hp, hrc, hre⟩ := epilogue_syscall_spec c preemption s0 hc hsys hs0 hbase
  obtain ⟨h1, h2, _⟩ := hs0
  refine ⟨_, SVC_Handler_eq_privileged c s2 hassert (Or.inr hpriv), ?_⟩
  rw [hp, add32_sub32_cancel _ hM] at hmid
  obtain ⟨hm1, hm2⟩ := hmid
  have hback : add32 (wrap32 s2.psp) c.sizeof_extctx = M := by
    rw [hentry, hp, wrap32_sub32, add32_sub32_cancel _ hM]
  obtain ⟨_, _, hcm⟩ := clear_LSPACT_fields c s2
  unfold SVC_Handler_privileged
  simp only [hsys, if_true, __set_PSP, __set_CONTROL, __get_PSP, port_unlock_from_isr, hback,
    hcm, hm1, hm2, hrc, hre, wrap32_of_lt h1, wrap32_of_lt h2, and_self]

/-- C5: with syscall support in full-priority mode, for every base-level
interrupt taken from unprivileged or privileged thread code,
`_port_irq_epilogue` followed by the privileged path of `SVC_Handler`, entered
with an exception frame directly above the middle context the epilogue
pushed (and with its debug assertion compiled out or holding), restores both
CONTROL and PSP to the values they had when the epilogue started. -/
theorem C5_epilogue_svc_restores (c : PortConfig) (preemption : Bool)
    (s0 s2 : MachineState) (hc : c.WF) (hsys : c.PORT_USE_SYSCALL = true) (hs0 : s0.WF)
    (hbase : (wrap32 s0.icsr &&& c.SCB_ICSR_RETTOBASE_Msk) ≠ 0)
    (hentry : s2.psp = (_port_irq_epilogue c preemption s0).psp)
    (hmid : sameMidctx c s2.mem (_port_irq_epilogue c preemption s0).mem
      (add32 (_port_irq_epilogue c preemption s0).psp c.sizeof_extctx))
    (hpriv : (__get_CONTROL s2 &&& 1) = 0)
    (hassert : c.CH_DBG_ENABLE_ASSERTS = false ∨ SVC_Handler_assertion s2 = true) :
    ∃ s3, SVC_Handler c s2 = some s3 ∧ s3.control = s0.control ∧ s3.psp = s0.psp :=
  svc_after_epilogue c preemption s0 s2 hc hsys hs0 hbase hentry hmid hpriv hassert

theorem stBaseUnpriv_WF : stBaseUnpriv.WF := by
  simp [MachineState.WF, stBaseUnpriv]

theorem C5_epilogue_svc_restores_witness :
    (cfgSyscall.WF ∧ cfgSyscall.PORT_USE_SYSCALL = true ∧ stBaseUnpriv.WF ∧
      (wrap32 stBaseUnpriv.icsr &&& cfgSyscall.SCB_ICSR_RETTOBASE_Msk) ≠ 0 ∧
      (__get_CONTROL (_port_irq_epilogue cfgSyscall false stBaseUnpriv) &&& 1) = 0) ∧
    ∃ s3, SVC_Handler cfgSyscall (_port_irq_epilogue cfgSyscall false stBaseUnpriv) = some s3 ∧
      s3.control = 3 ∧ s3.psp = 0x20001000 :=
  ⟨⟨cfgSyscall_WF, rfl, stBaseUnpriv_WF, by decide, by decide⟩,
    C5_epilogue_svc_restores cfgSyscall false stBaseUnpriv
      (_port_irq_epilogue cfgSyscall false stBaseUnpriv) cfgSyscall_WF rfl stBaseUnpriv_WF
      (by decide) rfl ⟨rfl, rfl⟩ (by decide) (Or.inl rfl)⟩

theorem fieldsApart_symm {o1 o2 : Nat} (h : fieldsApart o1 o2) : fieldsApart o2 o1 := by
  unfold fieldsApart at *
  omega

theorem svc_number_le (c : PortConfig) (m : Memory) (a : Nat) : svc_number c m a ≤ 255 := by
  unfold svc_number
  exact Nat.and_le_right

/-- The state built by the syscall-entry branch of `SVC_Handler`: registers,
the middle context at `M = s_psp - sizeof (struct port_midctx)` and the
return frame at `M - sizeof (struct port_extctx)`, all read back from the
final memory. -/
theorem svc_syscall_spec (c : PortConfig) (s : MachineState) (psp : Nat) (hc : c.WF)
    (hpsp : psp < 4294967296) :
    (SVC_Handler_syscall c s psp).control = __get_CONTROL s &&& 0xFFFFFFFE ∧
    (SVC_Handler_syscall c s psp).psp
      = sub32 (sub32 (wrap32 s.s_psp) c.sizeof_midctx) c.sizeof_extctx ∧
    read32 (SVC_Handler_syscall c s psp).mem
      (sub32 (wrap32 s.s_psp) c.sizeof_midctx + c.off_control) = __get_CONTROL s ∧
    read32 (SVC_Handler_syscall c s psp).mem
      (sub32 (wrap32 s.s_psp) c.sizeof_midctx + c.off_ectxp) = psp ∧
    read32 (SVC_Handler_syscall c s psp).mem
      (sub32 (sub32 (wrap32 s.s_psp) c.sizeof_midctx) c.sizeof_extctx + c.off_r0) = psp ∧
    read32 (SVC_Handler_syscall c s psp).mem
      (sub32 (sub32 (wrap32 s.s_psp) c.sizeof_midctx) c.sizeof_extctx + c.off_r1)
      = svc_number c
          (write32 (write32 s.mem (sub32 (wrap32 s.s_psp) c.sizeof_midctx + c.off_control)
            (__get_CONTROL s)) (sub32 (wrap32 s.s_psp) c.sizeof_midctx + c.off_ectxp) psp)
          psp ∧
    read32 (SVC_Handler_syscall c s psp).mem
      (sub32 (sub32 (wrap32 s.s_psp) c.sizeof_midctx) c.sizeof_extctx + c.off_pc)
      = c.port_syscall ∧
    read32 (SVC_Handler_syscall c s psp).mem
      (sub32 (sub32 (wrap32 s.s_psp) c.sizeof_midctx) c.sizeof_extctx + c.off_xpsr)
      = 0x01000000 := by
  obtain ⟨hsz, hr0, hr1, hpc, hxp, a01, a0p, a0x, a1p, a1x, apx, hfpu, hmc, hme, hce, _, _,
    hsc, _⟩ := hc
  have hctl : __get_CONTROL s < 4294967296 := by unfold __get_CONTROL wrap32; omega
  have hn := svc_number_le c
    (write32 (write32 s.mem (sub32 (wrap32 s.s_psp) c.sizeof_midctx + c.off_control)
      (__get_CONTROL s)) (sub32 (wrap32 s.s_psp) c.sizeof_midctx + c.off_ectxp) psp) psp
  -- the middle context lies above every slot of the frame
  have mc0 := wordsDisjoint_above (sub32 (wrap32 s.s_psp) c.sizeof_midctx) _ _ c.off_control
    hr0 (by omega)
  have mc1 := wordsDisjoint_above (sub32 (wrap32 s.s_psp) c.sizeof_midctx) _ _ c.off_control
    hr1 (by omega)
  have mcp := wordsDisjoint_above (sub32 (wrap32 s.s_psp) c.sizeof_midctx) _ _ c.off_control
    hpc (by omega)
  have mcx := wordsDisjoint_above (sub32 (wrap32 s.s_psp) c.sizeof_midctx) _ _ c.off_control
    hxp (by omega)
  have me0 := wordsDisjoint_above (sub32 (wrap32 s.s_psp) c.sizeof_midctx) _ _ c.off_ectxp
    hr0 (by omega)
  have me1 := wordsDisjoint_above (sub32 (wrap32 s.s_psp) c.sizeof_midctx) _ _ c.off_ectxp
    hr1 (by omega)
  have mep := wordsDisjoint_above (sub32 (wrap32 s.s_psp) c.sizeof_midctx) _ _ c.off_ectxp
    hpc (by omega)
  have mex := wordsDisjoint_above (sub32 (wrap32 s.s_psp) c.sizeof_midctx) _ _ c.off_ectxp
    hxp (by omega)
  have mce := wordsDisjoint_fields (sub32 (wrap32 s.s_psp) c.sizeof_midctx) _ _ hce
    (by omega) (by omega)
  -- the slots of the frame are pairwise disjoint
  have f01 := wordsDisjoint_fields
    (sub32 (sub32 (wrap32 s.s_psp) c.sizeof_midctx) c.sizeof_extctx) _ _ a01
    (by omega) (by omega)
  have f0p := wordsDisjoint_fields
    (sub32 (sub32 (wrap32 s.s_psp) c.sizeof_midctx) c.sizeof_extctx) _ _ a0p
    (by omega) (by omega)
  have f0x := wordsDisjoint_fields
    (sub32 (sub32 (wrap32 s.s_psp) c.sizeof_midctx) c.sizeof_extctx) _ _ a0x
    (by omega) (by omega)
  have f1p := wordsDisjoint_fields
    (sub32 (sub32 (wrap32 s.s_psp) c.sizeof_midctx) c.sizeof_extctx) _ _ a1p
    (by omega) (by omega)
  have f1x := wordsDisjoint_fields
    (sub32 (sub32 (wrap32 s.s_psp) c.sizeof_midctx) c.sizeof_extctx) _ _ a1x
    (by omega) (by omega)
  have fpx := wordsDisjoint_fields
    (sub32 (sub32 (wrap32 s.s_psp) c.sizeof_midctx) c.sizeof_extctx) _ _ apx
    (by omega) (by omega)
  unfold SVC_Handler_syscall
  cases hf : c.CORTEX_USE_FPU
  · simp [store32, __set_PSP, __set_CONTROL, wrap32_sub32, wrap32_of_lt (and_mask_lt _),
      read32_write32_same, read32_write32_disjoint _ _ _ _ mc0,
      read32_write32_disjoint _ _ _ _ mc1, read32_write32_disjoint _ _ _ _ mcp,
      read32_write32_disjoint _ _ _ _ mcx, read32_write32_disjoint _ _ _ _ me0,
      read32_write32_disjoint _ _ _ _ me1, read32_write32_disjoint _ _ _ _ mep,
      read32_write32_disjoint _ _ _ _ mex, read32_write32_disjoint _ _ _ _ mce,
      read32_write32_disjoint _ _ _ _ f01, read32_write32_disjoint _ _ _ _ f0p,
      read32_write32_disjoint _ _ _ _ f0x, read32_write32_disjoint _ _ _ _ f1p,
      read32_write32_disjoint _ _ _ _ f1x, read32_write32_disjoint _ _ _ _ fpx,
      Nat.mod_eq_of_lt hctl, Nat.mod_eq_of_lt hpsp, Nat.mod_eq_of_lt hsc,
      Nat.mod_eq_of_lt (lt_of_le_of_lt hn (by decide : 255 < 4294967296))]
  · obtain ⟨hfs, af0, af1, afp, afx⟩ := hfpu hf
    have mcf := wordsDisjoint_above (sub32 (wrap32 s.s_psp) c.sizeof_midctx) _ _
      c.off_control hfs (by omega)
    have mef := wordsDisjoint_above (sub32 (wrap32 s.s_psp) c.sizeof_midctx) _ _
      c.off_ectxp hfs (by omega)
    have f0f := wordsDisjoint_fields
      (sub32 (sub32 (wrap32 s.s_psp) c.sizeof_midctx) c.sizeof_extctx) _ _
      (fieldsApart_symm af0) (by omega) (by omega)
    have f1f := wordsDisjoint_fields
      (sub32 (sub32 (wrap32 s.s_psp) c.sizeof_midctx) c.sizeof_extctx) _ _
      (fieldsApart_symm af1) (by omega) (by omega)
    have fpf := wordsDisjoint_fields
      (sub32 (sub32 (wrap32 s.s_psp) c.sizeof_midctx) c.sizeof_extctx) _ _
      (fieldsApart_symm afp) (by omega) (by omega)
    have fxf := wordsDisjoint_fields
      (sub32 (sub32 (wrap32 s.s_psp) c.sizeof_midctx) c.sizeof_extctx) _ _
      (fieldsApart_symm afx) (by omega) (by omega)
    simp [store32, __set_PSP, __set_CONTROL, wrap32_sub32, wrap32_of_lt (and_mask_lt _),
      read32_write32_same, read32_write32_disjoint _ _ _ _ mc0,
      read32_write32_disjoint _ _ _ _ mc1, read32_write32_disjoint _ _ _ _ mcp,
      read32_write32_disjoint _ _ _ _ mcx, read32_write32_disjoint _ _ _ _ me0,
      read32_write32_disjoint _ _ _ _ me1, read32_write32_disjoint _ _ _ _ mep,
      read32_write32_disjoint _ _ _ _ mex, read32_write32_disjoint _ _ _ _ mce,
      read32_write32_disjoint _ _ _ _ f01, read32_write32_disjoint _ _ _ _ f0p,
      read32_write32_disjoint _ _ _ _ f0x, read32_write32_disjoint _ _ _ _ f1p,
      read32_write32_disjoint _ _ _ _ f1x, read32_write32_disjoint _ _ _ _ fpx,
      read32_write32_disjoint _ _ _ _ mcf, read32_write32_disjoint _ _ _ _ mef,
      read32_write32_disjoint _ _ _ _ f0f, read32_write32_disjoint _ _ _ _ f1f,
      read32_write32_disjoint _ _ _ _ fpf, read32_write32_disjoint _ _ _ _ fxf,
      Nat.mod_eq_of_lt hctl, Nat.mod_eq_of_lt hpsp, Nat.mod_eq_of_lt hsc,
      Nat.mod_eq_of_lt (lt_of_le_of_lt hn (by decide : 255 < 4294967296))]

/-- C7: entered from unprivileged mode (CONTROL bit 0 set, debug assertion
compiled out or holding), `SVC_Handler` returns after pushing on the
supervisor stack (`ctx.s_psp`) a middle context holding the entry CONTROL
value, whose privilege bit is set, and the caller's PSP; it clears CONTROL
bit 0 and sets PSP to `s_psp - sizeof (struct port_midctx) - sizeof (struct
port_extctx)`, where the return frame has `r0` = caller context pointer, `r1`
= number of the SVC instruction (as read once the middle context is pushed),
`pc = port_syscall` and `xpsr = 0x01000000`. -/
theorem C7_svc_syscall_entry (c : PortConfig) (s : MachineState) (hc : c.WF)
    (hsys : c.PORT_USE_SYSCALL = true) (hunpriv : (__get_CONTROL s &&& 1) ≠ 0)
    (hassert : c.CH_DBG_ENABLE_ASSERTS = false ∨ SVC_Handler_assertion s = true) :
    ∃ s1, SVC_Handler c s = some s1 ∧
      read32 s1.mem (sub32 (wrap32 s.s_psp) c.sizeof_midctx + c.off_control)
        = __get_CONTROL s ∧
      (read32 s1.mem (sub32 (wrap32 s.s_psp) c.sizeof_midctx + c.off_control) &&& 1) ≠ 0 ∧
      read32 s1.mem (sub32 (wrap32 s.s_psp) c.sizeof_midctx + c.off_ectxp) = __get_PSP s ∧
      s1.control = __get_CONTROL s &&& 0xFFFFFFFE ∧
      (s1.control &&& 1) = 0 ∧
      s1.psp = sub32 (sub32 (wrap32 s.s_psp) c.sizeof_midctx) c.sizeof_extctx ∧
      read32 s1.mem (s1.psp + c.off_r0) = __get_PSP s ∧
      read32 s1.mem (s1.psp + c.off_r1)
        = svc_number c
            (write32 (write32 s.mem (sub32 (wrap32 s.s_psp) c.sizeof_midctx + c.off_control)
              (__get_CONTROL s))
              (sub32 (wrap32 s.s_psp) c.sizeof_midctx + c.off_ectxp) (__get_PSP s))
            (__get_PSP s) ∧
      read32 s1.mem (s1.psp + c.off_pc) = c.port_syscall ∧
      read32 s1.mem (s1.psp + c.off_xpsr) = 0x01000000 := by
  have hpsp : __get_PSP s < 4294967296 := by unfold __get_PSP wrap32; omega
  obtain ⟨h1, h2, h3, h4, h5, h6, h7, h8⟩ := svc_syscall_spec c s (__get_PSP s) hc hpsp
  refine ⟨_, SVC_Handler_eq_syscall c s hassert hsys hunpriv, h3, ?_, h4, h1, ?_, h2, ?_, ?_,
    ?_, ?_⟩
  · rw [h3]; exact hunpriv
  · rw [h1]; exact and_mask_bit0 _
  · rw [h2]; exact h5
  · rw [h2]; exact h6
  · rw [h2]; exact h7
  · rw [h2]; exact h8

theorem C7_svc_syscall_entry_witness :
    (cfgSyscall.WF ∧ cfgSyscall.PORT_USE_SYSCALL = true ∧
      (__get_CONTROL stBaseUnpriv &&& 1) ≠ 0 ∧ cfgSyscall.CH_DBG_ENABLE_ASSERTS = false) ∧
    ∃ s1, SVC_Handler cfgSyscall stBaseUnpriv = some s1 ∧
      s1.control = 2 ∧ s1.psp = 0x20001FD8 ∧
      read32 s1.mem (s1.psp + cfgSyscall.off_pc) = 0x08000181 := by
  refine ⟨⟨cfgSyscall_WF, rfl, by decide, rfl⟩, ?_⟩
  obtain ⟨s1, h, _, _, _, hctl, _, hp, _, _, hpc, _⟩ :=
    C7_svc_syscall_entry cfgSyscall stBaseUnpriv cfgSyscall_WF rfl (by decide) (Or.inl rfl)
  exact ⟨s1, h, hctl, hp, hpc⟩

/-- C8: syscall return reverses syscall entry. For every 32-bit caller PSP
and CONTROL and every supervisor stack pointer, the unprivileged
(syscall-entry) path of `SVC_Handler` returns a state `s1` such that the
privileged path of `SVC_Handler`, run on any state whose exception frame sits
directly above the middle context that entry pushed, restores PSP to the
caller's original stack pointer and CONTROL to the original value, with the
unprivileged bit set (debug assertion compiled out or holding at both
entries). -/
theorem C8_syscall_return_reverses_entry (c : PortConfig) (s0 : MachineState) (hc : c.WF)
    (hsys : c.PORT_USE_SYSCALL = true) (hs0 : s0.WF)
    (hunpriv : (__get_CONTROL s0 &&& 1) ≠ 0)
    (hassert0 : c.CH_DBG_ENABLE_ASSERTS = false ∨ SVC_Handler_assertion s0 = true) :
    ∃ s1, SVC_Handler c s0 = some s1 ∧
      ∀ s2 : MachineState, s2.psp = s1.psp →
        sameMidctx c s2.mem s1.mem (add32 s1.psp c.sizeof_extctx) →
        (__get_CONTROL s2 &&& 1) = 0 →
        (c.CH_DBG_ENABLE_ASSERTS = false ∨ SVC_Handler_assertion s2 = true) →
        ∃ s3, SVC_Handler c s2 = some s3 ∧ s3.psp = s0.psp ∧ s3.control = s0.control ∧
          (s3.control &&& 1) ≠ 0 := by
  obtain ⟨hp0, hc0, _⟩ := hs0
  have hg : __get_CONTROL s0 = s0.control := wrap32_of_lt hc0
  have hq : __get_PSP s0 = s0.psp := wrap32_of_lt hp0
  have hE := SVC_Handler_eq_syscall c s0 hassert0 hsys hunpriv
  obtain ⟨_, h2, h3, h4, _⟩ := svc_syscall_spec c s0 s0.psp hc hp0
  rw [hq] at hE
  rw [hg] at hunpriv h3
  refine ⟨_, hE, ?_⟩
  intro s2 hentry hmid hpriv hassert2
  refine ⟨_, SVC_Handler_eq_privileged c s2 hassert2 (Or.inr hpriv), ?_⟩
  rw [h2, add32_sub32_cancel _ (sub32_lt _ _)] at hmid
  obtain ⟨hm1, hm2⟩ := hmid
  have hback : add32 (wrap32 s2.psp) c.sizeof_extctx
      = sub32 (wrap32 s0.s_psp) c.sizeof_midctx := by
    rw [hentry, h2, wrap32_sub32, add32_sub32_cancel _ (sub32_lt _ _)]
  obtain ⟨_, _, hcm⟩ := clear_LSPACT_fields c s2
  unfold SVC_Handler_privileged
  simp only [hsys, if_true, __set_PSP, __set_CONTROL, __get_PSP, port_unlock_from_isr, hback,
    hcm, hm1, hm2, h3, h4, wrap32_of_lt hp0, wrap32_of_lt hc0, true_and]
  exact hunpriv

theorem C8_syscall_return_reverses_entry_witness :
    (cfgSyscall.WF ∧ cfgSyscall.PORT_USE_SYSCALL = true ∧ stBaseUnpriv.WF ∧
      (__get_CONTROL stBaseUnpriv &&& 1) ≠ 0 ∧ cfgSyscall.CH_DBG_ENABLE_ASSERTS = false) ∧
    ∃ s1, SVC_Handler cfgSyscall stBaseUnpriv = some s1 ∧
      ∃ s3, SVC_Handler cfgSyscall s1 = some s3 ∧ s3.psp = 0x20001000 ∧ s3.control = 3 := by
  refine ⟨⟨cfgSyscall_WF, rfl, stBaseUnpriv_WF, by decide, rfl⟩, ?_⟩
  obtain ⟨s1, h1, hall⟩ := C8_syscall_return_reverses_entry cfgSyscall stBaseUnpriv
    cfgSyscall_WF rfl stBaseUnpriv_WF (by decide) (Or.inl rfl)
  have hs1 : s1 = SVC_Handler_syscall cfgSyscall stBaseUnpriv (__get_PSP stBaseUnpriv) := by
    have h := SVC_Handler_eq_syscall cfgSyscall stBaseUnpriv (Or.inl rfl) rfl (by decide)
    rw [h] at h1
    exact (Option.some.inj h1).symm
  obtain ⟨s3, h3, hp, hctl, _⟩ := hall s1 rfl ⟨rfl, rfl⟩ (by rw [hs1]; decide) (Or.inl rfl)
  exact ⟨s1, h1, s3, h3, hp, hctl⟩

/-! ## Claims C9, C10: the tick handler -/

/-- One tick, on the tick counter: an increment modulo the width of
`systime_t`, provided the timer pass leaves the counter alone. -/
theorem chSysTimerHandlerI_stime {K : Type} (c : KernelConfig)
    (chVTDoTickI : Kernel K → Kernel K)
    (hvt : ∀ k, (chVTDoTickI k).rlist.r_stime = k.rlist.r_stime)
    (hst : c.CH_USE_SYSTEMTIME = true) (k : Kernel K) :
    (chSysTimerHandlerI c chVTDoTickI k).rlist.r_stime
      = (k.rlist.r_stime + 1) % 2 ^ c.systime_bits := by
  unfold chSysTimerHandlerI
  cases hv : c.CH_USE_VIRTUAL_TIMERS <;> by_cases hq : k.rlist.r_preempt > 0 <;>
    simp [hst, hq, hvt]

/-- One tick, on the quantum: a decrement guarded by `r_preempt > 0`, provided
the timer pass leaves the quantum alone. -/
theorem chSysTimerHandlerI_preempt {K : Type} (c : KernelConfig)
    (chVTDoTickI : Kernel K → Kernel K)
    (hvt : ∀ k, (chVTDoTickI k).rlist.r_preempt = k.rlist.r_preempt) (k : Kernel K) :
    (chSysTimerHandlerI c chVTDoTickI k).rlist.r_preempt
      = if k.rlist.r_preempt > 0 then k.rlist.r_preempt - 1 else k.rlist.r_preempt := by
  unfold chSysTimerHandlerI
  cases hv : c.CH_USE_VIRTUAL_TIMERS <;> cases hs : c.CH_USE_SYSTEMTIME <;>
    by_cases hq : k.rlist.r_preempt > 0 <;> simp [hq, hvt]

/-- C9 (counterexample): with a 32-bit `systime_t`, a tick taken when
`r_stime` holds 4294967295 leaves `r_stime` at 0, which is neither the
previous value plus one nor greater than the previous value. -/
theorem C9_tick_counter_wraps :
    kMaxTime.rlist.r_stime = 4294967295 ∧
    (chSysTimerHandlerI kcfg32 id kMaxTime).rlist.r_stime = 0 ∧
    ¬ ((chSysTimerHandlerI kcfg32 id kMaxTime).rlist.r_stime = kMaxTime.rlist.r_stime + 1) ∧
    ¬ (kMaxTime.rlist.r_stime < (chSysTimerHandlerI kcfg32 id kMaxTime).rlist.r_stime) := by
  have h : (chSysTimerHandlerI kcfg32 id kMaxTime).rlist.r_stime = 0 := by
    rw [chSysTimerHandlerI_stime kcfg32 id (fun _ => rfl) rfl]
    decide
  rw [h]
  exact ⟨rfl, rfl, by decide, by decide⟩

/-- C9 (amended): every call of `chSysTimerHandlerI` (with `CH_USE_SYSTEMTIME`,
the timer pass not writing the counter) advances `r_stime` exactly once,
modulo the range of `systime_t`: the new value is the previous value plus one,
hence strictly greater, whenever the previous value is below the largest
value of the type, and it is 0 when the previous value is the largest one. -/
theorem C9_tick_counter_advances {K : Type} (c : KernelConfig)
    (chVTDoTickI : Kernel K → Kernel K)
    (hvt : ∀ k, (chVTDoTickI k).rlist.r_stime = k.rlist.r_stime)
    (hst : c.CH_USE_SYSTEMTIME = true) (k : Kernel K) :
    (chSysTimerHandlerI c chVTDoTickI k).rlist.r_stime
      = (k.rlist.r_stime + 1) % 2 ^ c.systime_bits ∧
    (k.rlist.r_stime + 1 < 2 ^ c.systime_bits →
      (chSysTimerHandlerI c chVTDoTickI k).rlist.r_stime = k.rlist.r_stime + 1 ∧
      k.rlist.r_stime < (chSysTimerHandlerI c chVTDoTickI k).rlist.r_stime) ∧
    (k.rlist.r_stime + 1 = 2 ^ c.systime_bits →
      (chSysTimerHandlerI c chVTDoTickI k).rlist.r_stime = 0) := by
  have h := chSysTimerHandlerI_stime c chVTDoTickI hvt hst k
  refine ⟨h, fun hlt => ?_, fun heq => ?_⟩
  · rw [h, Nat.mod_eq_of_lt hlt]
    exact ⟨rfl, Nat.lt_succ_self _⟩
  · rw [h, heq, Nat.mod_self]

theorem C9_tick_counter_advances_witness :
    ((∀ k : Kernel Unit, (id k).rlist.r_stime = k.rlist.r_stime) ∧
      kcfgVT.CH_USE_SYSTEMTIME = true ∧
      kSample.rlist.r_stime + 1 < 2 ^ kcfgVT.systime_bits) ∧
    (chSysTimerHandlerI kcfgVT id kSample).rlist.r_stime = kSample.rlist.r_stime + 1 ∧
    kSample.rlist.r_stime < (chSysTimerHandlerI kcfgVT id kSample).rlist.r_stime :=
  ⟨⟨fun _ => rfl, rfl, by decide⟩,
    (C9_tick_counter_advances kcfgVT id (fun _ => rfl) rfl kSample).2.1 (by decide)⟩

/-- C10: the remaining quantum is decremented by one on every tick and never
goes below zero: for every initial quantum `q ≥ 0` and every `n`, after `n`
calls of `chSysTimerHandlerI` during which nothing else (in particular not the
timer pass) writes the quantum, `r_preempt` is `q - n` if `n ≤ q` and 0
otherwise; a tick at quantum 0 leaves it at 0. -/
theorem C10_quantum_countdown {K : Type} (c : KernelConfig)
    (chVTDoTickI : Kernel K → Kernel K)
    (hvt : ∀ k, (chVTDoTickI k).rlist.r_preempt = k.rlist.r_preempt)
    (n : Nat) (k : Kernel K) (hq : 0 ≤ k.rlist.r_preempt) :
    (ticks c chVTDoTickI n k).rlist.r_preempt
      = (if (n : Int) ≤ k.rlist.r_preempt then k.rlist.r_preempt - n else 0) ∧
    0 ≤ (ticks c chVTDoTickI n k).rlist.r_preempt ∧
    (k.rlist.r_preempt = 0 →
      (chSysTimerHandlerI c chVTDoTickI k).rlist.r_preempt = 0) := by
  have hstep := chSysTimerHandlerI_preempt c chVTDoTickI hvt
  have main : ∀ (n : Nat) (k : Kernel K), 0 ≤ k.rlist.r_preempt →
      (ticks c chVTDoTickI n k).rlist.r_preempt
        = (if (n : Int) ≤ k.rlist.r_preempt then k.rlist.r_preempt - n else 0) := by
    intro n
    induction n with
    | zero =>
      intro k hk
      simp [ticks, hk]
    | succ m ih =>
      intro k hk
      have h1 := hstep k
      have h2 := ih (chSysTimerHandlerI c chVTDoTickI k) (by rw [h1]; split <;> omega)
      show (ticks c chVTDoTickI m (chSysTimerHandlerI c chVTDoTickI k)).rlist.r_preempt = _
      rw [h2, h1]
      push_cast
      split_ifs <;> omega
  refine ⟨main n k hq, ?_, fun h0 => ?_⟩
  · rw [main n k hq]
    split <;> omega
  · rw [hstep k, h0]
    simp

theorem C10_quantum_countdown_witness :
    ((∀ k : Kernel Unit, (id k).rlist.r_preempt = k.rlist.r_preempt) ∧
      0 ≤ kSample.rlist.r_preempt) ∧
    (ticks kcfgVT id 2 kSample).rlist.r_preempt = 1 ∧
    (ticks kcfgVT id 7 kSample).rlist.r_preempt = 0 :=
  ⟨⟨fun _ => rfl, by decide⟩,
    (C10_quantum_countdown kcfgVT id (fun _ => rfl) 2 kSample (by decide)).1,
    (C10_quantum_countdown kcfgVT id (fun _ => rfl) 7 kSample (by decide)).1⟩

/-! ## Claims C11, C12: what a tick does besides counting -/

/-- The tick handler as a composition: the handler itself writes the quantum
and the tick counter only; everything else is the timer pass. -/
theorem chSysTimerHandlerI_eq {K : Type} (c : KernelConfig)
    (chVTDoTickI : Kernel K → Kernel K) (k : Kernel K) :
    chSysTimerHandlerI c chVTDoTickI k
      = (if c.CH_USE_VIRTUAL_TIMERS then chVTDoTickI else id)
          ((if c.CH_USE_SYSTEMTIME then step_advance_tick c else id)
            (step_decrement_quantum k)) := by
  unfold chSysTimerHandlerI step_decrement_quantum step_advance_tick
  cases c.CH_USE_VIRTUAL_TIMERS <;> cases c.CH_USE_SYSTEMTIME <;> simp

/-- The two counting steps write different fields and commute. -/
theorem step_advance_decrement_comm {K : Type} (c : KernelConfig) (k : Kernel K) :
    step_advance_tick c (step_decrement_quantum k)
      = step_decrement_quantum (step_advance_tick c k) := by
  unfold step_decrement_quantum step_advance_tick
  by_cases h : k.rlist.r_preempt > 0 <;> simp [h]

/-- C11 (counterexample): thread 1 runs with one tick of quantum left while
threads 2 and 3 are ready. The tick brings the quantum to 0, and the handler
leaves the ready queue at `[2, 3]` (thread 1 is not appended), the running
thread at 1 and the switch request unset. -/
theorem C11_tick_does_not_rotate :
    kLastTick.rlist.r_preempt = 1 ∧
    (chSysTimerHandlerI kcfg32 id kLastTick).rlist.r_preempt = 0 ∧
    (chSysTimerHandlerI kcfg32 id kLastTick).rest.r_queue = [2, 3] ∧
    (chSysTimerHandlerI kcfg32 id kLastTick).rest.currp = 1 ∧
    (chSysTimerHandlerI kcfg32 id kLastTick).rest.resched = false ∧
    (chSysTimerHandlerI kcfg32 id kLastTick).rest = kLastTick.rest := by
  decide

/-- C11 (amended): when a tick brings the running thread's remaining quantum
to zero (it was 1), `chSysTimerHandlerI` records it, `r_preempt` becoming 0,
and does nothing else to the kernel state besides advancing `r_stime` and
running the timer pass: the state handed to the timer pass has the `rest` of
the kernel state (ready queue, running thread, any switch request) unchanged,
and without virtual timers that is the final state. -/
theorem C11_tick_only_records_exhaustion {K : Type} (c : KernelConfig)
    (chVTDoTickI : Kernel K → Kernel K) (k : Kernel K)
    (hlast : k.rlist.r_preempt = 1) :
    (∃ k1 : Kernel K,
      chSysTimerHandlerI c chVTDoTickI k
        = (if c.CH_USE_VIRTUAL_TIMERS then chVTDoTickI k1 else k1) ∧
      k1.rlist.r_preempt = 0 ∧ k1.rest = k.rest ∧
      k1.rlist.r_stime
        = (if c.CH_USE_SYSTEMTIME then (k.rlist.r_stime + 1) % 2 ^ c.systime_bits
           else k.rlist.r_stime)) ∧
    (c.CH_USE_VIRTUAL_TIMERS = false →
      (chSysTimerHandlerI c chVTDoTickI k).rlist.r_preempt = 0 ∧
      (chSysTimerHandlerI c chVTDoTickI k).rest = k.rest) := by
  have hpos : k.rlist.r_preempt > 0 := by rw [hlast]; decide
  have hd : (k.rlist.r_preempt - 1 : Int) = 0 := by rw [hlast]; decide
  constructor
  · refine ⟨(if c.CH_USE_SYSTEMTIME then step_advance_tick c else id)
      (step_decrement_quantum k), ?_, ?_, ?_, ?_⟩
    · rw [chSysTimerHandlerI_eq]
      cases c.CH_USE_VIRTUAL_TIMERS <;> simp
    · unfold step_decrement_quantum step_advance_tick
      cases c.CH_USE_SYSTEMTIME <;> simp [hpos, hd]
    · unfold step_decrement_quantum step_advance_tick
      cases c.CH_USE_SYSTEMTIME <;> simp [hpos]
    · unfold step_decrement_quantum step_advance_tick
      cases c.CH_USE_SYSTEMTIME <;> simp [hpos]
  · intro hv
    rw [chSysTimerHandlerI_eq, hv]
    unfold step_decrement_quantum step_advance_tick
    cases c.CH_USE_SYSTEMTIME <;> simp [hpos, hd]

theorem C11_tick_only_records_exhaustion_witness :
    kLastTick.rlist.r_preempt = 1 ∧
    (chSysTimerHandlerI kcfg32 id kLastTick).rlist.r_preempt = 0 ∧
    (chSysTimerHandlerI kcfg32 id kLastTick).rest = kLastTick.rest :=
  ⟨rfl, (C11_tick_only_records_exhaustion kcfg32 id kLastTick rfl).2 rfl⟩

/-- C12: with the system time and the virtual timers enabled, every call of
`chSysTimerHandlerI` is the composition of exactly these steps, in this
order: advance the tick counter, decrement the running thread's quantum, then
run the timer pass `chVTDoTickI` once; the timer pass is applied to a state
whose tick counter is already advanced (and whose quantum is already
decremented). -/
theorem C12_tick_steps_in_order {K : Type} (c : KernelConfig)
    (chVTDoTickI : Kernel K → Kernel K) (k : Kernel K)
    (hst : c.CH_USE_SYSTEMTIME = true) (hvt : c.CH_USE_VIRTUAL_TIMERS = true) :
    chSysTimerHandlerI c chVTDoTickI k
      = chVTDoTickI (step_decrement_quantum (step_advance_tick c k)) ∧
    (step_decrement_quantum (step_advance_tick c k)).rlist.r_stime
      = (k.rlist.r_stime + 1) % 2 ^ c.systime_bits ∧
    (step_decrement_quantum (step_advance_tick c k)).rlist.r_preempt
      = (if k.rlist.r_preempt > 0 then k.rlist.r_preempt - 1 else k.rlist.r_preempt) ∧
    (step_decrement_quantum (step_advance_tick c k)).rest = k.rest := by
  refine ⟨?_, ?_, ?_, ?_⟩
  · rw [chSysTimerHandlerI_eq, hst, hvt, ← step_advance_decrement_comm]
    simp
  · unfold step_decrement_quantum step_advance_tick
    by_cases h : k.rlist.r_preempt > 0 <;> simp [h]
  · unfold step_decrement_quantum step_advance_tick
    by_cases h : k.rlist.r_preempt > 0 <;> simp [h]
  · unfold step_decrement_quantum step_advance_tick
    by_cases h : k.rlist.r_preempt > 0 <;> simp [h]

theorem C12_tick_steps_in_order_witness :
    (kcfgVT.CH_USE_SYSTEMTIME = true ∧ kcfgVT.CH_USE_VIRTUAL_TIMERS = true) ∧
    chSysTimerHandlerI kcfgVT countingPass kCount
      = countingPass (step_decrement_quantum (step_advance_tick kcfgVT kCount)) ∧
    (chSysTimerHandlerI kcfgVT countingPass kCount).rest = 1 ∧
    (chSysTimerHandlerI kcfgVT countingPass kCount).rlist.r_stime = 42 :=
  ⟨⟨rfl, rfl⟩, (C12_tick_steps_in_order kcfgVT countingPass kCount rfl rfl).1,
    by decide, by decide⟩

/-! ## Claims C13, C14: the state after `chSysInit` -/

/-- The state after `chSysInit`, component by component. -/
theorem chSysInit_spec (k : KernelConfig) (c : InitConfig) (s : SysState) :
    (chSysInit k c s).currp = some ThreadRef.mainthread ∧
    (chSysInit k c s).threads ThreadRef.mainthread
      = { p_prio := c.NORMALPRIO, p_flags := 0, p_state := tstate_t.PRCURR } ∧
    (chSysInit k c s).threads (ThreadRef.inArea c.waIdleThread)
      = { p_prio := c.IDLEPRIO, p_flags := 0, p_state := tstate_t.PRREADY } ∧
    (chSysInit k c s).r_queue = [ThreadRef.inArea c.waIdleThread] ∧
    (chSysInit k c s).resched = decide (c.NORMALPRIO < c.IDLEPRIO) ∧
    (chSysInit k c s).locked = false ∧
    (chSysInit k c s).created = s.created ++
      [{ prio := c.IDLEPRIO, workspace := c.waIdleThread,
         wsize := c.sizeof_WorkingArea c.IDLE_THREAD_STACK_SIZE, pf := c._IdleThread }] := by
  unfold chSysInit
  cases k.CH_USE_VIRTUAL_TIMERS <;>
    simp [chThdCreateFast, chSysUnlock, init_thread, chVTInit, chDbgInit, chSchInit,
      SysState.setThread, prio_insert]

/-- C13: after `chSysInit` the calling instruction stream is the main thread:
`currp` designates the object `mainthread`, whose state is `PRCURR` and whose
priority is `NORMALPRIO`; the main thread is not in the ready list, and no
thread of the ready list is in the running state, so the single running
thread is not in the Ready Set. -/
theorem C13_main_thread_running (k : KernelConfig) (c : InitConfig) (s : SysState) :
    (chSysInit k c s).currp = some ThreadRef.mainthread ∧
    ((chSysInit k c s).threads ThreadRef.mainthread).p_state = tstate_t.PRCURR ∧
    ((chSysInit k c s).threads ThreadRef.mainthread).p_prio = c.NORMALPRIO ∧
    ThreadRef.mainthread ∉ (chSysInit k c s).r_queue ∧
    (∀ t ∈ (chSysInit k c s).r_queue,
      ((chSysInit k c s).threads t).p_state ≠ tstate_t.PRCURR) := by
  obtain ⟨h1, h2, h3, h4, _⟩ := chSysInit_spec k c s
  refine ⟨h1, by rw [h2], by rw [h2], by rw [h4]; simp, ?_⟩
  intro t ht
  rw [h4] at ht
  rw [List.mem_singleton.mp ht, h3]
  simp

/-- C14: `chSysInit` creates exactly one thread, the idle thread, with
priority `IDLEPRIO`, the entry point `_IdleThread` and the static working
area `waIdleThread` declared for `IDLE_THREAD_STACK_SIZE`; with `IDLEPRIO`
strictly below `NORMALPRIO` its priority is strictly below the main thread's
and no switch is requested; after initialization the ready list holds the
idle thread and is not empty. -/
theorem C14_idle_thread_created (k : KernelConfig) (c : InitConfig) (s : SysState)
    (hprio : c.IDLEPRIO < c.NORMALPRIO) :
    (chSysInit k c s).created = s.created ++
      [{ prio := c.IDLEPRIO, workspace := c.waIdleThread,
         wsize := c.sizeof_WorkingArea c.IDLE_THREAD_STACK_SIZE, pf := c._IdleThread }] ∧
    (chSysInit k c s).created.length = s.created.length + 1 ∧
    ((chSysInit k c s).threads (ThreadRef.inArea c.waIdleThread)).p_prio = c.IDLEPRIO ∧
    ((chSysInit k c s).threads (ThreadRef.inArea c.waIdleThread)).p_prio
      < ((chSysInit k c s).threads ThreadRef.mainthread).p_prio ∧
    (chSysInit k c s).r_queue = [ThreadRef.inArea c.waIdleThread] ∧
    (chSysInit k c s).r_queue ≠ [] ∧
    (chSysInit k c s).resched = false := by
  obtain ⟨_, h2, h3, h4, h5, _, h7⟩ := chSysInit_spec k c s
  refine ⟨h7, by rw [h7]; simp, by rw [h3], by rw [h2, h3]; exact hprio, h4,
    by rw [h4]; simp, ?_⟩
  rw [h5]
  simp
  omega

theorem C14_idle_thread_created_witness :
    initCfg.IDLEPRIO < initCfg.NORMALPRIO ∧
    (chSysInit kcfgVT initCfg sysReset).created
      = [{ prio := 0, workspace := 0x20000400, wsize := 192, pf := 0x08000201 }] ∧
    (chSysInit kcfgVT initCfg sysReset).r_queue = [ThreadRef.inArea 0x20000400] :=
  ⟨by decide, (C14_idle_thread_created kcfgVT initCfg sysReset (by decide)).1,
    (C14_idle_thread_created kcfgVT initCfg sysReset (by decide)).2.2.2.2.1⟩

/-! ## Claim C15: the vector table -/

/-- C15: in the MB96F340 vector table every vector number from 11 to 88 is
bound to exactly one handler; vectors 51, 52, 53 and 54 are bound to
`InterruptRLT0` .. `InterruptRLT3`, and every other vector of 11..88 is
bound to `DefaultIRQHandler`. -/
theorem C15_vector_table (v : Nat) (hlo : 11 ≤ v) (hhi : v ≤ 88) :
    handlersOf v =
      [if v = 51 then IrqHandler.InterruptRLT0
       else if v = 52 then IrqHandler.InterruptRLT1
       else if v = 53 then IrqHandler.InterruptRLT2
       else if v = 54 then IrqHandler.InterruptRLT3
       else IrqHandler.DefaultIRQHandler] ∧
    (handlersOf v).length = 1 ∧
    ((v ≠ 51 ∧ v ≠ 52 ∧ v ≠ 53 ∧ v ≠ 54) →
      handlersOf v = [IrqHandler.DefaultIRQHandler]) := by
  interval_cases v <;> decide

theorem C15_vector_table_witness :
    (11 ≤ 51 ∧ 51 ≤ 88) ∧ (11 ≤ 70 ∧ 70 ≤ 88) ∧
    handlersOf 51 = [IrqHandler.InterruptRLT0] ∧
    handlersOf 70 = [IrqHandler.DefaultIRQHandler] :=
  ⟨⟨by decide, by decide⟩, ⟨by decide, by decide⟩,
    (C15_vector_table 51 (by decide) (by decide)).1,
    (C15_vector_table 70 (by decide) (by decide)).2.2 (by decide)⟩

/-! ## Claim C16: the default handler halts the system -/

/-- From the first step on, the handler is inside its loop with interrupts
disabled. -/
theorem DefaultIRQHandler_in_loop (ie : Bool) (n : Nat) :
    ((DefaultIRQHandler_run ie (n + 1)).pc = DefaultPC.loop_test ∨
      (DefaultIRQHandler_run ie (n + 1)).pc = DefaultPC.loop_body) ∧
    (DefaultIRQHandler_run ie (n + 1)).irq_enabled = false := by
  induction n with
  | zero => simp [DefaultIRQHandler_run, DefaultIRQHandler_step]
  | succ m ih =>
    obtain ⟨hpc, hie⟩ := ih
    have hstep : DefaultIRQHandler_run ie (m + 1 + 1)
        = DefaultIRQHandler_step (DefaultIRQHandler_run ie (m + 1)) := rfl
    rw [hstep]
    rcases hpc with h | h <;> simp [DefaultIRQHandler_step, h, hie]

/-- C16: `DefaultIRQHandler` disables interrupts as its first action and then
halts: whatever the interrupt enable flag at entry, after the first step
interrupts are disabled, and at every later step the handler is inside its
loop (at the test or in the body) with interrupts still disabled; at no step
has it returned. -/
theorem C16_default_handler_halts (ie : Bool) (n : Nat) :
    (DefaultIRQHandler_run ie 1).irq_enabled = false ∧
    ((DefaultIRQHandler_run ie (n + 1)).pc = DefaultPC.loop_test ∨
      (DefaultIRQHandler_run ie (n + 1)).pc = DefaultPC.loop_body) ∧
    (DefaultIRQHandler_run ie (n + 1)).irq_enabled = false ∧
    (DefaultIRQHandler_run ie n).pc ≠ DefaultPC.returned := by
  refine ⟨(DefaultIRQHandler_in_loop ie 0).2, (DefaultIRQHandler_in_loop ie n).1,
    (DefaultIRQHandler_in_loop ie n).2, ?_⟩
  cases n with
  | zero => simp [DefaultIRQHandler_run]
  | succ m =>
    rcases (DefaultIRQHandler_in_loop ie m).1 with h | h <;> rw [h] <;> decide

/-! ## Claim C17: the interrupt levels -/

theorem InitIrqLevels_loop_eq (n : Nat) :
    ∀ irq icr, irq + n = MAX_ICR + 1 →
      InitIrqLevels_loop irq icr
        = icr ++ (List.range' irq n).map (fun i => (i <<< 8) ||| DEFAULT_ILM_MASK) := by
  induction n with
  | zero =>
    intro irq icr h
    rw [InitIrqLevels_loop]
    have : ¬ irq ≤ MAX_ICR := by omega
    simp [this]
  | succ m ih =>
    intro irq icr h
    rw [InitIrqLevels_loop]
    have hle : irq ≤ MAX_ICR := by omega
    rw [if_pos hle, ih (irq + 1) _ (by omega)]
    simp [List.range'_succ]

/-- The loop terminates, and `InitIrqLevels` writes one value per IRQ number
of 12..88 followed by the four reload-timer values. -/
theorem InitIrqLevels_writes :
    InitIrqLevels [] = (List.range' 12 77).map (fun i => (i <<< 8) ||| 7)
      ++ [13058, 13314, 13570, 13826] := by
  unfold InitIrqLevels
  rw [InitIrqLevels_loop_eq 77 MIN_ICR [] (by decide)]
  simp [MIN_ICR, DEFAULT_ILM_MASK]

/-- C17: `InitIrqLevels` returns, and in the sequence of its writes to `ICR`
the last level written for every IRQ number in 12..88 is 7 (interrupt
disabled), except for 51, 52, 53 and 54, whose last written level is 2; no
IRQ number outside 12..88 is written. -/
theorem C17_irq_levels (irq : Nat) :
    ((12 ≤ irq ∧ irq ≤ 88) →
      lastLevel (InitIrqLevels []) irq
        = some (if irq = 51 ∨ irq = 52 ∨ irq = 53 ∨ irq = 54 then 2 else 7)) ∧
    ((irq < 12 ∨ 88 < irq) →
      lastLevel (InitIrqLevels []) irq = none ∧
      ∀ v ∈ InitIrqLevels [], icr_irq v ≠ irq) := by
  rw [InitIrqLevels_writes]
  have hall : ∀ v ∈ (List.range' 12 77).map (fun i => (i <<< 8) ||| 7)
      ++ [13058, 13314, 13570, 13826], 12 ≤ icr_irq v ∧ icr_irq v ≤ 88 := by
    decide
  constructor
  · rintro ⟨hlo, hhi⟩
    interval_cases irq <;> decide
  · intro hout
    have hne : ∀ v ∈ (List.range' 12 77).map (fun i => (i <<< 8) ||| 7)
        ++ [13058, 13314, 13570, 13826], icr_irq v ≠ irq := by
      intro v hv
      have := hall v hv
      omega
    refine ⟨?_, hne⟩
    unfold lastLevel
    have hf : List.filter (fun v => icr_irq v == irq)
        ((List.range' 12 77).map (fun i => (i <<< 8) ||| 7)
          ++ [13058, 13314, 13570, 13826]) = [] := by
      rw [List.filter_eq_nil_iff]
      intro v hv
      simpa using hne v hv
    rw [hf]
    rfl

theorem C17_irq_levels_witness :
    (12 ≤ 52 ∧ 52 ≤ 88) ∧ (100 < 12 ∨ 88 < 100) ∧
    lastLevel (InitIrqLevels []) 52 = some 2 ∧
    lastLevel (InitIrqLevels []) 100 = none :=
  ⟨⟨by decide, by decide⟩, Or.inr (by decide),
    (C17_irq_levels 52).1 ⟨by decide, by decide⟩,
    ((C17_irq_levels 100).2 (Or.inr (by decide))).1⟩

/-! ## Claim C18: the interrupt-context SPI macros -/

/-- C18: each interrupt-context SPI macro is one low-level operation applied
to the driver object in which the macro has written `spd_state`, and nothing
else, whatever the previous state; with a low-level driver that does not
write `spd_state`, `spiSelectI` gives `SPI_SELECTED`, `spiUnselectI` gives
`SPI_READY`, `spiSynchronizeI` gives `SPI_SYNC`, and `spiIgnoreI`,
`spiExchangeI`, `spiSendI` and `spiReceiveI` give `SPI_ACTIVE`. -/
theorem C18_spi_macros {P : Type} (l : SPILowLevel P) (d : SPIDriver P)
    (n txbuf rxbuf : Nat) (hk : l.keepsState) :
    (spiSelectI l d
        = l.spi_lld_select { spd_state := spistate_t.SPI_SELECTED, spd_other := d.spd_other } ∧
      (spiSelectI l d).spd_state = spistate_t.SPI_SELECTED) ∧
    (spiUnselectI l d
        = l.spi_lld_unselect { spd_state := spistate_t.SPI_READY, spd_other := d.spd_other } ∧
      (spiUnselectI l d).spd_state = spistate_t.SPI_READY) ∧
    (spiSynchronizeI l d n
        = l.spi_lld_ignore { spd_state := spistate_t.SPI_SYNC, spd_other := d.spd_other } n ∧
      (spiSynchronizeI l d n).spd_state = spistate_t.SPI_SYNC) ∧
    (spiIgnoreI l d n
        = l.spi_lld_ignore { spd_state := spistate_t.SPI_ACTIVE, spd_other := d.spd_other } n ∧
      (spiIgnoreI l d n).spd_state = spistate_t.SPI_ACTIVE) ∧
    (spiExchangeI l d n txbuf rxbuf
        = l.spi_lld_exchange { spd_state := spistate_t.SPI_ACTIVE, spd_other := d.spd_other }
            n txbuf rxbuf ∧
      (spiExchangeI l d n txbuf rxbuf).spd_state = spistate_t.SPI_ACTIVE) ∧
    (spiSendI l d n txbuf
        = l.spi_lld_send { spd_state := spistate_t.SPI_ACTIVE, spd_other := d.spd_other }
            n txbuf ∧
      (spiSendI l d n txbuf).spd_state = spistate_t.SPI_ACTIVE) ∧
    (spiReceiveI l d n rxbuf
        = l.spi_lld_receive { spd_state := spistate_t.SPI_ACTIVE, spd_other := d.spd_other }
            n rxbuf ∧
      (spiReceiveI l d n rxbuf).spd_state = spistate_t.SPI_ACTIVE) := by
  obtain ⟨h1, h2, h3, h4, h5, h6⟩ := hk
  refine ⟨⟨rfl, ?_⟩, ⟨rfl, ?_⟩, ⟨rfl, ?_⟩, ⟨rfl, ?_⟩, ⟨rfl, ?_⟩, ⟨rfl, ?_⟩, ⟨rfl, ?_⟩⟩
  · unfold spiSelectI; rw [h1]
  · unfold spiUnselectI; rw [h2]
  · unfold spiSynchronizeI; rw [h3]
  · unfold spiIgnoreI; rw [h3]
  · unfold spiExchangeI; rw [h4]
  · unfold spiSendI; rw [h5]
  · unfold spiReceiveI; rw [h6]

theorem recordingLld_keepsState : recordingLld.keepsState := by
  refine ⟨?_, ?_, ?_, ?_, ?_, ?_⟩ <;> intros <;> rfl

theorem C18_spi_macros_witness :
    recordingLld.keepsState ∧
    (spiSelectI recordingLld spiStopped).spd_state = spistate_t.SPI_SELECTED ∧
    (spiSelectI recordingLld spiStopped).spd_other = [LldOp.select] ∧
    (spiSynchronizeI recordingLld spiStopped 10).spd_state = spistate_t.SPI_SYNC ∧
    (spiSynchronizeI recordingLld spiStopped 10).spd_other = [LldOp.ignore 10] :=
  ⟨recordingLld_keepsState,
    (C18_spi_macros recordingLld spiStopped 10 0 0 recordingLld_keepsState).1.2,
    rfl,
    (C18_spi_macros recordingLld spiStopped 10 0 0 recordingLld_keepsState).2.2.1.2,
    rfl⟩

/-! ## Claim C19: the stack guard region -/

/-- C19: `_port_set_region` sets the address of the MPU region
`PORT_USE_MPU_REGION` to the working-area base `wabase` of the current thread
and changes nothing else (neither the attributes of that region, nor another
region, nor another register); with the guard pages enabled, `port_init`
places that region on the base of the main thread stack with the attribute
word made of the no-access, non-cacheable, 32-byte and enable constants, and
enables the memory protection unit. -/
theorem C19_guard_region (p : PortConfig) (c : CoreConfig) (s : CoreState) :
    ((_port_set_region c s).mpu_region c.PORT_USE_MPU_REGION).address = wrap32 s.wabase ∧
    ((_port_set_region c s).mpu_region c.PORT_USE_MPU_REGION).attribs
      = (s.mpu_region c.PORT_USE_MPU_REGION).attribs ∧
    (∀ r, r ≠ c.PORT_USE_MPU_REGION → (_port_set_region c s).mpu_region r = s.mpu_region r) ∧
    _port_set_region c s = { s with mpu_region := (_port_set_region c s).mpu_region } ∧
    (c.PORT_ENABLE_GUARD_PAGES = true →
      (port_init p c s).mpu_region c.PORT_USE_MPU_REGION
        = { address := wrap32 c.__main_thread_stack_base__,
            attribs := wrap32 (c.MPU_RASR_ATTR_AP_NA_NA ||| c.MPU_RASR_ATTR_NON_CACHEABLE |||
              c.MPU_RASR_SIZE_32 ||| c.MPU_RASR_ENABLE) } ∧
      (port_init p c s).mpu_enabled = true) := by
  refine ⟨?_, ?_, ?_, ?_, ?_⟩
  · simp [_port_set_region, mpuSetRegionAddress]
  · simp [_port_set_region, mpuSetRegionAddress]
  · intro r hr
    simp [_port_set_region, mpuSetRegionAddress, hr]
  · simp [_port_set_region, mpuSetRegionAddress]
  · intro hg
    unfold port_init
    simp only [hg, if_true]
    constructor
    · simp [mpuEnable, mpuConfigureRegion]
    · simp [mpuEnable]

theorem C19_guard_region_witness :
    coreCfg.PORT_ENABLE_GUARD_PAGES = true ∧
    ((_port_set_region coreCfg coreReset).mpu_region 7).address = 0x20003000 ∧
    (port_init cfgV7M coreCfg coreReset).mpu_region 7
      = { address := 0x20000000, attribs := 0x00080009 } ∧
    rasr_size_bytes 0x00080009 = 32 ∧ rasr_ap 0x00080009 = 0 ∧
    rasr_enabled 0x00080009 = true :=
  ⟨rfl, (C19_guard_region cfgV7M coreCfg coreReset).1,
    ((C19_guard_region cfgV7M coreCfg coreReset).2.2.2.2 rfl).1,
    by decide, by decide, by decide⟩

/-! ## Claim C20: priority inheritance -/

theorem mem_prio_enqueue (f : Nat → Nat) (t y : Nat) (q : List Nat) :
    y ∈ prio_enqueue f t q ↔ y = t ∨ y ∈ q := by
  induction q with
  | nil => simp [prio_enqueue]
  | cons x xs ih =>
    unfold prio_enqueue
    split
    · simp
    · simp only [List.mem_cons, ih]
      tauto

theorem nodup_prio_enqueue (f : Nat → Nat) (t : Nat) (q : List Nat) (hq : q.Nodup)
    (ht : t ∉ q) : (prio_enqueue f t q).Nodup := by
  induction q with
  | nil => simp [prio_enqueue]
  | cons x xs ih =>
    unfold prio_enqueue
    have hx : x ∉ xs := (List.nodup_cons.mp hq).1
    have hxs : xs.Nodup := (List.nodup_cons.mp hq).2
    have htx : t ≠ x := fun h => ht (by simp [h])
    have htxs : t ∉ xs := fun h => ht (by simp [h])
    split
    · exact List.nodup_cons.mpr ⟨ht, hq⟩
    · refine List.nodup_cons.mpr ⟨?_, ih hxs htxs⟩
      rw [mem_prio_enqueue]
      rintro (h | h)
      · exact htx h.symm
      · exact hx h

theorem MtxFrame.refl (p : Nat) (s : MtxSys) : MtxFrame p s s where
  owner := fun _ => rfl
  wt := fun _ => rfl
  list := fun _ => rfl
  real := fun _ => rfl
  mono := fun _ => Nat.le_refl _
  bound := fun _ => Nat.le_max_left _ _
  keep := fun _ _ h => h
  gain := fun _ _ h => Or.inl h
  nodup := fun _ h => h

theorem MtxFrame.trans {p : Nat} {s s1 s2 : MtxSys} (h1 : MtxFrame p s s1)
    (h2 : MtxFrame p s1 s2) : MtxFrame p s s2 where
  owner := fun m => (h2.owner m).trans (h1.owner m)
  wt := fun t => (h2.wt t).trans (h1.wt t)
  list := fun t => (h2.list t).trans (h1.list t)
  real := fun t => (h2.real t).trans (h1.real t)
  mono := fun t => Nat.le_trans (h1.mono t) (h2.mono t)
  bound := fun t => by
    have a := h1.bound t
    have b := h2.bound t
    omega
  keep := fun m h hm => h2.keep m h (h1.keep m h hm)
  gain := fun m h hm => by
    rcases h2.gain m h hm with g | g
    · exact h1.gain m h g
    · exact Or.inr (by rw [← h1.wt h]; exact g)
  nodup := fun m hm => h2.nodup m (h1.nodup m hm)

/-- Raising the priority of a thread that is not blocked. -/
theorem frame_raise (p : Nat) (s : MtxSys) (x : Nat) (hlt : s.prio x < p) :
    MtxFrame p s (s.setThread x { s.threads x with p_prio := p }) where
  owner := fun _ => rfl
  wt := fun t => by
    by_cases h : t = x <;> simp [MtxSys.setThread, h]
  list := fun t => by
    by_cases h : t = x <;> simp [MtxSys.setThread, h]
  real := fun t => by
    by_cases h : t = x <;> simp [MtxSys.setThread, h]
  mono := fun t => by
    by_cases h : t = x
    · subst h
      simp only [MtxSys.prio, MtxSys.setThread, if_true] at hlt ⊢
      omega
    · simp [MtxSys.prio, MtxSys.setThread, h]
  bound := fun t => by
    by_cases h : t = x
    · subst h
      simp only [MtxSys.prio, MtxSys.setThread, if_true]
      omega
    · simp [MtxSys.prio, MtxSys.setThread, h]
  keep := fun _ _ h => h
  gain := fun _ _ h => Or.inl h
  nodup := fun _ h => h

/-- Queueing a blocked thread again in the queue of the mutex it waits on. -/
theorem frame_requeue (p : Nat) (s : MtxSys) (x m2 : Nat)
    (hw : (s.threads x).p_wtmtxp = some m2) :
    MtxFrame p s (s.setMutex m2 { s.mutexes m2 with
      m_queue := prio_enqueue s.prio x ((s.mutexes m2).m_queue.erase x) }) where
  owner := fun m => by
    by_cases h : m = m2 <;> simp [MtxSys.setMutex, h]
  wt := fun _ => rfl
  list := fun _ => rfl
  real := fun _ => rfl
  mono := fun _ => Nat.le_refl _
  bound := fun _ => Nat.le_max_left _ _
  keep := fun m h hm => by
    by_cases e : m = m2
    · subst e
      simp only [MtxSys.setMutex, if_true, mem_prio_enqueue]
      by_cases hx : h = x
      · exact Or.inl hx
      · exact Or.inr ((List.mem_erase_of_ne hx).mpr hm)
    · simpa [MtxSys.setMutex, e] using hm
  gain := fun m h hm => by
    by_cases e : m = m2
    · subst e
      simp only [MtxSys.setMutex, if_true, mem_prio_enqueue] at hm
      rcases hm with hx | hx
      · exact Or.inr (by rw [hx]; exact hw)
      · exact Or.inl (List.mem_of_mem_erase hx)
    · left
      simpa [MtxSys.setMutex, e] using hm
  nodup := fun m hm => by
    by_cases e : m = m2
    · subst e
      simp only [MtxSys.setMutex, if_true]
      exact nodup_prio_enqueue _ _ _ (hm.erase x) (fun h => (List.Nodup.not_mem_erase hm) h)
    · simpa [MtxSys.setMutex, e] using hm

/-- The boost, when it completes, stays within the frame of a boost. -/
theorem mtx_boost_frame (fuel : Nat) :
    ∀ (x p : Nat) (s s1 : MtxSys), mtx_boost fuel x p s = some s1 → MtxFrame p s s1 := by
  induction fuel with
  | zero =>
    intro x p s s1 h
    simp [mtx_boost] at h
  | succ f ih =>
    intro x p s s1 h
    unfold mtx_boost at h
    by_cases hlt : s.prio x < p
    · simp only [hlt, if_true] at h
      have fr1 := frame_raise p s x hlt
      cases hw : ((s.setThread x { s.threads x with p_prio := p }).threads x).p_wtmtxp with
      | none =>
        simp only [hw] at h
        rw [← Option.some.inj h]
        exact fr1
      | some m2 =>
        simp only [hw] at h
        have fr2 := frame_requeue p (s.setThread x { s.threads x with p_prio := p }) x m2 hw
        have fr12 := fr1.trans fr2
        split at h
        · exact fr12.trans (ih _ _ _ _ h)
        · rw [← Option.some.inj h]
          exact fr12
    · simp only [hlt, if_false] at h
      rw [← Option.some.inj h]
      exact MtxFrame.refl p s

/-- The boosted thread ends with a priority of at least `p`. -/
theorem mtx_boost_ge (fuel x p : Nat) (s s1 : MtxSys) (h : mtx_boost fuel x p s = some s1) :
    p ≤ s1.prio x := by
  cases fuel with
  | zero => simp [mtx_boost] at h
  | succ f =>
    unfold mtx_boost at h
    by_cases hlt : s.prio x < p
    · simp only [hlt, if_true] at h
      have hp : (s.setThread x { s.threads x with p_prio := p }).prio x = p := by
        simp [MtxSys.prio, MtxSys.setThread]
      cases hw : ((s.setThread x { s.threads x with p_prio := p }).threads x).p_wtmtxp with
      | none =>
        simp only [hw] at h
        rw [← Option.some.inj h, hp]
      | some m2 =>
        simp only [hw] at h
        have fr2 := frame_requeue p (s.setThread x { s.threads x with p_prio := p }) x m2 hw
        split at h
        · have fr := mtx_boost_frame f _ _ _ _ h
          exact Nat.le_trans (Nat.le_of_eq hp.symm) (Nat.le_trans (fr2.mono x) (fr.mono x))
        · rw [← Option.some.inj h]
          exact Nat.le_trans (Nat.le_of_eq hp.symm) (fr2.mono x)
    · simp only [hlt, if_false] at h
      rw [← Option.some.inj h]
      omega

/-- The boost restores inheritance for a waiter `hh` of a mutex `m` owned by
`l`, when inheritance holds before the boost except possibly towards the
thread `x` that the boost starts from. -/
theorem mtx_boost_pair (fuel : Nat) :
    ∀ (x p : Nat) (s s1 : MtxSys) (l m hh : Nat),
      mtx_boost fuel x p s = some s1 →
      (s.mutexes m).m_owner = some l → (s.threads hh).p_wtmtxp = some m →
      (s.prio hh ≤ s.prio l ∨ (l = x ∧ s.prio hh ≤ p)) →
      s1.prio hh ≤ s1.prio l := by
  induction fuel with
  | zero =>
    intro x p s s1 l m hh h
    simp [mtx_boost] at h
  | succ f ih =>
    intro x p s s1 l m hh h hown hwt hP
    unfold mtx_boost at h
    by_cases hlt : s.prio x < p
    · simp only [hlt, if_true] at h
      have fr1 := frame_raise p s x hlt
      have hpx : (s.setThread x { s.threads x with p_prio := p }).prio x = p := by
        simp [MtxSys.prio, MtxSys.setThread]
      have hpo : ∀ t, t ≠ x →
          (s.setThread x { s.threads x with p_prio := p }).prio t = s.prio t := by
        intro t ht
        simp [MtxSys.prio, MtxSys.setThread, ht]
      -- inheritance in the state where `x` is raised, for waiters other than `x`
      have hother : hh ≠ x →
          (s.setThread x { s.threads x with p_prio := p }).prio hh
            ≤ (s.setThread x { s.threads x with p_prio := p }).prio l := by
        intro hne
        rw [hpo hh hne]
        by_cases hl : l = x
        · rw [hl, hpx]
          rcases hP with a | ⟨_, a⟩
          · rw [hl] at a; omega
          · exact a
        · rw [hpo l hl]
          rcases hP with a | ⟨a, _⟩
          · exact a
          · exact absurd a hl
      cases hw : ((s.setThread x { s.threads x with p_prio := p }).threads x).p_wtmtxp with
      | none =>
        simp only [hw] at h
        rw [← Option.some.inj h]
        have hne : hh ≠ x := by
          intro e
          rw [e, ← fr1.wt x, hw] at hwt
          exact Option.noConfusion hwt
        exact hother hne
      | some m2 =>
        simp only [hw] at h
        have fr2 := frame_requeue p (s.setThread x { s.threads x with p_prio := p }) x m2 hw
        have fr12 := fr1.trans fr2
        have hp2 : ∀ t, (MtxSys.setMutex (s.setThread x { s.threads x with p_prio := p }) m2
            { (s.setThread x { s.threads x with p_prio := p }).mutexes m2 with
              m_queue := prio_enqueue (s.setThread x { s.threads x with p_prio := p }).prio x
                (((s.setThread x { s.threads x with p_prio := p }).mutexes m2).m_queue.erase
                  x) }).prio t
            = (s.setThread x { s.threads x with p_prio := p }).prio t := fun _ => rfl
        split at h
        · rename_i o ho
          refine ih _ _ _ _ l m hh h ?_ ?_ ?_
          · rw [fr12.owner m]; exact hown
          · rw [fr12.wt hh]; exact hwt
          · rw [hp2, hp2]
            by_cases hne : hh = x
            · right
              have hm : m2 = m := by
                rw [hne, ← fr1.wt x, hw] at hwt
                exact Option.some.inj hwt
              rw [fr2.owner m2, hm, fr1.owner m, hown] at ho
              refine ⟨Option.some.inj ho, ?_⟩
              rw [hne, hpx]
            · exact Or.inl (hother hne)
        · rename_i ho
          rw [← Option.some.inj h, hp2, hp2]
          have hne : hh ≠ x := by
            intro e
            have hm : m2 = m := by
              rw [e, ← fr1.wt x, hw] at hwt
              exact Option.some.inj hwt
            rw [fr2.owner m2, hm, fr1.owner m, hown] at ho
            exact Option.noConfusion ho
          exact hother hne
    · simp only [hlt, if_false] at h
      rw [← Option.some.inj h]
      rcases hP with a | ⟨a, b⟩
      · exact a
      · rw [a]; omega

theorem wf_of_frame {p : Nat} {s s1 : MtxSys} (hwf : s.WF) (fr : MtxFrame p s s1) : s1.WF := by
  obtain ⟨h1, h2, h3, h4, h5⟩ := hwf
  refine ⟨?_, ?_, ?_, ?_, ?_⟩
  · intro m h hm
    rw [fr.wt h]
    rcases fr.gain m h hm with g | g
    · exact h1 m h g
    · exact g
  · intro m
    exact fr.nodup m (h2 m)
  · intro m l hl
    rw [fr.list l]
    exact h3 m l (by rw [← fr.owner m]; exact hl)
  · intro t m hm
    rw [fr.owner m]
    exact h4 t m (by rw [← fr.list t]; exact hm)
  · intro t
    rw [fr.list t]
    exact h5 t

/-- The inner fold of `inherited_prio` over one wait queue. -/
theorem queue_fold_spec (s : MtxSys) (q : List Nat) :
    ∀ acc : Nat,
      acc ≤ q.foldl (fun a h => max a (s.prio h)) acc ∧
      (∀ h ∈ q, s.prio h ≤ q.foldl (fun a h => max a (s.prio h)) acc) ∧
      (q.foldl (fun a h => max a (s.prio h)) acc = acc ∨
        ∃ h ∈ q, q.foldl (fun a h => max a (s.prio h)) acc = s.prio h) := by
  induction q with
  | nil =>
    intro acc
    simp
  | cons x xs ih =>
    intro acc
    obtain ⟨a, b, c⟩ := ih (max acc (s.prio x))
    simp only [List.foldl_cons]
    refine ⟨by omega, ?_, ?_⟩
    · intro h hh
      rcases List.mem_cons.mp hh with e | e
      · rw [e]; omega
      · exact b h e
    · rcases c with c | ⟨h, hh, c⟩
      · by_cases hle : s.prio x ≤ acc
        · left; rw [c]; omega
        · right
          exact ⟨x, by simp, by rw [c]; omega⟩
      · right
        exact ⟨h, by simp [hh], c⟩

/-- The recomputed priority is the maximum of the base priority and of the
priorities of the threads waiting on the mutexes still held. -/
theorem inherited_prio_spec (s : MtxSys) (held : List Nat) :
    ∀ base : Nat,
      base ≤ inherited_prio s base held ∧
      (∀ m ∈ held, ∀ h ∈ (s.mutexes m).m_queue, s.prio h ≤ inherited_prio s base held) ∧
      (inherited_prio s base held = base ∨
        ∃ m ∈ held, ∃ h ∈ (s.mutexes m).m_queue, inherited_prio s base held = s.prio h) := by
  induction held with
  | nil =>
    intro base
    simp [inherited_prio]
  | cons x xs ih =>
    intro base
    obtain ⟨qa, qb, qc⟩ := queue_fold_spec s (s.mutexes x).m_queue base
    obtain ⟨a, b, c⟩ := ih ((s.mutexes x).m_queue.foldl (fun a h => max a (s.prio h)) base)
    unfold inherited_prio at a b c ⊢
    simp only [List.foldl_cons]
    refine ⟨by omega, ?_, ?_⟩
    · intro m hm h hh
      rcases List.mem_cons.mp hm with e | e
      · rw [e] at hh
        have := qb h hh
        omega
      · exact b m e h hh
    · rcases c with c | ⟨m, hm, h, hh, c⟩
      · rcases qc with qc | ⟨h, hh, qc⟩
        · left; rw [c, qc]
        · right
          exact ⟨x, by simp, h, hh, by rw [c, qc]⟩
      · right
        exact ⟨m, by simp [hm], h, hh, c⟩

/-- The two ways `chMtxLockS` completes: acquisition of a free mutex, or
boost of the owner followed by blocking. -/
theorem chMtxLockS_cases (fuel c mp : Nat) (s s1 : MtxSys)
    (h : chMtxLockS fuel c mp s = some s1) :
    (s.threads c).p_wtmtxp = none ∧
    (((s.mutexes mp).m_owner = none ∧
        s1 = (s.setMutex mp { s.mutexes mp with
                m_owner := some c, m_next := (s.threads c).p_mtxlist.head? }).setThread c
              { s.threads c with p_mtxlist := mp :: (s.threads c).p_mtxlist }) ∨
      (∃ o sb, (s.mutexes mp).m_owner = some o ∧
        mtx_boost fuel o (s.prio c) s = some sb ∧
        s1 = (sb.setMutex mp { sb.mutexes mp with
                m_queue := prio_enqueue sb.prio c (sb.mutexes mp).m_queue }).setThread c
              { sb.threads c with p_wtmtxp := some mp })) := by
  unfold chMtxLockS at h
  by_cases hw : (s.threads c).p_wtmtxp = none
  · refine ⟨hw, ?_⟩
    simp only [hw, ne_eq, not_true_eq_false, if_false] at h
    cases ho : (s.mutexes mp).m_owner with
    | none =>
      simp only [ho] at h
      exact Or.inl ⟨rfl, (Option.some.inj h).symm⟩
    | some o =>
      simp only [ho] at h
      cases hb : mtx_boost fuel o (s.prio c) s with
      | none => simp [hb] at h
      | some sb =>
        simp only [hb] at h
        exact Or.inr ⟨o, sb, rfl, hb, (Option.some.inj h).symm⟩
  · simp [hw] at h

/-- The way `chMtxUnlockS` completes. -/
theorem chMtxUnlockS_cases (c mp : Nat) (s s1 : MtxSys)
    (h : chMtxUnlockS c s = some (mp, s1)) :
    (s.threads c).p_wtmtxp = none ∧
    ∃ rest, (s.threads c).p_mtxlist = mp :: rest ∧ (s.mutexes mp).m_owner = some c ∧
      (((s.mutexes mp).m_queue = [] ∧
          s1 = (s.setThread c { s.threads c with
                  p_mtxlist := rest,
                  p_prio := inherited_prio s (s.threads c).p_realprio rest }).setMutex mp
                { s.mutexes mp with m_owner := none, m_next := none }) ∨
        (∃ w q, (s.mutexes mp).m_queue = w :: q ∧
          s1 = ((s.setThread c { s.threads c with
                  p_mtxlist := rest,
                  p_prio := inherited_prio s (s.threads c).p_realprio rest }).setMutex mp
                { m_queue := q, m_owner := none, m_next := none }).setThread w
              { (s.setThread c { s.threads c with
                  p_mtxlist := rest,
                  p_prio := inherited_prio s (s.threads c).p_realprio rest }).threads w with
                p_wtmtxp := none })) := by
  unfold chMtxUnlockS at h
  split at h
  · exact Option.noConfusion h
  · rename_i hw
    refine ⟨not_not.mp hw, ?_⟩
    split at h
    · exact Option.noConfusion h
    · rename_i m0 rest hl
      split at h
      · exact Option.noConfusion h
      · rename_i ho
        have ho1 : (s.mutexes m0).m_owner = some c := not_not.mp ho
        dsimp only at h
        split at h
        · rename_i hq
          have e := Option.some.inj h
          have e1 : m0 = mp := congrArg Prod.fst e
          have e2 := congrArg Prod.snd e
          subst e1
          exact ⟨rest, hl, ho1, Or.inl ⟨hq, e2.symm⟩⟩
        · rename_i w q hq
          have e := Option.some.inj h
          have e1 : m0 = mp := congrArg Prod.fst e
          have e2 := congrArg Prod.snd e
          subst e1
          exact ⟨rest, hl, ho1, Or.inr ⟨w, q, hq, e2.symm⟩⟩

/-- A thread that runs an operation is in no wait queue. -/
theorem not_queued_of_running {s : MtxSys} (hwf : s.WF) {c : Nat}
    (hc : (s.threads c).p_wtmtxp = none) (m : Nat) : c ∉ (s.mutexes m).m_queue := by
  intro h
  have := hwf.1 m c h
  rw [hc] at this
  exact Option.noConfusion this

/-- Acquisition of a free mutex keeps the state consistent and keeps every
inheritance that holds. -/
theorem lock_acquire_preserves (c mp : Nat) (s : MtxSys) (hwf : s.WF)
    (hfree : (s.mutexes mp).m_owner = none) :
    ((s.setMutex mp { s.mutexes mp with
        m_owner := some c, m_next := (s.threads c).p_mtxlist.head? }).setThread c
      { s.threads c with p_mtxlist := mp :: (s.threads c).p_mtxlist }).WF ∧
    ∀ l m hh, InheritOK s l m hh →
      InheritOK ((s.setMutex mp { s.mutexes mp with
          m_owner := some c, m_next := (s.threads c).p_mtxlist.head? }).setThread c
        { s.threads c with p_mtxlist := mp :: (s.threads c).p_mtxlist }) l m hh := by
  obtain ⟨h1, h2, h3, h4, h5⟩ := hwf
  have hnot : mp ∉ (s.threads c).p_mtxlist := by
    intro hm
    have := h4 c mp hm
    rw [hfree] at this
    exact Option.noConfusion this
  refine ⟨⟨?_, ?_, ?_, ?_, ?_⟩, ?_⟩
  · intro m h hm
    have hq : h ∈ (s.mutexes m).m_queue := by
      by_cases e : m = mp
      · subst e; simpa [MtxSys.setThread, MtxSys.setMutex] using hm
      · simpa [MtxSys.setThread, MtxSys.setMutex, e] using hm
    by_cases e : h = c
    · subst e; simpa [MtxSys.setThread, MtxSys.setMutex] using h1 m h hq
    · simpa [MtxSys.setThread, MtxSys.setMutex, e] using h1 m h hq
  · intro m
    by_cases e : m = mp
    · subst e; simpa [MtxSys.setThread, MtxSys.setMutex] using h2 m
    · simpa [MtxSys.setThread, MtxSys.setMutex, e] using h2 m
  · intro m l hl
    by_cases e : m = mp
    · subst e
      have hlc : l = c := by
        simpa [MtxSys.setThread, MtxSys.setMutex] using hl.symm
      subst hlc
      simp [MtxSys.setThread, MtxSys.setMutex]
    · have ho : (s.mutexes m).m_owner = some l := by
        simpa [MtxSys.setThread, MtxSys.setMutex, e] using hl
      have := h3 m l ho
      by_cases e2 : l = c
      · subst e2; simp [MtxSys.setThread, MtxSys.setMutex, this]
      · simpa [MtxSys.setThread, MtxSys.setMutex, e2] using this
  · intro t m hm
    by_cases e2 : t = c
    · subst e2
      have hm1 : m = mp ∨ m ∈ (s.threads t).p_mtxlist := by
        simpa [MtxSys.setThread, MtxSys.setMutex] using hm
      rcases hm1 with e | e
      · subst e; simp [MtxSys.setThread, MtxSys.setMutex]
      · have hne : m ≠ mp := fun e3 => hnot (e3 ▸ e)
        simpa [MtxSys.setThread, MtxSys.setMutex, hne] using h4 t m e
    · have hm1 : m ∈ (s.threads t).p_mtxlist := by
        simpa [MtxSys.setThread, MtxSys.setMutex, e2] using hm
      have ho := h4 t m hm1
      have hne : m ≠ mp := by
        intro e3
        rw [e3, hfree] at ho
        exact Option.noConfusion ho
      simpa [MtxSys.setThread, MtxSys.setMutex, hne] using ho
  · intro t
    by_cases e2 : t = c
    · subst e2
      simpa [MtxSys.setThread, MtxSys.setMutex] using ⟨hnot, h5 t⟩
    · simpa [MtxSys.setThread, MtxSys.setMutex, e2] using h5 t
  · intro l m hh ⟨ho, hq, hp⟩
    have hne : m ≠ mp := by
      intro e3
      rw [e3, hfree] at ho
      exact Option.noConfusion ho
    refine ⟨?_, ?_, ?_⟩
    · simpa [MtxSys.setThread, MtxSys.setMutex, hne] using ho
    · simpa [MtxSys.setThread, MtxSys.setMutex, hne] using hq
    · have e : ∀ t, ((s.setMutex mp { s.mutexes mp with
          m_owner := some c, m_next := (s.threads c).p_mtxlist.head? }).setThread c
          { s.threads c with p_mtxlist := mp :: (s.threads c).p_mtxlist }).prio t
          = s.prio t := by
        intro t
        by_cases e2 : t = c
        · subst e2; simp [MtxSys.prio, MtxSys.setThread, MtxSys.setMutex]
        · simp [MtxSys.prio, MtxSys.setThread, MtxSys.setMutex, e2]
      rw [e, e]
      exact hp

/-- Blocking of the running thread `c` in the queue of `mp` keeps the state
consistent, changes no priority and no owner, and keeps every queue member. -/
theorem lock_block_preserves (c mp : Nat) (sb : MtxSys) (hwf : sb.WF)
    (hc : (sb.threads c).p_wtmtxp = none) :
    ((sb.setMutex mp { sb.mutexes mp with
        m_queue := prio_enqueue sb.prio c (sb.mutexes mp).m_queue }).setThread c
      { sb.threads c with p_wtmtxp := some mp }).WF ∧
    (∀ t, ((sb.setMutex mp { sb.mutexes mp with
        m_queue := prio_enqueue sb.prio c (sb.mutexes mp).m_queue }).setThread c
      { sb.threads c with p_wtmtxp := some mp }).prio t = sb.prio t) ∧
    (∀ m, (((sb.setMutex mp { sb.mutexes mp with
        m_queue := prio_enqueue sb.prio c (sb.mutexes mp).m_queue }).setThread c
      { sb.threads c with p_wtmtxp := some mp }).mutexes m).m_owner
        = (sb.mutexes m).m_owner) ∧
    (∀ m h, h ∈ (sb.mutexes m).m_queue →
      h ∈ (((sb.setMutex mp { sb.mutexes mp with
        m_queue := prio_enqueue sb.prio c (sb.mutexes mp).m_queue }).setThread c
      { sb.threads c with p_wtmtxp := some mp }).mutexes m).m_queue) ∧
    c ∈ (((sb.setMutex mp { sb.mutexes mp with
        m_queue := prio_enqueue sb.prio c (sb.mutexes mp).m_queue }).setThread c
      { sb.threads c with p_wtmtxp := some mp }).mutexes mp).m_queue := by
  have hnq := fun m => not_queued_of_running hwf hc m
  obtain ⟨h1, h2, h3, h4, h5⟩ := hwf
  refine ⟨⟨?_, ?_, ?_, ?_, ?_⟩, ?_, ?_, ?_, ?_⟩
  · intro m h hm
    by_cases e : m = mp
    · subst e
      have hm1 : h = c ∨ h ∈ (sb.mutexes m).m_queue := by
        simpa [MtxSys.setThread, MtxSys.setMutex, mem_prio_enqueue] using hm
      rcases hm1 with e1 | e1
      · subst e1; simp [MtxSys.setThread, MtxSys.setMutex]
      · have hne : h ≠ c := fun e2 => hnq m (e2 ▸ e1)
        simpa [MtxSys.setThread, MtxSys.setMutex, hne] using h1 m h e1
    · have hm1 : h ∈ (sb.mutexes m).m_queue := by
        simpa [MtxSys.setThread, MtxSys.setMutex, e] using hm
      have hne : h ≠ c := fun e2 => hnq m (e2 ▸ hm1)
      simpa [MtxSys.setThread, MtxSys.setMutex, hne] using h1 m h hm1
  · intro m
    by_cases e : m = mp
    · subst e
      simpa [MtxSys.setThread, MtxSys.setMutex] using
        nodup_prio_enqueue sb.prio c _ (h2 m) (hnq m)
    · simpa [MtxSys.setThread, MtxSys.setMutex, e] using h2 m
  · intro m l hl
    have ho : (sb.mutexes m).m_owner = some l := by
      by_cases e : m = mp
      · subst e; simpa [MtxSys.setThread, MtxSys.setMutex] using hl
      · simpa [MtxSys.setThread, MtxSys.setMutex, e] using hl
    by_cases e2 : l = c
    · subst e2; simpa [MtxSys.setThread, MtxSys.setMutex] using h3 m l ho
    · simpa [MtxSys.setThread, MtxSys.setMutex, e2] using h3 m l ho
  · intro t m hm
    have hm1 : m ∈ (sb.threads t).p_mtxlist := by
      by_cases e2 : t = c
      · subst e2; simpa [MtxSys.setThread, MtxSys.setMutex] using hm
      · simpa [MtxSys.setThread, MtxSys.setMutex, e2] using hm
    by_cases e : m = mp
    · subst e; simpa [MtxSys.setThread, MtxSys.setMutex] using h4 t m hm1
    · simpa [MtxSys.setThread, MtxSys.setMutex, e] using h4 t m hm1
  · intro t
    by_cases e2 : t = c
    · subst e2; simpa [MtxSys.setThread, MtxSys.setMutex] using h5 t
    · simpa [MtxSys.setThread, MtxSys.setMutex, e2] using h5 t
  · intro t
    by_cases e2 : t = c
    · subst e2; simp [MtxSys.prio, MtxSys.setThread, MtxSys.setMutex]
    · simp [MtxSys.prio, MtxSys.setThread, MtxSys.setMutex, e2]
  · intro m
    by_cases e : m = mp
    · subst e; simp [MtxSys.setThread, MtxSys.setMutex]
    · simp [MtxSys.setThread, MtxSys.setMutex, e]
  · intro m h hm
    by_cases e : m = mp
    · subst e
      simp only [MtxSys.setThread, MtxSys.setMutex, if_true, mem_prio_enqueue]
      exact Or.inr hm
    · simpa [MtxSys.setThread, MtxSys.setMutex, e] using hm
  · simp [MtxSys.setThread, MtxSys.setMutex, mem_prio_enqueue]

/-- `chMtxLockS` keeps the state consistent and keeps every inheritance that
holds; when the mutex is held, it establishes inheritance between the owner
and the caller, who is now blocked on the mutex. -/
theorem chMtxLockS_preserves (fuel c mp : Nat) (s s1 : MtxSys) (hwf : s.WF)
    (h : chMtxLockS fuel c mp s = some s1) :
    s1.WF ∧
    (∀ l m hh, InheritOK s l m hh → InheritOK s1 l m hh) ∧
    (∀ o, (s.mutexes mp).m_owner = some o → InheritOK s1 o mp c) := by
  obtain ⟨hrun, hcase⟩ := chMtxLockS_cases fuel c mp s s1 h
  rcases hcase with ⟨hfree, hs1⟩ | ⟨o, sb, ho, hb, hs1⟩
  · obtain ⟨a, b⟩ := lock_acquire_preserves c mp s hwf hfree
    rw [hs1]
    refine ⟨a, b, ?_⟩
    intro o ho
    rw [hfree] at ho
    exact Option.noConfusion ho
  · have fr := mtx_boost_frame fuel o (s.prio c) s sb hb
    have hwfb := wf_of_frame hwf fr
    have hcb : (sb.threads c).p_wtmtxp = none := by rw [fr.wt c]; exact hrun
    obtain ⟨a, bp, bo, bk, bc⟩ := lock_block_preserves c mp sb hwfb hcb
    rw [hs1]
    refine ⟨a, ?_, ?_⟩
    · intro l m hh ⟨k1, k2, k3⟩
      refine ⟨?_, ?_, ?_⟩
      · rw [bo m, fr.owner m]; exact k1
      · exact bk m hh (fr.keep m hh k2)
      · rw [bp hh, bp l]
        exact mtx_boost_pair fuel o (s.prio c) s sb l m hh hb k1 (hwf.1 m hh k2) (Or.inl k3)
    · intro o2 ho2
      have e : o2 = o := by
        rw [ho] at ho2
        exact (Option.some.inj ho2).symm
      subst e
      refine ⟨?_, bc, ?_⟩
      · rw [bo mp, fr.owner mp]; exact ho
      · rw [bp c, bp o2]
        have g := mtx_boost_ge fuel o2 (s.prio c) s sb hb
        have b2 := fr.bound c
        omega

/-- The facts of an unlock, from its definition. -/
theorem chMtxUnlockS_facts (c mp : Nat) (s s1 : MtxSys) (hwf : s.WF)
    (h : chMtxUnlockS c s = some (mp, s1)) :
    ∃ rest, UnlockFacts c mp rest s s1 := by
  obtain ⟨hrun, rest, hl, ho, hcase⟩ := chMtxUnlockS_cases c mp s s1 h
  refine ⟨rest, ?_⟩
  rcases hcase with ⟨hq, hs1⟩ | ⟨w, q, hq, hs1⟩
  · subst hs1
    refine ⟨hrun, hl, ho, ?_, ?_, ?_, ?_, ?_, ?_, ?_, ?_, ?_, ?_⟩
    · intro m hm
      simp [MtxSys.setThread, MtxSys.setMutex, hm]
    · simp [MtxSys.setThread, MtxSys.setMutex]
    · intro h hh
      simpa [MtxSys.setThread, MtxSys.setMutex] using hh
    · simpa [MtxSys.setThread, MtxSys.setMutex] using hwf.2.1 mp
    · intro m h _
      by_cases e : h = c
      · subst e; simp [MtxSys.setThread, MtxSys.setMutex]
      · simp [MtxSys.setThread, MtxSys.setMutex, e]
    · intro t ht
      simp [MtxSys.prio, MtxSys.setThread, MtxSys.setMutex, ht]
    · simp [MtxSys.prio, MtxSys.setThread, MtxSys.setMutex]
    · intro t
      by_cases e : t = c
      · subst e; simp [MtxSys.setThread, MtxSys.setMutex]
      · simp [MtxSys.setThread, MtxSys.setMutex, e]
    · intro t ht
      simp [MtxSys.setThread, MtxSys.setMutex, ht]
    · simp [MtxSys.setThread, MtxSys.setMutex]
  · have hwq : w ∈ (s.mutexes mp).m_queue := by rw [hq]; simp
    have hww : (s.threads w).p_wtmtxp = some mp := hwf.1 mp w hwq
    have hwc : w ≠ c := by
      intro e
      rw [e, hrun] at hww
      exact Option.noConfusion hww
    have hnd : (w :: q).Nodup := by rw [← hq]; exact hwf.2.1 mp
    have hwnq : w ∉ q := (List.nodup_cons.mp hnd).1
    subst hs1
    refine ⟨hrun, hl, ho, ?_, ?_, ?_, ?_, ?_, ?_, ?_, ?_, ?_, ?_⟩
    · intro m hm
      simp [MtxSys.setThread, MtxSys.setMutex, hm]
    · simp [MtxSys.setThread, MtxSys.setMutex]
    · intro h hh
      have : h ∈ q := by simpa [MtxSys.setThread, MtxSys.setMutex] using hh
      rw [hq]
      simp [this]
    · simpa [MtxSys.setThread, MtxSys.setMutex] using (List.nodup_cons.mp hnd).2
    · intro m x hh
      have hne : x ≠ w := by
        intro e
        rw [e] at hh
        by_cases e2 : m = mp
        · rw [e2] at hh
          exact hwnq (by simpa [MtxSys.setThread, MtxSys.setMutex] using hh)
        · have hq2 : w ∈ (s.mutexes m).m_queue := by
            simpa [MtxSys.setThread, MtxSys.setMutex, e2] using hh
          have := hwf.1 m w hq2
          rw [hww] at this
          exact e2 (Option.some.inj this).symm
      by_cases e : x = c
      · rw [e]; simp [MtxSys.setThread, MtxSys.setMutex, hwc.symm]
      · simp [MtxSys.setThread, MtxSys.setMutex, e, hne]
    · intro t ht
      by_cases e : t = w
      · subst e; simp [MtxSys.prio, MtxSys.setThread, MtxSys.setMutex, ht]
      · simp [MtxSys.prio, MtxSys.setThread, MtxSys.setMutex, ht, e]
    · simp [MtxSys.prio, MtxSys.setThread, MtxSys.setMutex, hwc.symm]
    · intro t
      by_cases e : t = w
      · subst e; simp [MtxSys.setThread, MtxSys.setMutex, hwc]
      · by_cases e2 : t = c
        · subst e2; simp [MtxSys.setThread, MtxSys.setMutex, e]
        · simp [MtxSys.setThread, MtxSys.setMutex, e, e2]
    · intro t ht
      by_cases e : t = w
      · subst e; simp [MtxSys.setThread, MtxSys.setMutex, ht]
      · simp [MtxSys.setThread, MtxSys.setMutex, ht, e]
    · simp [MtxSys.setThread, MtxSys.setMutex, hwc.symm]

theorem unlock_rest_ne {c mp : Nat} {rest : List Nat} {s s1 : MtxSys} (hwf : s.WF)
    (f : UnlockFacts c mp rest s s1) {m : Nat} (hm : m ∈ rest) : m ≠ mp := by
  have hnd := hwf.2.2.2.2 c
  rw [f.list_eq] at hnd
  intro e
  exact (List.nodup_cons.mp hnd).1 (e ▸ hm)

/-- An unlock keeps the state consistent. -/
theorem unlock_wf {c mp : Nat} {rest : List Nat} {s s1 : MtxSys} (hwf : s.WF)
    (f : UnlockFacts c mp rest s s1) : s1.WF := by
  have hne := fun m (hm : m ∈ rest) => unlock_rest_ne hwf f hm
  obtain ⟨h1, h2, h3, h4, h5⟩ := hwf
  refine ⟨?_, ?_, ?_, ?_, ?_⟩
  · intro m x hx
    rw [f.wt_queued m x hx]
    by_cases e : m = mp
    · rw [e] at hx ⊢
      exact h1 mp x (f.queue_sub x hx)
    · rw [f.other_mutex m e] at hx
      exact h1 m x hx
  · intro m
    by_cases e : m = mp
    · rw [e]; exact f.queue_nodup
    · rw [f.other_mutex m e]; exact h2 m
  · intro m l hl
    have e : m ≠ mp := by
      intro e
      rw [e, f.released] at hl
      exact Option.noConfusion hl
    rw [f.other_mutex m e] at hl
    have hin := h3 m l hl
    by_cases e2 : l = c
    · rw [e2] at hin ⊢
      rw [f.list_eq] at hin
      rw [f.list_self]
      rcases List.mem_cons.mp hin with e3 | e3
      · exact absurd e3 e
      · exact e3
    · rw [f.list_other l e2]; exact hin
  · intro t m hm
    by_cases e2 : t = c
    · rw [e2] at hm ⊢
      rw [f.list_self] at hm
      rw [f.other_mutex m (hne m hm)]
      exact h4 c m (by rw [f.list_eq]; simp [hm])
    · rw [f.list_other t e2] at hm
      have ho := h4 t m hm
      have e : m ≠ mp := by
        intro e
        rw [e, f.owned] at ho
        exact e2 (Option.some.inj ho).symm
      rw [f.other_mutex m e]
      exact ho
  · intro t
    by_cases e2 : t = c
    · rw [e2, f.list_self]
      have := h5 c
      rw [f.list_eq] at this
      exact (List.nodup_cons.mp this).2
    · rw [f.list_other t e2]; exact h5 t

/-- An unlock keeps the inheritance towards the owner of a mutex that is
still owned afterwards. -/
theorem unlock_inherit {c mp : Nat} {rest : List Nat} {s s1 : MtxSys} (hwf : s.WF)
    (f : UnlockFacts c mp rest s s1) {l m hh : Nat} (hk : InheritOK s l m hh)
    (hstill : (s1.mutexes m).m_owner = some l) : InheritOK s1 l m hh := by
  obtain ⟨k1, k2, k3⟩ := hk
  have e : m ≠ mp := by
    intro e
    rw [e, f.released] at hstill
    exact Option.noConfusion hstill
  have hwt := hwf.1 m hh k2
  have hhc : hh ≠ c := by
    intro e2
    rw [e2, f.running] at hwt
    exact Option.noConfusion hwt
  refine ⟨hstill, by rw [f.other_mutex m e]; exact k2, ?_⟩
  rw [f.prio_other hh hhc]
  by_cases e2 : l = c
  · rw [e2, f.prio_self]
    have hin := hwf.2.2.1 m l k1
    rw [e2, f.list_eq] at hin
    have hrest : m ∈ rest := by
      rcases List.mem_cons.mp hin with e3 | e3
      · exact absurd e3 e
      · exact e3
    exact (inherited_prio_spec s rest (s.threads c).p_realprio).2.1 m hrest hh k2
  · rw [f.prio_other l e2]; exact k3

/-- After an unlock the priority of the caller is the maximum of its base
priority and of the priorities of the threads waiting on the mutexes it
still holds. -/
theorem unlock_prio {c mp : Nat} {rest : List Nat} {s s1 : MtxSys} (hwf : s.WF)
    (f : UnlockFacts c mp rest s s1) :
    (s1.threads c).p_realprio ≤ s1.prio c ∧
    (∀ m ∈ (s1.threads c).p_mtxlist, ∀ w ∈ (s1.mutexes m).m_queue, s1.prio w ≤ s1.prio c) ∧
    (s1.prio c = (s1.threads c).p_realprio ∨
      ∃ m ∈ (s1.threads c).p_mtxlist, ∃ w ∈ (s1.mutexes m).m_queue, s1.prio c = s1.prio w) := by
  obtain ⟨a, b, d⟩ := inherited_prio_spec s rest (s.threads c).p_realprio
  have hne := fun m (hm : m ∈ rest) => unlock_rest_ne hwf f hm
  have hpw : ∀ m ∈ rest, ∀ w ∈ (s.mutexes m).m_queue, s1.prio w = s.prio w := by
    intro m _ w hw
    refine f.prio_other w ?_
    intro e
    have := hwf.1 m w hw
    rw [e, f.running] at this
    exact Option.noConfusion this
  rw [f.prio_self, f.real c, f.list_self]
  refine ⟨a, ?_, ?_⟩
  · intro m hm w hw
    rw [f.other_mutex m (hne m hm)] at hw
    rw [hpw m hm w hw]
    exact b m hm w hw
  · rcases d with d | ⟨m, hm, w, hw, d⟩
    · exact Or.inl d
    · right
      refine ⟨m, hm, w, ?_, ?_⟩
      · rw [f.other_mutex m (hne m hm)]; exact hw
      · rw [hpw m hm w hw]; exact d

/-- One operation keeps the state consistent and keeps the inheritance
towards the owner of a mutex that is still owned afterwards. -/
theorem mtx_step_preserves (s s1 : MtxSys) (op : MtxOp) (hwf : s.WF)
    (h : mtx_step s op = some s1) {l m hh : Nat} (hk : InheritOK s l m hh)
    (hstill : (s1.mutexes m).m_owner = some l) : s1.WF ∧ InheritOK s1 l m hh := by
  cases op with
  | lock fuel c mp =>
    obtain ⟨a, b, _⟩ := chMtxLockS_preserves fuel c mp s s1 hwf h
    exact ⟨a, b l m hh hk⟩
  | unlock c =>
    unfold mtx_step at h
    cases hu : chMtxUnlockS c s with
    | none => simp [hu] at h
    | some r =>
      obtain ⟨mp, s2⟩ := r
      simp only [hu, Option.map_some'] at h
      have e : s2 = s1 := Option.some.inj h
      subst e
      obtain ⟨rest, f⟩ := chMtxUnlockS_facts c mp s s2 hwf hu
      exact ⟨unlock_wf hwf f, unlock_inherit hwf f hk hstill⟩

/-- Inheritance is kept along every run throughout which `l` owns `m`. -/
theorem mtx_run_preserves (l m hh : Nat) (ops : List MtxOp) :
    ∀ s s2 : MtxSys, s.WF → InheritOK s l m hh → mtx_run_owned l m s ops = some s2 →
      s2.WF ∧ InheritOK s2 l m hh := by
  induction ops with
  | nil =>
    intro s s2 hwf hk h
    have e : s = s2 := Option.some.inj h
    subst e
    exact ⟨hwf, hk⟩
  | cons op rest ih =>
    intro s s2 hwf hk h
    unfold mtx_run_owned at h
    cases hs : mtx_step s op with
    | none => simp [hs] at h
    | some s1 =>
      simp only [hs] at h
      by_cases ho : (s1.mutexes m).m_owner = some l
      · simp only [ho, if_true] at h
        obtain ⟨a, b⟩ := mtx_step_preserves s s1 op hwf hs hk ho
        exact ih s1 s2 a b h
      · simp [ho] at h

/-- Enough fuel: when only threads numbered below `n` are blocked, a boost
with more fuel than there are blocked threads of priority below `p`
completes. -/
theorem mtx_boost_total (n p : Nat) :
    ∀ (fuel x : Nat) (s : MtxSys),
      (∀ t, n ≤ t → (s.threads t).p_wtmtxp = none) →
      ((Finset.range n).filter
        (fun t => (s.threads t).p_wtmtxp ≠ none ∧ s.prio t < p)).card < fuel →
      ∃ s1, mtx_boost fuel x p s = some s1 := by
  intro fuel
  induction fuel with
  | zero =>
    intro x s _ hcard
    exact absurd hcard (Nat.not_lt_zero _)
  | succ f ih =>
    intro x s hfin hcard
    unfold mtx_boost
    by_cases hlt : s.prio x < p
    · simp only [hlt, if_true]
      have fr1 := frame_raise p s x hlt
      cases hw : ((s.setThread x { s.threads x with p_prio := p }).threads x).p_wtmtxp with
      | none => exact ⟨_, rfl⟩
      | some m2 =>
        simp only []
        have fr2 := frame_requeue p (s.setThread x { s.threads x with p_prio := p }) x m2 hw
        have fr12 := fr1.trans fr2
        split
        · refine ih _ _ ?_ ?_
          · intro t ht
            rw [fr12.wt t]
            exact hfin t ht
          · refine Nat.lt_of_lt_of_le (Finset.card_lt_card ?_) (Nat.le_of_lt_succ hcard)
            have hxw : (s.threads x).p_wtmtxp = some m2 := by
              rw [← fr1.wt x]; exact hw
            have hxn : x < n := by
              by_contra hge
              have := hfin x (Nat.le_of_not_lt hge)
              rw [hxw] at this
              exact Option.noConfusion this
            rw [Finset.ssubset_iff_of_subset]
            · refine ⟨x, ?_, ?_⟩
              · simp [hxn, hxw, hlt]
              · have hpx : (MtxSys.setMutex (s.setThread x { s.threads x with p_prio := p }) m2
                    { (s.setThread x { s.threads x with p_prio := p }).mutexes m2 with
                      m_queue := prio_enqueue
                        (s.setThread x { s.threads x with p_prio := p }).prio x
                        (((s.setThread x { s.threads x with p_prio := p }).mutexes
                          m2).m_queue.erase x) }).prio x = p := by
                  simp [MtxSys.prio, MtxSys.setThread, MtxSys.setMutex]
                simp only [Finset.mem_filter, not_and, Nat.lt_irrefl]
                intro _ _
                rw [hpx]
                exact Nat.lt_irrefl p
            · intro t ht
              simp only [Finset.mem_filter] at ht ⊢
              obtain ⟨h1, h2, h3⟩ := ht
              refine ⟨h1, by rw [← fr12.wt t]; exact h2, ?_⟩
              exact Nat.lt_of_le_of_lt (fr12.mono t) h3
        · exact ⟨_, rfl⟩
    · simp only [hlt, if_false]
      exact ⟨_, rfl⟩

/-- Enough fuel: when only threads numbered below `n` are blocked, a running
thread's `chMtxLockS` with fuel `n + 1` completes. -/
theorem chMtxLockS_total (n c mp : Nat) (s : MtxSys)
    (hfin : ∀ t, n ≤ t → (s.threads t).p_wtmtxp = none)
    (hrun : (s.threads c).p_wtmtxp = none) :
    ∃ s1, chMtxLockS (n + 1) c mp s = some s1 := by
  unfold chMtxLockS
  simp only [hrun, ne_eq, not_true_eq_false, if_false]
  cases ho : (s.mutexes mp).m_owner with
  | none => exact ⟨_, rfl⟩
  | some o =>
    simp only []
    have hc : ((Finset.range n).filter
        (fun t => (s.threads t).p_wtmtxp ≠ none ∧ s.prio t < s.prio c)).card < n + 1 := by
      refine Nat.lt_succ_of_le ?_
      calc _ ≤ (Finset.range n).card := Finset.card_filter_le _ _
        _ = n := Finset.card_range n
    obtain ⟨sb, hb⟩ := mtx_boost_total n (s.prio c) (n + 1) o s hfin hc
    rw [hb]
    exact ⟨_, rfl⟩

/-- C20: priority inheritance, on the mutex operations modelled from the
specification. When a thread `hT` blocks on a mutex `m` owned by a thread
`lT`, then in every state reached by further lock and unlock operations of
any threads, for as long as `lT` owns `m`, `hT` still waits on `m` and the
effective priority of `lT` is at least that of `hT`; and when `lT` then
unlocks, its priority is the maximum of its base priority and of the
priorities of the threads waiting on the mutexes that remain in its
owner-list: it is at least each of them and equal to one of them. -/
theorem C20_priority_inheritance (s s1 : MtxSys) (fuel hT lT m : Nat) (hwf : s.WF)
    (hown : (s.mutexes m).m_owner = some lT)
    (hblock : chMtxLockS fuel hT m s = some s1) :
    (∀ ops s2, mtx_run_owned lT m s1 ops = some s2 →
      (s2.mutexes m).m_owner = some lT ∧ hT ∈ (s2.mutexes m).m_queue ∧
      (s2.threads hT).p_wtmtxp = some m ∧ s2.prio hT ≤ s2.prio lT) ∧
    (∀ ops s2 mp s3, mtx_run_owned lT m s1 ops = some s2 →
      chMtxUnlockS lT s2 = some (mp, s3) →
      (s2.threads lT).p_mtxlist = mp :: (s3.threads lT).p_mtxlist ∧
      (s3.mutexes mp).m_owner = none ∧
      (s3.threads lT).p_realprio ≤ s3.prio lT ∧
      (∀ m1 ∈ (s3.threads lT).p_mtxlist, ∀ w ∈ (s3.mutexes m1).m_queue,
        s3.prio w ≤ s3.prio lT) ∧
      (s3.prio lT = (s3.threads lT).p_realprio ∨
        ∃ m1 ∈ (s3.threads lT).p_mtxlist, ∃ w ∈ (s3.mutexes m1).m_queue,
          s3.prio lT = s3.prio w)) := by
  obtain ⟨hwf1, _, hest⟩ := chMtxLockS_preserves fuel hT m s s1 hwf hblock
  have hk1 : InheritOK s1 lT m hT := hest lT hown
  constructor
  · intro ops s2 hrun
    obtain ⟨hwf2, k1, k2, k3⟩ := mtx_run_preserves lT m hT ops s1 s2 hwf1 hk1 hrun
    exact ⟨k1, k2, hwf2.1 m hT k2, k3⟩
  · intro ops s2 mp s3 hrun hu
    obtain ⟨hwf2, _⟩ := mtx_run_preserves lT m hT ops s1 s2 hwf1 hk1 hrun
    obtain ⟨rest, f⟩ := chMtxUnlockS_facts lT mp s2 s3 hwf2 hu
    obtain ⟨a, b, d⟩ := unlock_prio hwf2 f
    refine ⟨?_, f.released, a, b, d⟩
    rw [f.list_eq, f.list_self]

theorem mtxHeld_WF : mtxHeld.WF := by
  refine ⟨?_, ?_, ?_, ?_, ?_⟩
  · intro m h hm
    by_cases e : m = 0 <;> simp [mtxHeld, e] at hm
  · intro m
    by_cases e : m = 0 <;> simp [mtxHeld, e]
  · intro m l hl
    by_cases e : m = 0
    · subst e
      have : l = 2 := by simpa [mtxHeld] using hl.symm
      subst this
      simp [mtxHeld]
    · simp [mtxHeld, e] at hl
  · intro t m hm
    by_cases e1 : t = 1
    · subst e1; simp [mtxHeld] at hm
    · by_cases e2 : t = 2
      · subst e2
        have : m = 0 := by simpa [mtxHeld] using hm
        subst this
        simp [mtxHeld]
      · simp [mtxHeld, e1, e2] at hm
  · intro t
    by_cases e1 : t = 1
    · subst e1; simp [mtxHeld]
    · by_cases e2 : t = 2
      · subst e2; simp [mtxHeld]
      · simp [mtxHeld, e1, e2]

theorem C20_priority_inheritance_witness :
    ∃ s1 s3 : MtxSys,
      mtxHeld.WF ∧ (mtxHeld.mutexes 0).m_owner = some 2 ∧
      chMtxLockS 1 1 0 mtxHeld = some s1 ∧
      mtxHeld.prio 2 = 3 ∧ s1.prio 1 = 5 ∧ s1.prio 2 = 5 ∧ s1.prio 1 ≤ s1.prio 2 ∧
      chMtxUnlockS 2 s1 = some (0, s3) ∧ s3.prio 2 = 3 ∧
      (s3.prio 2 = (s3.threads 2).p_realprio ∨
        ∃ m1 ∈ (s3.threads 2).p_mtxlist, ∃ w ∈ (s3.mutexes m1).m_queue,
          s3.prio 2 = s3.prio w) :=
  ⟨_, _, mtxHeld_WF, rfl, rfl, rfl, rfl, rfl,
    ((C20_priority_inheritance mtxHeld _ 1 1 2 0 mtxHeld_WF rfl rfl).1 [] _ rfl).2.2.2,
    rfl, rfl,
    ((C20_priority_inheritance mtxHeld _ 1 1 2 0 mtxHeld_WF rfl rfl).2 [] _ 0 _ rfl rfl).2.2.2.2⟩


/-! ## Claim C23: the syscall number -/

theorem read16_write32_apart (m : Memory) (h w v : Nat) (ha : halfwordApart h w) :
    read16 (write32 m w v) h = read16 m h := by
  unfold halfwordApart sub32 at ha
  unfold read16
  rw [loadByte_write32_ne _ _ _ _ (by omega) (by omega) (by omega) (by omega),
    loadByte_write32_ne _ _ _ _ (by omega) (by omega) (by omega) (by omega)]

theorem and_255_eq_mod (x : Nat) : x &&& 255 = x % 256 :=
  Nat.and_pow_two_sub_one_eq_mod x 8

theorem read16_mod_256 (m : Memory) (a : Nat) : read16 m a % 256 = loadByte m a := by
  unfold read16 loadByte
  omega

/-- C23: on the syscall-entry path of `SVC_Handler` (CONTROL bit 0 set, debug
assertion compiled out or holding) the handler returns, and the syscall
number it passes to the dispatcher in the `r1` slot of the return frame is
the low 8 bits of the 16-bit word located two bytes before the caller's
stacked `pc`, as memory stands once the middle context is pushed; it is the
low byte of that little-endian halfword, it lies in 0..255, and when the
middle context overlaps neither the stacked `pc` nor that halfword it is the
low 8 bits of the halfword of the memory at handler entry. -/
theorem C23_syscall_number_range (c : PortConfig) (s : MachineState) (hc : c.WF)
    (hsys : c.PORT_USE_SYSCALL = true) (hunpriv : (__get_CONTROL s &&& 1) ≠ 0)
    (hassert : c.CH_DBG_ENABLE_ASSERTS = false ∨ SVC_Handler_assertion s = true) :
    ∃ s1 m1, SVC_Handler c s = some s1 ∧
      m1 = write32 (write32 s.mem (sub32 (wrap32 s.s_psp) c.sizeof_midctx + c.off_control)
              (__get_CONTROL s))
            (sub32 (wrap32 s.s_psp) c.sizeof_midctx + c.off_ectxp) (__get_PSP s) ∧
      read32 s1.mem (s1.psp + c.off_r1)
        = read16 m1 (sub32 (read32 m1 (__get_PSP s + c.off_pc)) 2) % 256 ∧
      read32 s1.mem (s1.psp + c.off_r1)
        = loadByte m1 (sub32 (read32 m1 (__get_PSP s + c.off_pc)) 2) ∧
      read32 s1.mem (s1.psp + c.off_r1) ≤ 255 ∧
      (wordsDisjoint (__get_PSP s + c.off_pc)
          (sub32 (wrap32 s.s_psp) c.sizeof_midctx + c.off_control) →
        wordsDisjoint (__get_PSP s + c.off_pc)
          (sub32 (wrap32 s.s_psp) c.sizeof_midctx + c.off_ectxp) →
        halfwordApart (sub32 (read32 s.mem (__get_PSP s + c.off_pc)) 2)
          (sub32 (wrap32 s.s_psp) c.sizeof_midctx + c.off_control) →
        halfwordApart (sub32 (read32 s.mem (__get_PSP s + c.off_pc)) 2)
          (sub32 (wrap32 s.s_psp) c.sizeof_midctx + c.off_ectxp) →
        read32 s1.mem (s1.psp + c.off_r1)
          = read16 s.mem (sub32 (read32 s.mem (__get_PSP s + c.off_pc)) 2) % 256) := by
  have hpsp : __get_PSP s < 4294967296 := by unfold __get_PSP wrap32; omega
  obtain ⟨_, h2, _, _, _, h6, _⟩ := svc_syscall_spec c s (__get_PSP s) hc hpsp
  rw [← h2] at h6
  have h6a := h6
  unfold svc_number at h6a
  rw [and_255_eq_mod] at h6a
  refine ⟨_, _, SVC_Handler_eq_syscall c s hassert hsys hunpriv, rfl, h6a, ?_, ?_, ?_⟩
  · rw [h6a, read16_mod_256]
  · rw [h6]; exact svc_number_le _ _ _
  · intro d1 d2 a1 a2
    rw [h6a, read32_write32_disjoint _ _ _ _ d2, read32_write32_disjoint _ _ _ _ d1,
      read16_write32_apart _ _ _ _ a2, read16_write32_apart _ _ _ _ a1]

theorem C23_syscall_number_range_witness :
    (cfgSyscall.WF ∧ cfgSyscall.PORT_USE_SYSCALL = true ∧
      (__get_CONTROL stSvc42 &&& 1) ≠ 0 ∧ cfgSyscall.CH_DBG_ENABLE_ASSERTS = false) ∧
    ∃ s1, SVC_Handler cfgSyscall stSvc42 = some s1 ∧
      read32 s1.mem (s1.psp + cfgSyscall.off_r1) = 0x2A := by
  refine ⟨⟨cfgSyscall_WF, rfl, by decide, rfl⟩, ?_⟩
  obtain ⟨s1, m1, h, _, _, _, _, hclean⟩ :=
    C23_syscall_number_range cfgSyscall stSvc42 cfgSyscall_WF rfl (by decide) (Or.inl rfl)
  refine ⟨s1, h, ?_⟩
  rw [hclean (by decide) (by decide) (by decide) (by decide)]
  decide


/-! ## Claim C24: the order of the steps of `chSysInit` -/

/-- C24: `chSysInit`, entered with interrupts disabled, calls in this order
`chSchInit`, `chDbgInit`, `chVTInit` (when virtual timers are configured) and
`init_thread`, then marks the main thread running and points `currp` to it.
In the state `s3` reached at that point interrupts are still disabled and no
thread has been created; `chSysUnlock` is called next and enables
interrupts, and the idle thread is created last. `chSysUnlock` appears
exactly once among the calls made, followed only by `chThdCreateFast`. -/
theorem C24_init_order (k : KernelConfig) (c : InitConfig) (s : SysState)
    (hlocked : s.locked = true) :
    ∃ s3 : SysState,
      chSysInit k c s
        = chThdCreateFast c.IDLEPRIO c.waIdleThread
            (c.sizeof_WorkingArea c.IDLE_THREAD_STACK_SIZE) c._IdleThread (chSysUnlock s3) ∧
      s3.calls = s.calls ++ [KCall.chSchInit, KCall.chDbgInit]
        ++ (if k.CH_USE_VIRTUAL_TIMERS then [KCall.chVTInit] else [])
        ++ [KCall.init_thread] ∧
      s3.currp = some ThreadRef.mainthread ∧
      (s3.threads ThreadRef.mainthread).p_state = tstate_t.PRCURR ∧
      s3.locked = true ∧
      s3.created = s.created ∧
      (chSysUnlock s3).locked = false ∧
      (chSysUnlock s3).currp = some ThreadRef.mainthread ∧
      (chSysUnlock s3).created = s.created ∧
      (chSysInit k c s).calls = s3.calls ++ [KCall.chSysUnlock, KCall.chThdCreateFast] ∧
      (chSysInit k c s).created.length = s.created.length + 1 ∧
      (chSysInit k c s).locked = false ∧
      ((chSysInit k c s).calls.drop s.calls.length).count KCall.chSysUnlock = 1 := by
  refine ⟨_, rfl, ?_⟩
  cases hk : k.CH_USE_VIRTUAL_TIMERS <;>
    simp [chSysInit, hk, chThdCreateFast, chSysUnlock, init_thread, chVTInit, chDbgInit,
      chSchInit, SysState.setThread, hlocked, List.count_cons]

theorem C24_init_order_witness :
    sysReset.locked = true ∧
    (chSysInit kcfgVT initCfg sysReset).calls
      = [KCall.chSchInit, KCall.chDbgInit, KCall.chVTInit, KCall.init_thread,
         KCall.chSysUnlock, KCall.chThdCreateFast] := by
  refine ⟨rfl, ?_⟩
  obtain ⟨s3, _, h3, _, _, _, _, _, _, _, hcalls, _⟩ :=
    C24_init_order kcfgVT initCfg sysReset rfl
  rw [hcalls, h3]
  rfl


/-! ## Claims C25, C26: the values written to `ICR`, and the agreement of
levels and vectors -/

/-- C25: every value `InitIrqLevels` writes to `ICR` is `(irq << 8) | level`
for its own high byte `irq = value >> 8` and low byte `level = value & 0xFF`,
with `12 <= irq <= 88` and `level` 2 or 7; the shifted number and the value
are at most 32767, the range of a signed 16-bit `int`; and the encoding
decodes uniquely: for every such `irq` and `level`, `(irq << 8) | level`
shifted right by 8 is `irq` and masked with `0xFF` is `level`. -/
theorem C25_icr_values (v irq level : Nat) :
    (v ∈ InitIrqLevels [] →
      v = (icr_irq v <<< 8) ||| icr_level v ∧
      12 ≤ icr_irq v ∧ icr_irq v ≤ 88 ∧
      (icr_level v = 2 ∨ icr_level v = 7) ∧
      icr_irq v <<< 8 ≤ 32767 ∧ v ≤ 32767 ∧
      v >>> 8 = icr_irq v ∧ v &&& 0xFF = icr_level v) ∧
    (12 ≤ irq → irq ≤ 88 → (level = 2 ∨ level = 7) →
      icr_irq ((irq <<< 8) ||| level) = irq ∧
      icr_level ((irq <<< 8) ||| level) = level ∧
      (irq <<< 8) ||| level ≤ 32767) := by
  constructor
  · rw [InitIrqLevels_writes]
    revert v
    decide
  · intro hlo hhi hl
    rcases hl with h | h <;> subst h <;> interval_cases irq <;> decide

theorem C25_icr_values_witness :
    13058 ∈ InitIrqLevels [] ∧ (12 ≤ 51 ∧ 51 ≤ 88) ∧
    icr_irq 13058 = 51 ∧ icr_level 13058 = 2 ∧
    icr_irq ((51 <<< 8) ||| 2) = 51 := by
  have hm : 13058 ∈ InitIrqLevels [] := by
    rw [InitIrqLevels_writes]
    decide
  exact ⟨hm, ⟨by decide, by decide⟩, by decide, by decide,
    ((C25_icr_values 13058 51 2).2 (by decide) (by decide) (Or.inl rfl)).1⟩

/-- The last level `InitIrqLevels` writes for an IRQ number, and the IRQ
numbers it writes none for. -/
theorem lastLevel_InitIrqLevels (irq : Nat) :
    lastLevel (InitIrqLevels []) irq
      = if 12 ≤ irq ∧ irq ≤ 88 then
          some (if irq = 51 ∨ irq = 52 ∨ irq = 53 ∨ irq = 54 then 2 else 7)
        else none := by
  rw [InitIrqLevels_writes]
  by_cases h : 12 ≤ irq ∧ irq ≤ 88
  · rw [if_pos h]
    obtain ⟨hlo, hhi⟩ := h
    interval_cases irq <;> decide
  · rw [if_neg h]
    have hall : ∀ v ∈ (List.range' 12 77).map (fun i => (i <<< 8) ||| 7)
        ++ [13058, 13314, 13570, 13826], 12 ≤ icr_irq v ∧ icr_irq v ≤ 88 := by
      decide
    unfold lastLevel
    have hf : List.filter (fun v => icr_irq v == irq)
        ((List.range' 12 77).map (fun i => (i <<< 8) ||| 7)
          ++ [13058, 13314, 13570, 13826]) = [] := by
      rw [List.filter_eq_nil_iff]
      intro v hv
      have := hall v hv
      have hne : icr_irq v ≠ irq := by omega
      simpa using hne
    rw [hf]
    rfl

/-- The handlers the vector table binds to a vector number. -/
theorem handlersOf_eq (v : Nat) :
    handlersOf v
      = if 11 ≤ v ∧ v ≤ 88 then
          [if v = 51 then IrqHandler.InterruptRLT0
           else if v = 52 then IrqHandler.InterruptRLT1
           else if v = 53 then IrqHandler.InterruptRLT2
           else if v = 54 then IrqHandler.InterruptRLT3
           else IrqHandler.DefaultIRQHandler]
        else [] := by
  by_cases h : 11 ≤ v ∧ v ≤ 88
  · rw [if_pos h]
    obtain ⟨hlo, hhi⟩ := h
    interval_cases v <;> decide
  · rw [if_neg h]
    have hall : ∀ e ∈ intvect, 11 ≤ e.2 ∧ e.2 ≤ 88 := by decide
    unfold handlersOf
    have hf : intvect.filter (fun e => e.2 == v) = [] := by
      rw [List.filter_eq_nil_iff]
      intro e he
      have := hall e he
      have hne : e.2 ≠ v := by omega
      simpa using hne
    rw [hf]
    rfl

/-- C26: interrupt levels and vector table agree. For every number `v`, the
last level `InitIrqLevels` writes for `v` is an enabled one (other than 7) if
and only if the vector table binds `v` to a handler other than
`DefaultIRQHandler`; both hold exactly for 51, 52, 53 and 54. Hence a vector
bound to `DefaultIRQHandler` has no enabled level, and a vector bound to a
dedicated handler is not left disabled. -/
theorem C26_levels_match_vectors (v : Nat) :
    ((∃ l, lastLevel (InitIrqLevels []) v = some l ∧ l ≠ 7) ↔
      (∃ h ∈ handlersOf v, h ≠ IrqHandler.DefaultIRQHandler)) ∧
    ((∃ l, lastLevel (InitIrqLevels []) v = some l ∧ l ≠ 7) ↔
      (v = 51 ∨ v = 52 ∨ v = 53 ∨ v = 54)) ∧
    (IrqHandler.DefaultIRQHandler ∈ handlersOf v →
      lastLevel (InitIrqLevels []) v = some 7 ∨ lastLevel (InitIrqLevels []) v = none) ∧
    ((∃ h ∈ handlersOf v, h ≠ IrqHandler.DefaultIRQHandler) →
      lastLevel (InitIrqLevels []) v = some 2) := by
  rw [lastLevel_InitIrqLevels, handlersOf_eq]
  by_cases h : 11 ≤ v ∧ v ≤ 88
  · obtain ⟨hlo, hhi⟩ := h
    interval_cases v <;> simp
  · have h12 : ¬ (12 ≤ v ∧ v ≤ 88) := by omega
    have hne : ¬ (v = 51 ∨ v = 52 ∨ v = 53 ∨ v = 54) := by omega
    simp [h, h12, hne]

theorem C26_levels_match_vectors_witness :
    IrqHandler.DefaultIRQHandler ∈ handlersOf 11 ∧
    lastLevel (InitIrqLevels []) 11 = none ∧
    lastLevel (InitIrqLevels []) 52 = some 2 := by
  have h11 : IrqHandler.DefaultIRQHandler ∈ handlersOf 11 := by decide
  have h52 : ∃ h ∈ handlersOf 52, h ≠ IrqHandler.DefaultIRQHandler :=
    ⟨IrqHandler.InterruptRLT1, by decide, by decide⟩
  refine ⟨h11, ?_, (C26_levels_match_vectors 52).2.2.2 h52⟩
  rcases (C26_levels_match_vectors 11).2.2.1 h11 with h | h
  · rw [lastLevel_InitIrqLevels] at h
    simp at h
  · exact h


/-! ## Claim C27: the debug assertion of `SVC_Handler` -/

/-- C27 (divergence): the assertion of `SVC_Handler` is the test that bit 2
of the handler's return address is clear. With assertions compiled in, an
SVC taken from thread code on the process stack (exception-return value
`0xFFFFFFFD`, bit 2 set) fails it and the handler halts, whereas an
exception-return value designating the main stack (`0xFFFFFFF9`, bit 2
clear) passes it. -/
theorem C27_assertion_rejects_process_stack :
    (∀ s : MachineState,
      SVC_Handler_assertion s = true ↔ (wrap32 s.return_address &&& 4) = 0) ∧
    stBaseUnpriv.return_address = 0xFFFFFFFD ∧
    (wrap32 stBaseUnpriv.return_address &&& 4) ≠ 0 ∧
    SVC_Handler_assertion stBaseUnpriv = false ∧
    SVC_Handler cfgSyscallAsserts stBaseUnpriv = none ∧
    SVC_Handler cfgSyscallAsserts stBasePriv = none ∧
    (wrap32 stMainStack.return_address &&& 4) = 0 ∧
    SVC_Handler_assertion stMainStack = true ∧
    (SVC_Handler cfgSyscallAsserts stMainStack).isSome = true := by
  refine ⟨?_, rfl, by decide, by decide, rfl, rfl, by decide, by decide, ?_⟩
  · intro s
    unfold SVC_Handler_assertion
    simp
  · rw [SVC_Handler_eq_privileged cfgSyscallAsserts stMainStack (Or.inr (by decide))
      (Or.inr (by decide))]
    rfl


/-! ## Claims C28, C29: `port_unprivileged_jump` -/

/-- The bytes that `memset` writes. -/
theorem loadByte_memset (m : Memory) (a v n x : Nat)
    (h : ∀ i, i < n → x % 4294967296 ≠ (a + i) % 4294967296) :
    loadByte (memset m a v n) x = loadByte m x := by
  induction n with
  | zero => rfl
  | succ k ih =>
    unfold memset
    rw [loadByte_storeByte_ne _ _ _ _ (h k (Nat.lt_succ_self k))]
    exact ih (fun i hi => h i (Nat.lt_succ_of_lt hi))

/-- A word that shares no byte with the word at `a` is not changed by
`memset` of `sizeof_pointer` bytes at `a`. -/
theorem read32_memset_pointer (m : Memory) (a v x : Nat) (h : wordsDisjoint x a) :
    read32 (memset m a v sizeof_pointer) x = read32 m x := by
  unfold wordsDisjoint sub32 at h
  unfold read32 sizeof_pointer
  rw [loadByte_memset _ _ _ _ _ (fun i hi => by omega),
    loadByte_memset _ _ _ _ _ (fun i hi => by omega),
    loadByte_memset _ _ _ _ _ (fun i hi => by omega),
    loadByte_memset _ _ _ _ _ (fun i hi => by omega)]

/-- C28 (divergence): `port_unprivileged_jump` clears only the first
`sizeof (struct port_extctx *)` = 4 bytes of the frame it creates. Called
with `pc = 0x08000401` and `psp = 0x20003000` over a stack holding `0xFF` in
every byte, it leaves the frame at `0x20002FE0` with `r0 = 0`, the given `pc`
and `xpsr = 0x01000000`, but the `r1` slot and the words at offsets 8 to 20
(`r2`, `r3`, `r12`, `lr`) still hold the stale `0xFFFFFFFF`. -/
theorem C28_frame_not_cleared :
    sub32 0x20003000 cfgSyscall.sizeof_extctx = 0x20002FE0 ∧
    read32 stStale.mem (0x20002FE0 + cfgSyscall.off_r1) = 0xFFFFFFFF ∧
    read32 (port_unprivileged_jump cfgSyscall 0 0x08000401 0x20003000 stStale).mem
      (0x20002FE0 + cfgSyscall.off_r0) = 0 ∧
    read32 (port_unprivileged_jump cfgSyscall 0 0x08000401 0x20003000 stStale).mem
      (0x20002FE0 + cfgSyscall.off_pc) = 0x08000401 ∧
    read32 (port_unprivileged_jump cfgSyscall 0 0x08000401 0x20003000 stStale).mem
      (0x20002FE0 + cfgSyscall.off_xpsr) = 0x01000000 ∧
    read32 (port_unprivileged_jump cfgSyscall 0 0x08000401 0x20003000 stStale).mem
      (0x20002FE0 + cfgSyscall.off_r1) = 0xFFFFFFFF ∧
    (∀ k ∈ [8, 12, 16, 20],
      read32 (port_unprivileged_jump cfgSyscall 0 0x08000401 0x20003000 stStale).mem
        (0x20002FE0 + k) = 0xFFFFFFFF) := by
  refine ⟨by decide, by decide, by decide, by decide, by decide, by decide, by decide⟩


/-- Outside the five words it writes, `port_unprivileged_jump` (without FPU)
leaves the memory as it was. -/
theorem jump_keeps_word (c : PortConfig) (fpscr pc psp x : Nat) (s : MachineState)
    (hfpu : c.CORTEX_USE_FPU = false)
    (h0 : wordsDisjoint x (sub32 psp c.sizeof_extctx))
    (h1 : wordsDisjoint x (sub32 psp c.sizeof_extctx + c.off_pc))
    (h2 : wordsDisjoint x (sub32 psp c.sizeof_extctx + c.off_xpsr))
    (h3 : wordsDisjoint x (sub32 (__get_PSP s) c.sizeof_midctx + c.off_control))
    (h4 : wordsDisjoint x (sub32 (__get_PSP s) c.sizeof_midctx + c.off_ectxp)) :
    read32 (port_unprivileged_jump c fpscr pc psp s).mem x = read32 s.mem x := by
  unfold port_unprivileged_jump
  simp only [hfpu, store32, Bool.false_eq_true, if_false]
  rw [read32_write32_disjoint _ _ _ _ h4, read32_write32_disjoint _ _ _ _ h3,
    read32_write32_disjoint _ _ _ _ h2, read32_write32_disjoint _ _ _ _ h1,
    read32_memset_pointer _ _ _ _ h0]

/-- The registers after `port_unprivileged_jump`, and the middle context it
writes at `PSP - sizeof (struct port_midctx)`. -/
theorem jump_spec (c : PortConfig) (fpscr pc psp : Nat) (s : MachineState) (hc : c.WF) :
    (port_unprivileged_jump c fpscr pc psp s).psp = s.psp ∧
    (port_unprivileged_jump c fpscr pc psp s).control = s.control ∧
    (port_unprivileged_jump c fpscr pc psp s).s_psp = __get_PSP s ∧
    read32 (port_unprivileged_jump c fpscr pc psp s).mem
      (sub32 (__get_PSP s) c.sizeof_midctx + c.off_control)
      = wrap32 (__get_CONTROL s ||| 1) ∧
    read32 (port_unprivileged_jump c fpscr pc psp s).mem
      (sub32 (__get_PSP s) c.sizeof_midctx + c.off_ectxp)
      = sub32 psp c.sizeof_extctx := by
  have hap : fieldsApart c.off_control c.off_ectxp := hc.2.2.2.2.2.2.2.2.2.2.2.2.2.2.1
  have hs2 : c.off_ectxp + 4 ≤ c.sizeof_midctx := hc.2.2.2.2.2.2.2.2.2.2.2.2.2.1
  have hs1 : c.off_control + 4 ≤ c.sizeof_midctx := hc.2.2.2.2.2.2.2.2.2.2.2.2.1
  have hsz : c.sizeof_midctx ≤ 4294967296 := by have := hc.1; omega
  have hd : wordsDisjoint (sub32 (__get_PSP s) c.sizeof_midctx + c.off_control)
      (sub32 (__get_PSP s) c.sizeof_midctx + c.off_ectxp) := by
    unfold fieldsApart at hap
    unfold wordsDisjoint sub32
    omega
  unfold port_unprivileged_jump
  refine ⟨?_, ?_, ?_, ?_, ?_⟩
  · split <;> rfl
  · split <;> rfl
  · split <;> rfl
  · simp only [store32]
    rw [read32_write32_disjoint _ _ _ _ hd, read32_write32_same]
    rfl
  · simp only [store32]
    rw [read32_write32_same]
    exact wrap32_sub32 _ _

theorem add32_sub32_wrap (a b : Nat) : add32 (sub32 a b) b = wrap32 a := by
  unfold add32 sub32 wrap32; omega

/-- The privileged path of `SVC_Handler`, entered by the `svc 0` of
`port_unprivileged_jump` with the exception frame stacked below the PSP of
that instruction, takes CONTROL and PSP from the two words at the PSP the
function was entered with, not from the middle context, which lies
`sizeof (struct port_midctx)` lower. -/
theorem svc_after_jump (c : PortConfig) (fpscr pc psp : Nat) (s s2 : MachineState)
    (hsys : c.PORT_USE_SYSCALL = true)
    (hentry : s2.psp = sub32 (port_unprivileged_jump c fpscr pc psp s).psp c.sizeof_extctx)
    (hpriv : (__get_CONTROL s2 &&& 1) = 0)
    (hassert : c.CH_DBG_ENABLE_ASSERTS = false ∨ SVC_Handler_assertion s2 = true) :
    ∃ s3, SVC_Handler c s2 = some s3 ∧
      s3.control = wrap32 (read32 s2.mem (__get_PSP s + c.off_control)) ∧
      s3.psp = wrap32 (read32 s2.mem (__get_PSP s + c.off_ectxp)) := by
  refine ⟨_, SVC_Handler_eq_privileged c s2 hassert (Or.inr hpriv), ?_⟩
  have hp : (port_unprivileged_jump c fpscr pc psp s).psp = s.psp := by
    unfold port_unprivileged_jump
    split <;> rfl
  have hback : add32 (wrap32 s2.psp) c.sizeof_extctx = __get_PSP s := by
    rw [hentry, hp, wrap32_sub32, add32_sub32_wrap]
    rfl
  obtain ⟨_, _, hcm⟩ := clear_LSPACT_fields c s2
  unfold SVC_Handler_privileged
  simp only [hsys, if_true, __set_PSP, __set_CONTROL, __get_PSP, port_unlock_from_isr, hback,
    hcm, and_self]

/-- C29 (divergence): `port_unprivileged_jump 0x08000401 0x20003000`, called
from privileged thread code with PSP = `0x20001000`, records `0x20001000` in
`ctx.s_psp` and writes the middle context (CONTROL with bit 0 set, pointer
to the user frame `0x20002FE0`) at `0x20000FF8`, but leaves PSP at
`0x20001000`. The `svc 0` is served by the privileged path of `SVC_Handler`,
entered with PSP = `0x20000FE0`; it reads the middle context at
`0x20000FE0 + sizeof (struct port_extctx) = 0x20001000`, not at
`0x20000FF8`, so that afterwards CONTROL is 0, with the unprivileged bit
clear, and PSP is 0, not `0x20002FE0`. -/
theorem C29_jump_midctx_misplaced :
    (port_unprivileged_jump cfgSyscall 0 0x08000401 0x20003000 stBasePriv).s_psp
      = 0x20001000 ∧
    (port_unprivileged_jump cfgSyscall 0 0x08000401 0x20003000 stBasePriv).psp
      = 0x20001000 ∧
    sub32 0x20001000 cfgSyscall.sizeof_midctx = 0x20000FF8 ∧
    read32 (port_unprivileged_jump cfgSyscall 0 0x08000401 0x20003000 stBasePriv).mem
      (0x20000FF8 + cfgSyscall.off_control) = 3 ∧
    read32 (port_unprivileged_jump cfgSyscall 0 0x08000401 0x20003000 stBasePriv).mem
      (0x20000FF8 + cfgSyscall.off_ectxp) = 0x20002FE0 ∧
    stJumpSvc.psp = 0x20000FE0 ∧
    (__get_CONTROL stJumpSvc &&& 1) = 0 ∧
    add32 stJumpSvc.psp cfgSyscall.sizeof_extctx = 0x20001000 ∧
    ∃ s3, SVC_Handler cfgSyscall stJumpSvc = some s3 ∧
      s3.control = read32 stJumpSvc.mem (0x20001000 + cfgSyscall.off_control) ∧
      s3.psp = read32 stJumpSvc.mem (0x20001000 + cfgSyscall.off_ectxp) ∧
      s3.control = 0 ∧ (s3.control &&& 1) = 0 ∧
      s3.psp = 0 ∧ s3.psp ≠ 0x20002FE0 := by
  refine ⟨by decide, by decide, by decide, by decide, by decide, by decide, by decide,
    by decide, _, SVC_Handler_eq_privileged cfgSyscall stJumpSvc (Or.inl rfl)
      (Or.inr (by decide)), ?_⟩
  refine ⟨by decide, by decide, by decide, by decide, by decide, by decide⟩


/-! ## Claim C30: FlexCAN clock macros -/

/-- C30 (divergence): every `SPC5_FLEXCANk_ENABLE_CLOCK` gives the
peripheral `SPC5_FLEXCANk_PCTL = 16 + k` the start mode of unit `k`, and
`SPC5_FLEXCANk_DISABLE_CLOCK` gives it the stop mode of unit `k` for `k` = 0,
1, 3, 4, 5; but `SPC5_FLEXCAN2_DISABLE_CLOCK` gives peripheral 18 the start
mode of unit 2, exactly as `SPC5_FLEXCAN2_ENABLE_CLOCK` does. On a clock
controller that records the modes, with start mode 1 and stop mode 0,
peripheral 18 is in mode 1 after `SPC5_FLEXCAN2_DISABLE_CLOCK`, whereas
peripheral 19 is in mode 0 after `SPC5_FLEXCAN3_DISABLE_CLOCK`. -/
theorem C30_flexcan2_disable_starts_clock :
    (∀ (S : Type) (h : SPC5Hal S) (s : S),
      (∀ k ∈ [0, 1, 2, 3, 4, 5],
        flexcan_pctl k = 16 + k ∧
        flexcan_enable_clock h k s
          = h.halSPCSetPeripheralClockMode (16 + k) (flexcan_start h k) s) ∧
      (∀ k ∈ [0, 1, 3, 4, 5],
        flexcan_disable_clock h k s
          = h.halSPCSetPeripheralClockMode (16 + k) (flexcan_stop h k) s) ∧
      SPC5_FLEXCAN2_DISABLE_CLOCK h s
        = h.halSPCSetPeripheralClockMode 18 h.SPC5_CAN_FLEXCAN2_START_PCTL s ∧
      SPC5_FLEXCAN2_DISABLE_CLOCK h s = SPC5_FLEXCAN2_ENABLE_CLOCK h s) ∧
    pctlHal.SPC5_CAN_FLEXCAN2_STOP_PCTL = 0 ∧
    SPC5_FLEXCAN2_DISABLE_CLOCK pctlHal pctlAllOn 18 = 1 ∧
    SPC5_FLEXCAN2_DISABLE_CLOCK pctlHal pctlAllOn 18 ≠ pctlHal.SPC5_CAN_FLEXCAN2_STOP_PCTL ∧
    SPC5_FLEXCAN3_DISABLE_CLOCK pctlHal pctlAllOn 19 = pctlHal.SPC5_CAN_FLEXCAN3_STOP_PCTL := by
  refine ⟨?_, rfl, by decide, by decide, by decide⟩
  intro S h s
  refine ⟨?_, ?_, rfl, rfl⟩
  · intro k hk
    simp only [List.mem_cons, List.mem_singleton, List.not_mem_nil, or_false] at hk
    rcases hk with e | e | e | e | e | e <;> subst e <;> exact ⟨rfl, rfl⟩
  · intro k hk
    simp only [List.mem_cons, List.mem_singleton, List.not_mem_nil, or_false] at hk
    rcases hk with e | e | e | e | e <;> subst e <;> rfl


/-! ## Claim C21: unlock releases the most recently acquired mutex -/

/-- A running thread whose owner-list is `mp :: rest` unlocks `mp`. -/
theorem unlock_head (c mp : Nat) (rest : List Nat) (s : MtxSys) (hwf : s.WF)
    (hrun : (s.threads c).p_wtmtxp = none) (hl : (s.threads c).p_mtxlist = mp :: rest) :
    ∃ s1, chMtxUnlockS c s = some (mp, s1) := by
  have ho : (s.mutexes mp).m_owner = some c :=
    hwf.2.2.2.1 c mp (by rw [hl]; exact List.mem_cons_self _ _)
  unfold chMtxUnlockS
  simp only [hrun, ne_eq, not_true_eq_false, if_false, hl, ho]
  split <;> exact ⟨_, rfl⟩

/-- The caller of an unlock is still running afterwards. -/
theorem unlock_running (c mp : Nat) (s s1 : MtxSys)
    (h : chMtxUnlockS c s = some (mp, s1)) : (s1.threads c).p_wtmtxp = none := by
  obtain ⟨hrun, rest, _, _, hcase⟩ := chMtxUnlockS_cases c mp s s1 h
  rcases hcase with ⟨_, hs1⟩ | ⟨w, q, _, hs1⟩
  · subst hs1
    simp [MtxSys.setThread, MtxSys.setMutex, hrun]
  · subst hs1
    by_cases e : c = w
    · simp [MtxSys.setThread, MtxSys.setMutex, e]
    · simp [MtxSys.setThread, MtxSys.setMutex, e, hrun]

/-- The loop of `chMtxUnlockAll` empties an owner-list of at most `n`
mutexes. -/
theorem unlockAll_loop_spec (c n : Nat) :
    ∀ s : MtxSys, s.WF → (s.threads c).p_wtmtxp = none →
      (s.threads c).p_mtxlist.length ≤ n →
      ∃ s1, chMtxUnlockAll_loop c n s = some s1 ∧ s1.WF ∧
        (s1.threads c).p_mtxlist = [] ∧ (s1.threads c).p_wtmtxp = none ∧
        (∀ t, t ≠ c → (s1.threads t).p_mtxlist = (s.threads t).p_mtxlist) ∧
        (∀ m, (s.mutexes m).m_owner ≠ some c →
          (s1.mutexes m).m_owner = (s.mutexes m).m_owner) := by
  induction n with
  | zero =>
    intro s hwf hrun hlen
    have hl : (s.threads c).p_mtxlist = [] := List.length_eq_zero.mp (Nat.le_zero.mp hlen)
    exact ⟨s, by simp [chMtxUnlockAll_loop, hl], hwf, hl, hrun, fun _ _ => rfl, fun _ _ => rfl⟩
  | succ k ih =>
    intro s hwf hrun hlen
    cases hl : (s.threads c).p_mtxlist with
    | nil => exact ⟨s, by simp [chMtxUnlockAll_loop, hl], hwf, hl, hrun, fun _ _ => rfl, fun _ _ => rfl⟩
    | cons mp rest =>
      obtain ⟨s1, hu⟩ := unlock_head c mp rest s hwf hrun hl
      obtain ⟨r, f⟩ := chMtxUnlockS_facts c mp s s1 hwf hu
      have hr : r = rest := by
        have := f.list_eq
        rw [hl] at this
        exact (List.cons.inj this).2.symm
      have hlen1 : (s1.threads c).p_mtxlist.length ≤ k := by
        rw [f.list_self, hr]
        rw [hl] at hlen
        simpa using hlen
      obtain ⟨s2, h2, hwf2, hl2, hrun2, hoth, hown⟩ :=
        ih s1 (unlock_wf hwf f) (unlock_running c mp s s1 hu) hlen1
      refine ⟨s2, ?_, hwf2, hl2, hrun2, ?_, ?_⟩
      · simp [chMtxUnlockAll_loop, hl, hu, h2]
      · intro t ht
        rw [hoth t ht, f.list_other t ht]
      · intro m hm
        have hne : m ≠ mp := by
          intro e
          rw [e] at hm
          exact hm f.owned
        have e1 : s1.mutexes m = s.mutexes m := f.other_mutex m hne
        rw [hown m (by rw [e1]; exact hm), e1]



/-- C21: `chMtxUnlock` and `chMtxUnlockS` are declared without a mutex
argument and return a mutex. On the mutex operations modelled from the
specification, for a running thread `c` in a consistent state: when its
owner-list is `mp :: rest`, unlock returns `mp`, the most recently acquired
mutex still held, which `c` owned and which is free afterwards, leaves the
owner-list `rest` and touches no other mutex; whatever unlock returns was
owned by the caller and was the head of its owner-list; when the caller owns
no mutex, unlock is rejected; a free mutex that `c` locks is the one its next
unlock returns, restoring the previous owner-list; and unlock-all returns,
leaving `c` with an empty owner-list and owner of no mutex, without changing
the owner of any mutex `c` did not own. -/
theorem C21_unlock_stacked (c : Nat) (s : MtxSys) (hwf : s.WF)
    (hrun : (s.threads c).p_wtmtxp = none) :
    (∀ mp rest, (s.threads c).p_mtxlist = mp :: rest →
      ∃ s1, chMtxUnlockS c s = some (mp, s1) ∧ (s.mutexes mp).m_owner = some c ∧
        (s1.mutexes mp).m_owner = none ∧ (s1.threads c).p_mtxlist = rest ∧
        (∀ m, m ≠ mp → s1.mutexes m = s.mutexes m)) ∧
    (∀ mp s1, chMtxUnlockS c s = some (mp, s1) →
      (s.mutexes mp).m_owner = some c ∧ (s.threads c).p_mtxlist.head? = some mp) ∧
    ((∀ m, (s.mutexes m).m_owner ≠ some c) → chMtxUnlockS c s = none) ∧
    (∀ fuel m, (s.mutexes m).m_owner = none →
      ∃ s1 s2, chMtxLockS fuel c m s = some s1 ∧
        (s1.threads c).p_mtxlist = m :: (s.threads c).p_mtxlist ∧
        chMtxUnlockS c s1 = some (m, s2) ∧
        (s2.threads c).p_mtxlist = (s.threads c).p_mtxlist) ∧
    (∃ s1, chMtxUnlockAll c s = some s1 ∧ (s1.threads c).p_mtxlist = [] ∧
      (∀ m, (s1.mutexes m).m_owner ≠ some c) ∧
      (∀ m, (s.mutexes m).m_owner ≠ some c →
        (s1.mutexes m).m_owner = (s.mutexes m).m_owner)) := by
  refine ⟨?_, ?_, ?_, ?_, ?_⟩
  · intro mp rest hl
    obtain ⟨s1, hu⟩ := unlock_head c mp rest s hwf hrun hl
    obtain ⟨r, f⟩ := chMtxUnlockS_facts c mp s s1 hwf hu
    have hr : r = rest := by
      have := f.list_eq
      rw [hl] at this
      exact (List.cons.inj this).2.symm
    exact ⟨s1, hu, f.owned, f.released, by rw [f.list_self, hr], f.other_mutex⟩
  · intro mp s1 hu
    obtain ⟨_, rest, hl, ho, _⟩ := chMtxUnlockS_cases c mp s s1 hu
    exact ⟨ho, by rw [hl]; rfl⟩
  · intro hnone
    have hl : (s.threads c).p_mtxlist = [] := by
      cases hl : (s.threads c).p_mtxlist with
      | nil => rfl
      | cons mp rest =>
        exact absurd (hwf.2.2.2.1 c mp (by rw [hl]; exact List.mem_cons_self _ _)) (hnone mp)
    unfold chMtxUnlockS
    simp [hrun, hl]
  · intro fuel m hfree
    have hwf1 := (lock_acquire_preserves c m s hwf hfree).1
    have hlock : chMtxLockS fuel c m s
        = some ((s.setMutex m { s.mutexes m with
            m_owner := some c, m_next := (s.threads c).p_mtxlist.head? }).setThread c
          { s.threads c with p_mtxlist := m :: (s.threads c).p_mtxlist }) := by
      unfold chMtxLockS
      rw [if_neg (by rw [hrun]; exact fun h => h rfl)]
      simp only [hfree]
      rfl
    have hl1 : (((s.setMutex m { s.mutexes m with
            m_owner := some c, m_next := (s.threads c).p_mtxlist.head? }).setThread c
          { s.threads c with p_mtxlist := m :: (s.threads c).p_mtxlist }).threads c).p_mtxlist
        = m :: (s.threads c).p_mtxlist := by
      simp [MtxSys.setThread, MtxSys.setMutex]
    have hrun1 : (((s.setMutex m { s.mutexes m with
            m_owner := some c, m_next := (s.threads c).p_mtxlist.head? }).setThread c
          { s.threads c with p_mtxlist := m :: (s.threads c).p_mtxlist }).threads c).p_wtmtxp
        = none := by
      simp [MtxSys.setThread, MtxSys.setMutex, hrun]
    obtain ⟨s2, hu⟩ := unlock_head c m _ _ hwf1 hrun1 hl1
    obtain ⟨r, f⟩ := chMtxUnlockS_facts c m _ s2 hwf1 hu
    have hr : r = (s.threads c).p_mtxlist := by
      have := f.list_eq
      rw [hl1] at this
      exact (List.cons.inj this).2.symm
    exact ⟨_, s2, hlock, hl1, hu, by rw [f.list_self, hr]⟩
  · obtain ⟨s1, h1, hwf1, hl1, _, _, hown⟩ :=
      unlockAll_loop_spec c (s.threads c).p_mtxlist.length s hwf hrun (Nat.le_refl _)
    refine ⟨s1, ?_, hl1, ?_, hown⟩
    · unfold chMtxUnlockAll
      simp [hrun, h1]
    · intro m hm
      have := hwf1.2.2.1 m c hm
      rw [hl1] at this
      exact List.not_mem_nil _ this

theorem mtxNested_WF : mtxNested.WF := by
  refine ⟨?_, ?_, ?_, ?_, ?_⟩
  · intro m h hm
    by_cases e0 : m = 0
    · simp [mtxNested, e0] at hm
    · by_cases e1 : m = 1 <;> simp [mtxNested, e0, e1] at hm
  · intro m
    by_cases e0 : m = 0
    · simp [mtxNested, e0]
    · by_cases e1 : m = 1 <;> simp [mtxNested, e0, e1]
  · intro m l hl
    by_cases e0 : m = 0
    · subst e0
      have : l = 2 := by simpa [mtxNested] using hl.symm
      subst this
      simp [mtxNested]
    · by_cases e1 : m = 1
      · subst e1
        have : l = 2 := by simpa [mtxNested] using hl.symm
        subst this
        simp [mtxNested]
      · simp [mtxNested, e0, e1] at hl
  · intro t m hm
    by_cases e1 : t = 1
    · subst e1; simp [mtxNested] at hm
    · by_cases e2 : t = 2
      · subst e2
        have : m = 1 ∨ m = 0 := by simpa [mtxNested] using hm
        rcases this with h | h <;> subst h <;> simp [mtxNested]
      · simp [mtxNested, e1, e2] at hm
  · intro t
    by_cases e1 : t = 1
    · subst e1; simp [mtxNested]
    · by_cases e2 : t = 2
      · subst e2; simp [mtxNested]
      · simp [mtxNested, e1, e2]

theorem C21_unlock_stacked_witness :
    mtxNested.WF ∧ (mtxNested.threads 2).p_wtmtxp = none ∧
    (mtxNested.threads 2).p_mtxlist = [1, 0] ∧
    (∃ s1, chMtxUnlockS 2 mtxNested = some (1, s1) ∧ (s1.threads 2).p_mtxlist = [0]) ∧
    (∃ s1, chMtxUnlockAll 2 mtxNested = some s1 ∧ (s1.threads 2).p_mtxlist = []) := by
  have h := C21_unlock_stacked 2 mtxNested mtxNested_WF rfl
  refine ⟨mtxNested_WF, rfl, rfl, ?_, ?_⟩
  · obtain ⟨s1, hu, _, _, hl, _⟩ := h.1 1 [0] rfl
    exact ⟨s1, hu, hl⟩
  · obtain ⟨s1, hu, hl, _⟩ := h.2.2.2.2
    exact ⟨s1, hu, hl⟩


/-! ## Claim C22: virtual timers fire in deadline order -/

end ChibiOS
